import Mathlib

/-!
# SVG serialisation of a zint vector scene (`extension/svg.c`)

A shallow embedding of `svg.c`: the colour table, the entity escaper, the float
formatter `out_putsf_patched`, and `svg_plot_string` with its rectangle, hexagon,
circle and text loops.

Conventions of the embedding
* a C string is the list of its `char` cells before the terminating NUL
  (`List Char`, one `Char` per cell); the `sds` output buffer is a `List Char`
  that only grows by appending;
* `int` values are `Int`; `unsigned char` values are `Nat` below 256;
* `float` values are the type `F32` below (exact binary32 values, signed zero,
  infinities and NaN);
* the singly linked shape lists are `List`s (`NULL` is `[]`).
-/

namespace ZintSvg

/-! ## Colour table -/

/-- The table `rgbs[8][7]` of `svg_pick_colour`. -/
def rgbs : List (List Char) :=
  [ "00ffff".toList,  -- 0: Cyan (1)
    "0000ff".toList,  -- 1: Blue (2)
    "ff00ff".toList,  -- 2: Magenta (3)
    "ff0000".toList,  -- 3: Red (4)
    "ffff00".toList,  -- 4: Yellow (5)
    "00ff00".toList,  -- 5: Green (6)
    "000000".toList,  -- 6: Black (7)
    "ffffff".toList ] -- 7: White (8)

/-- Convert Ultracode rectangle colour to RGB: the string copied to `colour_code`. -/
def svg_pick_colour (colour : Int) : List Char :=
  let idx : Nat := if colour ≥ 1 ∧ colour ≤ 8 then (colour - 1).toNat else 6
  rgbs.getD idx []

/-! ## Entity escaper -/

/-- The NUL character that ends a C string. -/
def NUL : Char := Char.ofNat 0

/-- The double quote character. -/
def DQUOTE : Char := Char.ofNat 34

/-- The single quote character. -/
def SQUOTE : Char := Char.ofNat 39

/-- Convert text to use HTML entity codes.  The argument is the memory read
through `string` (reading stops at the first NUL, or at the end of the list,
which stands for the terminator); the result is the C string left in
`html_version`. -/
def svg_make_html_friendly : List Char → List Char
  | [] => []
  | c :: rest =>
    if c = NUL then []
    else if c = '>' then "&gt;".toList ++ svg_make_html_friendly rest
    else if c = '<' then "&lt;".toList ++ svg_make_html_friendly rest
    else if c = '&' then "&amp;".toList ++ svg_make_html_friendly rest
    else if c = DQUOTE then "&quot;".toList ++ svg_make_html_friendly rest
    else if c = SQUOTE then "&apos;".toList ++ svg_make_html_friendly rest
    else c :: svg_make_html_friendly rest

/-- The image of one input byte under the escaping contract: the five special
characters map to their named entity, every other byte to itself. -/
def entity_image (c : Char) : List Char :=
  if c = '>' then "&gt;".toList
  else if c = '<' then "&lt;".toList
  else if c = '&' then "&amp;".toList
  else if c = DQUOTE then "&quot;".toList
  else if c = SQUOTE then "&apos;".toList
  else [c]

/-! ## Binary32 values -/

/-- A C `float` (IEEE 754 binary32).  `fin neg mant exp` is the finite value
`(-1)^neg * mant * 2^exp`; the bounds make these exactly the finite binary32
values (several triples may denote the same value; every operation below
depends on the value and the sign only). -/
inductive F32 where
  | fin (neg : Bool) (mant : Nat) (exp : Int)
      (hm : mant < 2 ^ 24) (hlo : -149 ≤ exp) (hhi : exp ≤ 104)
  | inf (neg : Bool)
  | nan (neg : Bool)

/-- The exact rational value of a finite float (0 for infinities and NaN). -/
def F32.toRat : F32 → ℚ
  | .fin neg mant exp _ _ _ => (if neg then -1 else 1) * (mant : ℚ) * (2 : ℚ) ^ exp
  | .inf _ => 0
  | .nan _ => 0

/-- Finite values. -/
def F32.isFinite : F32 → Bool
  | .fin _ _ _ _ _ _ => true
  | _ => false

/-- Nearest integer to `n / d`, ties to the even integer (`d` positive). -/
def round_half_even (n d : Nat) : Nat :=
  let q := n / d
  let r := n % d
  if 2 * r < d then q
  else if d < 2 * r then q + 1
  else if q % 2 = 0 then q else q + 1

/-! ## The C library call of the formatter: fixed-point rendering -/

/-- Decimal digits of `n`, most significant first (`fuel` bounds the recursion;
`n` itself is always enough). -/
def dec_digits : Nat → Nat → List Char
  | 0, n => [Nat.digitChar (n % 10)]
  | fuel + 1, n =>
    if n < 10 then [Nat.digitChar n]
    else dec_digits fuel (n / 10) ++ [Nat.digitChar (n % 10)]

/-- The last `width` decimal digits of `n`, zero padded on the left. -/
def zero_padded : Nat → Nat → List Char
  | 0, _ => []
  | width + 1, n => zero_padded width (n / 10) ++ [Nat.digitChar (n % 10)]

/-- The magnitude `mant * 2^exp` scaled by `10^prec` and rounded to the nearest
integer, ties to even: the digits that `%.*f` prints, without the point. -/
def fixed_scaled (mant : Nat) (exp : Int) (prec : Nat) : Nat :=
  if 0 ≤ exp then mant * 2 ^ exp.toNat * 10 ^ prec
  else round_half_even (mant * 10 ^ prec) (2 ^ (-exp).toNat)

/-- The precision `%.*f` uses for the `int` argument `dp`: a negative precision
argument is taken as if the precision were omitted, which is 6 for `f`. -/
def fixed_prec (dp : Int) : Nat := if dp < 0 then 6 else dp.toNat

/-- The sign bit of a float. -/
def F32.signbit : F32 → Bool
  | .fin neg _ _ _ _ _ => neg
  | .inf neg => neg
  | .nan neg => neg

/-- The sign printed for a float: a minus when the sign bit is set. -/
def fixed_sign (arg : F32) : List Char := if arg.signbit then ['-'] else []

/-- The digits before the decimal point (`inf` and `nan` for the non-finite
values). -/
def fixed_int (dp : Int) (arg : F32) : List Char :=
  match arg with
  | .fin _ mant exp _ _ _ =>
    let q := fixed_scaled mant exp (fixed_prec dp)
    dec_digits (q / 10 ^ fixed_prec dp) (q / 10 ^ fixed_prec dp)
  | .inf _ => "inf".toList
  | .nan _ => "nan".toList

/-- The digits after the decimal point: exactly `fixed_prec dp` of them for a
finite value. -/
def fixed_frac (dp : Int) (arg : F32) : List Char :=
  match arg with
  | .fin _ mant exp _ _ _ =>
    zero_padded (fixed_prec dp) (fixed_scaled mant exp (fixed_prec dp) % 10 ^ fixed_prec dp)
  | .inf _ => []
  | .nan _ => []

/-- The characters `sprintf(buf, "%.*f", dp, arg)` stores in `buf` (the `float`
is promoted to `double` exactly) in the C locale: sign, integer digits and,
when the precision is not 0, the point and the fractional digits; the exact
value is rounded to the nearest decimal, ties to even.  The return value `len`
is the length of this list. -/
def sprintf_f (dp : Int) (arg : F32) : List Char :=
  match arg with
  | .fin _ _ _ _ _ _ =>
    fixed_sign arg ++ fixed_int dp arg ++
      (if fixed_prec dp = 0 then [] else '.' :: fixed_frac dp arg)
  | _ => fixed_sign arg ++ fixed_int dp arg

/-! ## Float formatter -/

/-- Modelled from the spec: the macro `z_isdigit` of the zint backend header
`common.h`, which the formatter uses and which is not among the sources at
hand; it is the test for a decimal digit, `0` to `9` (the formatter reads a
character that is "not digit or minus" as the decimal point). -/
def z_isdigit (c : Char) : Bool := decide ('0' ≤ c) && decide (c ≤ '9')

/-- The trimming loop of `out_putsf_patched`,
`for (i = len - 1, end = len; i >= 0; i--)`.  The first `Nat` is `i + 1` (so 0
is the loop exit), the second is `end`.  The result is the C string left in
`buf`: `buf` itself when the loop runs to the end without finding a decimal
point, and the first `end` cells once `buf[end] = 0` has been stored. -/
def trim_loop (buf : List Char) : Nat → Nat → List Char
  | 0, _ => buf
  | i + 1, e =>
    let c := buf.getD i NUL
    if c = '0' then
      trim_loop buf i (if e = i + 1 then i else e)
    else if !z_isdigit c && c != '-' then
      if e = i + 1 then buf.take i
      else (buf.set i '.').take e
    else trim_loop buf i e

/-- Output float without trailing zeroes to `fp` with decimal pts `dp`
(precision).  `pre` is the parameter `prefix`.  The result is the new content
of `*fp`; it is `none` when `sprintf` would store more than the 256 bytes of
`buf` (the source assumes `dp` reasonable). -/
def out_putsf_patched (pre : List Char) (dp : Int) (arg : F32) (fp : List Char) :
    Option (List Char) :=
  let buf := sprintf_f dp arg
  let len := buf.length
  if len + 1 ≤ 256 then
    let fp1 := if pre ≠ [] then fp ++ pre else fp
    some (fp1 ++ trim_loop buf len len)
  else none

/-- All trailing `0` characters removed. -/
def drop_trailing_zeros (ds : List Char) : List Char :=
  (ds.reverse.dropWhile (fun c => c == '0')).reverse

/-- The fractional part after trimming: the fractional digits without their
trailing zeros, preceded by the point unless no digit is left. -/
def stripped_frac (ds : List Char) : List Char :=
  if drop_trailing_zeros ds = [] then [] else '.' :: drop_trailing_zeros ds

/-- The number proper that the formatter appends for `arg` at `dp` decimals:
the C string left in `buf` by the trimming loop. -/
def out_float (dp : Int) (arg : F32) : List Char :=
  trim_loop (sprintf_f dp arg) (sprintf_f dp arg).length (sprintf_f dp arg).length

/-- Value of a string of decimal digits. -/
def digits_val (ds : List Char) : Nat :=
  ds.foldl (fun acc c => 10 * acc + (c.toNat - 48)) 0

/-- The number denoted by a decimal string: an optional minus sign, integer
digits and, after an optional point, fractional digits. -/
def parse_decimal (s : List Char) : ℚ :=
  let neg := s.head? = some '-'
  let body := if neg then s.tail else s
  let ip := body.takeWhile (fun c => c != '.')
  let fr := (body.dropWhile (fun c => c != '.')).tail
  let mag : ℚ := (digits_val ip : ℚ) + (digits_val fr : ℚ) / (10 : ℚ) ^ fr.length
  if neg then -mag else mag

/-! ## Binary32 arithmetic used by the plotter -/

/-- Number of binary digits of `n` (`fuel` bounds the recursion; `n` is enough). -/
def bit_length : Nat → Nat → Nat
  | 0, _ => 0
  | fuel + 1, n => if n = 0 then 0 else bit_length fuel (n / 2) + 1

/-- The binary32 value nearest to `(-1)^neg * n / d` (`d` positive), ties to
even, overflowing to infinity. -/
def F32.round (neg : Bool) (n d : Nat) : F32 :=
  if n = 0 then .fin neg 0 0 (by decide) (by decide) (by decide)
  else
    let k0 : Int := (bit_length n n : Int) - (bit_length d d : Int)
    let ge : Bool := if 0 ≤ k0 then decide (d * 2 ^ k0.toNat ≤ n) else decide (d ≤ n * 2 ^ (-k0).toNat)
    let k : Int := if ge then k0 else k0 - 1
    let p : Int := max (k - 23) (-149)
    let m : Nat :=
      if 0 ≤ p then round_half_even n (d * 2 ^ p.toNat)
      else round_half_even (n * 2 ^ (-p).toNat) d
    let m1 : Nat := if m = 2 ^ 24 then 2 ^ 23 else m
    let p1 : Int := if m = 2 ^ 24 then p + 1 else p
    if h : m1 < 2 ^ 24 ∧ -149 ≤ p1 ∧ p1 ≤ 104 then .fin neg m1 p1 h.1 h.2.1 h.2.2
    else .inf neg

/-- Sign change. -/
def F32.neg : F32 → F32
  | .fin neg mant exp hm hlo hhi => .fin (!neg) mant exp hm hlo hhi
  | .inf neg => .inf (!neg)
  | .nan neg => .nan (!neg)

/-- The signed integer `± mant * 2^(exp - e)` for `e ≤ exp`. -/
def F32.scaledInt (neg : Bool) (mant : Nat) (exp e : Int) : Int :=
  (if neg then -1 else 1) * ((mant * 2 ^ (exp - e).toNat : Nat) : Int)

/-- Binary32 addition `a + b`.  A NaN operand is the result, with its sign (the
first operand when both are NaN); an invalid operation gives the default NaN,
whose sign bit is set (as on x86-64, where the formatter prints it `-nan`). -/
def F32.add : F32 → F32 → F32
  | .nan s, _ => .nan s
  | _, .nan s => .nan s
  | .inf s, .inf t => if s = t then .inf s else .nan true
  | .inf s, .fin _ _ _ _ _ _ => .inf s
  | .fin _ _ _ _ _ _, .inf t => .inf t
  | .fin na ma ea _ _ _, .fin nb mb eb _ _ _ =>
    let e := min ea eb
    let sum := F32.scaledInt na ma ea e + F32.scaledInt nb mb eb e
    if sum = 0 then .fin (na && nb) 0 0 (by decide) (by decide) (by decide)
    else if 0 ≤ e then F32.round (decide (sum < 0)) (sum.natAbs * 2 ^ e.toNat) 1
    else F32.round (decide (sum < 0)) sum.natAbs (2 ^ (-e).toNat)

/-- Binary32 subtraction `a - b`: a NaN operand is the result, with its sign
unchanged; otherwise `a + (-b)`. -/
def F32.sub : F32 → F32 → F32
  | .nan s, _ => .nan s
  | _, .nan s => .nan s
  | a, b => F32.add a (F32.neg b)

/-- Binary32 multiplication `a * b`. -/
def F32.mul : F32 → F32 → F32
  | .nan s, _ => .nan s
  | _, .nan s => .nan s
  | .inf s, .inf t => .inf (xor s t)
  | .inf s, .fin nb mb _ _ _ _ => if mb = 0 then .nan true else .inf (xor s nb)
  | .fin na ma _ _ _ _, .inf t => if ma = 0 then .nan true else .inf (xor na t)
  | .fin na ma ea _ _ _, .fin nb mb eb _ _ _ =>
    if 0 ≤ ea + eb then F32.round (xor na nb) (ma * mb * 2 ^ (ea + eb).toNat) 1
    else F32.round (xor na nb) (ma * mb) (2 ^ (-(ea + eb)).toNat)

/-- Binary32 division `a / b`. -/
def F32.div : F32 → F32 → F32
  | .nan s, _ => .nan s
  | _, .nan s => .nan s
  | .inf _, .inf _ => .nan true
  | .inf s, .fin nb _ _ _ _ _ => .inf (xor s nb)
  | .fin na _ _ _ _ _, .inf t => .fin (xor na t) 0 0 (by decide) (by decide) (by decide)
  | .fin na ma ea _ _ _, .fin nb mb eb _ _ _ =>
    if mb = 0 then (if ma = 0 then .nan true else .inf (xor na nb))
    else F32.round (xor na nb) (ma * 2 ^ (ea - eb).toNat) (mb * 2 ^ (eb - ea).toNat)

/-- The comparison `a != b` of two floats. -/
def F32.ne : F32 → F32 → Bool
  | .nan _, _ => true
  | _, .nan _ => true
  | .inf s, .inf t => s != t
  | .inf _, .fin _ _ _ _ _ _ => true
  | .fin _ _ _ _ _ _, .inf _ => true
  | .fin na ma ea _ _ _, .fin nb mb eb _ _ _ =>
    F32.scaledInt na ma ea (min ea eb) != F32.scaledInt nb mb eb (min ea eb)

/-- A float used as a condition: true unless it is a zero. -/
def F32.nonzero : F32 → Bool
  | .fin _ mant _ _ _ _ => mant != 0
  | _ => true

/-- Conversion of an `unsigned char` (or any integer below `2^24`) to float. -/
def F32.ofNat (n : Nat) : F32 := F32.round false n 1

/-- The C function `ceilf`. -/
def F32.ceilf : F32 → F32
  | .fin neg mant exp hm hlo hhi =>
    if 0 ≤ exp then .fin neg mant exp hm hlo hhi
    else if neg then F32.round true (mant / 2 ^ (-exp).toNat) 1
    else F32.round false ((mant + 2 ^ (-exp).toNat - 1) / 2 ^ (-exp).toNat) 1
  | v => v

/-- The conversion `(int)v`: the value truncated toward zero when that is an
`int`; otherwise the conversion is undefined in C and the result is taken from
`undef`. -/
def F32.toInt (undef : F32 → Int) : F32 → Int
  | .fin neg mant exp hm hlo hhi =>
    let mag : Nat := if 0 ≤ exp then mant * 2 ^ exp.toNat else mant / 2 ^ (-exp).toNat
    let t : Int := if neg then -(mag : Int) else (mag : Int)
    if -2147483648 ≤ t ∧ t ≤ 2147483647 then t else undef (.fin neg mant exp hm hlo hhi)
  | v => undef v

/-- The constant `0.0f`. -/
def F32.zero : F32 := .fin false 0 0 (by decide) (by decide) (by decide)

/-- The constant `0.5f`. -/
def F32.half : F32 := .fin false 1 (-1) (by decide) (by decide) (by decide)

/-- The constant `0.25f`. -/
def F32.quarter : F32 := .fin false 1 (-2) (by decide) (by decide) (by decide)

/-- The constant `0.43301270189221932338f`. -/
def F32.sqrt3_4 : F32 := F32.round false 43301270189221932338 100000000000000000000

/-- The constant `255.0f`. -/
def F32.c255 : F32 := .fin false 255 0 (by decide) (by decide) (by decide)

/-! ## Integer conversions of `printf` -/

/-- The characters printed for `%d`. -/
def sprintf_d (i : Int) : List Char :=
  if i < 0 then '-' :: dec_digits i.natAbs i.natAbs else dec_digits i.natAbs i.natAbs

/-- One upper-case hexadecimal digit. -/
def hex_upper (d : Nat) : Char :=
  if d < 10 then Nat.digitChar d else Char.ofNat (55 + d)

/-- The characters printed for `%02X` with an `unsigned char` argument. -/
def sprintf_02X (b : Nat) : List Char :=
  [hex_upper (b / 16 % 16), hex_upper (b % 16)]

/-! ## The vector scene (`zint.h`) -/

/-- Rectangle of the vector scene; `colour` is -1 for the foreground colour or
an Ultracode colour code 1 to 8. -/
structure zint_vector_rect where
  x : F32
  y : F32
  height : F32
  width : F32
  colour : Int

/-- Hexagon of the vector scene. -/
structure zint_vector_hexagon where
  x : F32
  y : F32
  diameter : F32
  rotation : Int

/-- Text label of the vector scene; `text` is the memory read through the
pointer `text`. -/
structure zint_vector_string where
  x : F32
  y : F32
  fsize : F32
  width : F32
  length : Int
  rotation : Int
  halign : Int
  text : List Char

/-- Circle of the vector scene; `width` is the stroke width (0 for a filled
disc) and a non-zero `colour` selects the background colour. -/
structure zint_vector_circle where
  x : F32
  y : F32
  diameter : F32
  width : F32
  colour : Int

/-- The vector header: canvas extents and the four shape lists. -/
structure zint_vector where
  width : F32
  height : F32
  rectangles : List zint_vector_rect
  hexagons : List zint_vector_hexagon
  strings : List zint_vector_string
  circles : List zint_vector_circle

/-- The fields of `struct zint_symbol` that `svg_plot_string` reads; `vector`
is `none` for a NULL pointer. -/
structure zint_symbol where
  symbology : Int
  output_options : Int
  fgcolour : List Char
  bgcolour : List Char
  text : List Char
  vector : Option zint_vector

/-- What `svg.c` takes from the rest of the zint backend and from the C
implementation: the helper functions `is_upcean` and `out_colour_get_rgb`, the
option bits and the error code of `zint.h`, the two font blobs, and the result
of an out-of-range conversion from float to `int`. -/
structure Backend where
  is_upcean : Int → Bool
  out_colour_get_rgb : List Char → Nat × Nat × Nat × Nat
  EANUPC_GUARD_WHITESPACE : Int
  EMBED_VECTOR_FONT : Int
  BOLD_TEXT : Int
  ZINT_ERROR_INVALID_DATA : Int
  upcean_woff2 : List Char
  normal_woff2 : List Char
  float_to_int_undefined : F32 → Int

/-- What a call of `svg_plot_string` leaves behind: the returned buffer (`none`
is NULL), the text stored in `symbol->errtxt` and the value stored through
`error_code` (`none` when the call does not store there). -/
structure PlotOutcome where
  ret : Option (List Char)
  errtxt : Option (List Char)
  error_code : Option Int

/-! ## Attribute helpers -/

/-- Helper to output floating point attribute. -/
def svg_put_fattrib (pre : List Char) (dp : Int) (val : F32) (fsvg : List Char) :
    Option (List Char) :=
  (out_putsf_patched pre dp val fsvg).bind fun fsvg => some (fsvg ++ [DQUOTE])

/-- Helper to output opacity attribute attribute and close tag (maybe). -/
def svg_put_opacity_close (alpha : Nat) (val : F32) (close : Int) (fsvg : List Char) :
    Option (List Char) :=
  (if alpha ≠ 255 then svg_put_fattrib " opacity=\"".toList 3 val fsvg else some fsvg).bind
    fun fsvg =>
  let fsvg := if close ≠ 0 then fsvg ++ "/".toList else fsvg
  some (fsvg ++ ">\n".toList)

/-- The opacity computed for an alpha byte at the start of `svg_plot_string`:
`alpha / 255.0f` when `alpha != 0xff`, and the initial `0.0f` otherwise. -/
def alpha_opacity (alpha : Nat) : F32 :=
  if alpha ≠ 255 then F32.div (F32.ofNat alpha) F32.c255 else F32.zero

/-! ## Rectangles (`svg_plot_string`, the block of `symbol->vector->rectangles`) -/

/-- The five formatter calls and the `Z` that one rectangle appends. -/
def rect_subpath (rect : zint_vector_rect) (fsvg : List Char) : Option (List Char) :=
  (out_putsf_patched "M".toList 2 rect.x fsvg).bind fun fsvg =>
  (out_putsf_patched " ".toList 2 rect.y fsvg).bind fun fsvg =>
  (out_putsf_patched "h".toList 2 rect.width fsvg).bind fun fsvg =>
  (out_putsf_patched "v".toList 2 rect.height fsvg).bind fun fsvg =>
  (out_putsf_patched "h-".toList 2 rect.width fsvg).bind fun fsvg =>
  some (fsvg ++ "Z".toList)

/-- The end of a path element of the rectangle block: the closing quote of `d`,
the fill attribute unless the run colour is -1, and the opacity closing. -/
def rect_close (fg_alpha : Nat) (fg_alpha_opacity : F32) (current_colour : Int)
    (fsvg : List Char) : Option (List Char) :=
  let fsvg := fsvg ++ "\"".toList
  let fsvg :=
    if current_colour ≠ -1 then
      fsvg ++ " fill=\"#".toList ++ svg_pick_colour current_colour ++ "\"".toList
    else fsvg
  svg_put_opacity_close fg_alpha fg_alpha_opacity 1 fsvg

/-- One iteration of `while (rect)`: the new `current_colour` and buffer. -/
def rect_step (fg_alpha : Nat) (fg_alpha_opacity : F32) (current_colour : Int)
    (rect : zint_vector_rect) (fsvg : List Char) : Option (Int × List Char) :=
  (if current_colour ≠ 0 ∧ rect.colour ≠ current_colour then
      (rect_close fg_alpha fg_alpha_opacity current_colour fsvg).bind fun fsvg =>
      some (fsvg ++ "  <path d=\"".toList)
    else some fsvg).bind fun fsvg =>
  (rect_subpath rect fsvg).bind fun fsvg =>
  some (rect.colour, fsvg)

/-- The loop `while (rect)` over the rest of the list. -/
def rect_loop (fg_alpha : Nat) (fg_alpha_opacity : F32) :
    List zint_vector_rect → Int → List Char → Option (Int × List Char)
  | [], current_colour, fsvg => some (current_colour, fsvg)
  | rect :: next, current_colour, fsvg =>
    (rect_step fg_alpha fg_alpha_opacity current_colour rect fsvg).bind fun st =>
    rect_loop fg_alpha fg_alpha_opacity next st.1 st.2

/-- The block `if (symbol->vector->rectangles) { ... }`. -/
def plot_rectangles (fg_alpha : Nat) (fg_alpha_opacity : F32)
    (rectangles : List zint_vector_rect) (fsvg : List Char) : Option (List Char) :=
  if rectangles.isEmpty then some fsvg
  else
    (rect_loop fg_alpha fg_alpha_opacity rectangles 0 (fsvg ++ "  <path d=\"".toList)).bind
      fun st =>
    rect_close fg_alpha fg_alpha_opacity st.1 st.2

/-! ## Hexagons -/

/-- The cached values of the hexagon loop. -/
structure HexCache where
  previous_diameter : F32
  radius : F32
  half_radius : F32
  half_sqrt3_radius : F32

/-- The cache update `if (previous_diameter != hex->diameter) { ... }`. -/
def hex_cache (c : HexCache) (hex : zint_vector_hexagon) : HexCache :=
  if F32.ne c.previous_diameter hex.diameter then
    { previous_diameter := hex.diameter
      radius := F32.mul F32.half hex.diameter
      half_radius := F32.mul F32.quarter hex.diameter
      half_sqrt3_radius := F32.mul F32.sqrt3_4 hex.diameter }
  else c

/-- The six vertices of a hexagon in the order they are written, for the cache
values in force. -/
def hex_vertices (c : HexCache) (hex : zint_vector_hexagon) : List (F32 × F32) :=
  if hex.rotation = 0 ∨ hex.rotation = 180 then
    [ (hex.x, F32.add hex.y c.radius),
      (F32.add hex.x c.half_sqrt3_radius, F32.add hex.y c.half_radius),
      (F32.add hex.x c.half_sqrt3_radius, F32.sub hex.y c.half_radius),
      (hex.x, F32.sub hex.y c.radius),
      (F32.sub hex.x c.half_sqrt3_radius, F32.sub hex.y c.half_radius),
      (F32.sub hex.x c.half_sqrt3_radius, F32.add hex.y c.half_radius) ]
  else
    [ (F32.sub hex.x c.radius, hex.y),
      (F32.sub hex.x c.half_radius, F32.add hex.y c.half_sqrt3_radius),
      (F32.add hex.x c.half_radius, F32.add hex.y c.half_sqrt3_radius),
      (F32.add hex.x c.radius, hex.y),
      (F32.add hex.x c.half_radius, F32.sub hex.y c.half_sqrt3_radius),
      (F32.sub hex.x c.half_radius, F32.sub hex.y c.half_sqrt3_radius) ]

/-- The formatter calls for a list of vertices: `cmd` then x, a space then y,
and `L` as the command of every later vertex. -/
def put_vertices : List Char → List (F32 × F32) → List Char → Option (List Char)
  | _, [], fsvg => some fsvg
  | cmd, v :: rest, fsvg =>
    (out_putsf_patched cmd 2 v.1 fsvg).bind fun fsvg =>
    (out_putsf_patched " ".toList 2 v.2 fsvg).bind fun fsvg =>
    put_vertices "L".toList rest fsvg

/-- The loop `while (hex)`. -/
def hex_loop : List zint_vector_hexagon → HexCache → List Char → Option (List Char)
  | [], _, fsvg => some fsvg
  | hex :: next, c, fsvg =>
    (put_vertices "M".toList (hex_vertices (hex_cache c hex) hex) fsvg).bind fun fsvg =>
    hex_loop next (hex_cache c hex) (fsvg ++ "Z".toList)

/-- The block `if (symbol->vector->hexagons) { ... }`. -/
def plot_hexagons (fg_alpha : Nat) (fg_alpha_opacity : F32)
    (hexagons : List zint_vector_hexagon) (fsvg : List Char) : Option (List Char) :=
  if hexagons.isEmpty then some fsvg
  else
    (hex_loop hexagons ⟨F32.zero, F32.zero, F32.zero, F32.zero⟩
      (fsvg ++ "  <path d=\"".toList)).bind fun fsvg =>
    svg_put_opacity_close fg_alpha fg_alpha_opacity 1 (fsvg ++ "\"".toList)

/-! ## Circles -/

/-- One iteration of `while (circle)`; `radius` is the cached radius after the
update for this circle. -/
def circle_step (fgcolour_string bgcolour_string : List Char) (fg_alpha bg_alpha : Nat)
    (fg_alpha_opacity bg_alpha_opacity : F32) (radius : F32)
    (circle : zint_vector_circle) (fsvg : List Char) : Option (List Char) :=
  (svg_put_fattrib " cx=\"".toList 2 circle.x (fsvg ++ "  <circle".toList)).bind fun fsvg =>
  (svg_put_fattrib " cy=\"".toList 2 circle.y fsvg).bind fun fsvg =>
  (svg_put_fattrib " r=\"".toList (if circle.width.nonzero then 3 else 2) radius fsvg).bind
    fun fsvg =>
  if circle.colour ≠ 0 then
    (if circle.width.nonzero then
        (svg_put_fattrib " stroke-width=\"".toList 3 circle.width
          (fsvg ++ " stroke=\"#".toList ++ bgcolour_string ++ "\"".toList)).bind fun fsvg =>
        some (fsvg ++ " fill=\"none\"".toList)
      else some (fsvg ++ " fill=\"#".toList ++ bgcolour_string ++ "\"".toList)).bind
      fun fsvg =>
    svg_put_opacity_close bg_alpha bg_alpha_opacity 1 fsvg
  else
    (if circle.width.nonzero then
        (svg_put_fattrib " stroke-width=\"".toList 3 circle.width
          (fsvg ++ " stroke=\"#".toList ++ fgcolour_string ++ "\"".toList)).bind fun fsvg =>
        some (fsvg ++ " fill=\"none\"".toList)
      else some fsvg).bind fun fsvg =>
    svg_put_opacity_close fg_alpha fg_alpha_opacity 1 fsvg

/-- The loop `while (circle)` with the cached `previous_diameter` and `radius`. -/
def circle_loop (fgcolour_string bgcolour_string : List Char) (fg_alpha bg_alpha : Nat)
    (fg_alpha_opacity bg_alpha_opacity : F32) :
    List zint_vector_circle → F32 → F32 → List Char → Option (List Char)
  | [], _, _, fsvg => some fsvg
  | circ :: next, previous_diameter, radius, fsvg =>
    let changed := F32.ne previous_diameter circ.diameter
    let previous_diameter := if changed then circ.diameter else previous_diameter
    let radius := if changed then F32.mul F32.half previous_diameter else radius
    (circle_step fgcolour_string bgcolour_string fg_alpha bg_alpha fg_alpha_opacity
      bg_alpha_opacity radius circ fsvg).bind fun fsvg =>
    circle_loop fgcolour_string bgcolour_string fg_alpha bg_alpha fg_alpha_opacity
      bg_alpha_opacity next previous_diameter radius fsvg

/-! ## Text labels -/

/-- Bytes that `svg_make_html_friendly` stores through `html_version` for a
label: the escaped text and the terminating NUL. -/
def escaped_size (text : List Char) : Nat := (svg_make_html_friendly text).length + 1

/-- The call `svg_make_html_friendly(string->text, html_string)` where
`html_string` is the scratch buffer of `html_len` bytes: the escaped text left
in the buffer, or `none` when the escaped text and its NUL do not fit and the
escaper writes past the end of the buffer. -/
def escape_into (html_len : Int) (text : List Char) : Option (List Char) :=
  if (escaped_size text : Int) ≤ html_len then some (svg_make_html_friendly text) else none

/-- One iteration of `while (string)`; `html_len` is the size of the scratch
buffer `html_string`. -/
def string_step (upcean : Bool) (bold : Bool) (fg_alpha : Nat) (fg_alpha_opacity : F32)
    (html_len : Int) (string : zint_vector_string) (fsvg : List Char) :
    Option (List Char) :=
  let halign : List Char :=
    if string.halign = 2 then "end".toList
    else if string.halign = 1 then "start".toList
    else "middle".toList
  (svg_put_fattrib " x=\"".toList 2 string.x (fsvg ++ "  <text".toList)).bind fun fsvg =>
  (svg_put_fattrib " y=\"".toList 2 string.y fsvg).bind fun fsvg =>
  let fsvg := fsvg ++ " text-anchor=\"".toList ++ halign ++ "\"".toList
  let fsvg :=
    if upcean then fsvg ++ " font-family=\"".toList ++ "OCRB".toList ++ ", monospace\"".toList
    else fsvg ++ " font-family=\"".toList ++ "Arimo".toList ++ ", Arial, sans-serif\"".toList
  (svg_put_fattrib " font-size=\"".toList 1 string.fsize fsvg).bind fun fsvg =>
  let fsvg := if bold then fsvg ++ " font-weight=\"bold\"".toList else fsvg
  (if string.rotation ≠ 0 then
      (out_putsf_patched ",".toList 2 string.x
        (fsvg ++ " transform=\"rotate(".toList ++ sprintf_d string.rotation)).bind fun fsvg =>
      (out_putsf_patched ",".toList 2 string.y fsvg).bind fun fsvg =>
      some (fsvg ++ ")\"".toList)
    else some fsvg).bind fun fsvg =>
  (svg_put_opacity_close fg_alpha fg_alpha_opacity 0 fsvg).bind fun fsvg =>
  (escape_into html_len string.text).bind fun html_string =>
  some (fsvg ++ "   ".toList ++ html_string ++ "\n".toList ++ "  </text>\n".toList)

/-- The loop `while (string)`. -/
def string_loop (upcean : Bool) (bold : Bool) (fg_alpha : Nat) (fg_alpha_opacity : F32)
    (html_len : Int) : List zint_vector_string → List Char → Option (List Char)
  | [], fsvg => some fsvg
  | string :: next, fsvg =>
    (string_step upcean bold fg_alpha fg_alpha_opacity html_len string fsvg).bind fun fsvg =>
    string_loop upcean bold fg_alpha fg_alpha_opacity html_len next fsvg

/-! ## The document -/

/-- The C string in `text`: the cells before the first NUL. -/
def c_str (text : List Char) : List Char := text.takeWhile (fun c => c != NUL)

/-- The size `html_len` of the scratch buffer `html_string` that
`svg_plot_string` allocates before it writes anything. -/
def svg_html_len (b : Backend) (symbol : zint_symbol) : Int :=
  let specials := (c_str symbol.text).countP fun c =>
    c == '>' || c == '<' || c == DQUOTE || c == '&' || c == SQUOTE
  let html_len : Int := ((c_str symbol.text).length : Int) + 1 + 6 * (specials : Int)
  if Int.land symbol.output_options b.EANUPC_GUARD_WHITESPACE ≠ 0 then html_len + 12
  else html_len

/-- The six upper-case hexadecimal digits `"%02X%02X%02X"` of the red, green and
blue bytes that `out_colour_get_rgb` returns. -/
def colour_string (rgba : Nat × Nat × Nat × Nat) : List Char :=
  sprintf_02X (rgba.1 % 256) ++ sprintf_02X (rgba.2.1 % 256) ++ sprintf_02X (rgba.2.2.1 % 256)

/-- The width or height attribute of the root: `(int)ceilf(extent)` as `%d`. -/
def extent_text (b : Backend) (extent : F32) : List Char :=
  sprintf_d (F32.toInt b.float_to_int_undefined (F32.ceilf extent))

/-- The XML declaration, the DOCTYPE, the root tag and the description. -/
def header_text (b : Backend) (vector : zint_vector) : List Char :=
  ("<?xml version=\"1.0\" standalone=\"no\"?>\n" ++
    "<!DOCTYPE svg PUBLIC \"-//W3C//DTD SVG 1.1//EN\" " ++
    "\"http://www.w3.org/Graphics/SVG/1.1/DTD/svg11.dtd\">\n").toList ++
  "<svg width=\"".toList ++ extent_text b vector.width ++ "\" height=\"".toList ++
    extent_text b vector.height ++
    "\" version=\"1.1\" xmlns=\"http://www.w3.org/2000/svg\">\n".toList ++
  " <desc>Zint Generated Symbol</desc>\n".toList

/-- The style block with the embedded font, written when `EMBED_VECTOR_FONT` is
set and `symbol->vector->strings` is not NULL. -/
def style_text (b : Backend) (symbol : zint_symbol) (vector : zint_vector) : List Char :=
  if Int.land symbol.output_options b.EMBED_VECTOR_FONT ≠ 0 ∧ ¬ vector.strings.isEmpty then
    " <style>@font-face \x7bfont-family:\"".toList ++
      (if b.is_upcean symbol.symbology then "OCRB".toList else "Arimo".toList) ++
      "\"; src:url(data:font/woff2;base64,".toList ++
      (if b.is_upcean symbol.symbology then b.upcean_woff2 else b.normal_woff2) ++
      ");\x7d</style>\n".toList
  else []

/-- The opening of the group with the foreground colour as fill. -/
def group_text (b : Backend) (symbol : zint_symbol) : List Char :=
  " <g id=\"barcode\" fill=\"#".toList ++
    colour_string (b.out_colour_get_rgb symbol.fgcolour) ++ "\">\n".toList

/-- The block `if (bg_alpha != 0) { ... }` that writes the background rectangle. -/
def plot_background (b : Backend) (symbol : zint_symbol) (vector : zint_vector)
    (fsvg : List Char) : Option (List Char) :=
  let bg := b.out_colour_get_rgb symbol.bgcolour
  let bg_alpha := bg.2.2.2 % 256
  if bg_alpha ≠ 0 then
    svg_put_opacity_close bg_alpha (alpha_opacity bg_alpha) 1
      (fsvg ++ "  <rect x=\"0\" y=\"0\" width=\"".toList ++ extent_text b vector.width ++
        "\" height=\"".toList ++ extent_text b vector.height ++ "\" fill=\"#".toList ++
        colour_string bg ++ "\"".toList)
  else some fsvg

/-- The document written for a symbol with vector header `vector`: everything
`svg_plot_string` appends to `fsvg` from `sdsempty()` to the end of the SVG. -/
def svg_document (b : Backend) (symbol : zint_symbol) (vector : zint_vector) :
    Option (List Char) :=
  let upcean := b.is_upcean symbol.symbology
  let fg := b.out_colour_get_rgb symbol.fgcolour
  let fg_alpha := fg.2.2.2 % 256
  let fg_alpha_opacity := alpha_opacity fg_alpha
  let bg := b.out_colour_get_rgb symbol.bgcolour
  let bg_alpha := bg.2.2.2 % 256
  let bg_alpha_opacity := alpha_opacity bg_alpha
  let fsvg : List Char := []
  let fsvg := fsvg ++ header_text b vector
  let fsvg := fsvg ++ style_text b symbol vector
  let fsvg := fsvg ++ group_text b symbol
  (plot_background b symbol vector fsvg).bind fun fsvg =>
  (plot_rectangles fg_alpha fg_alpha_opacity vector.rectangles fsvg).bind fun fsvg =>
  (plot_hexagons fg_alpha fg_alpha_opacity vector.hexagons fsvg).bind fun fsvg =>
  (circle_loop (colour_string fg) (colour_string bg) fg_alpha bg_alpha fg_alpha_opacity
    bg_alpha_opacity vector.circles F32.zero F32.zero fsvg).bind fun fsvg =>
  let bold := decide (Int.land symbol.output_options b.BOLD_TEXT ≠ 0) && !upcean
  (string_loop upcean bold fg_alpha fg_alpha_opacity (svg_html_len b symbol) vector.strings
    fsvg).bind fun fsvg =>
  some (fsvg ++ (" </g>\n" ++ "</svg>\n").toList)

/-- The function `svg_plot_string`.  The outer `Option` is `none` when the call
writes past the end of a buffer: the 256 bytes of a formatter call, or the
`svg_html_len` bytes of the scratch buffer `html_string` into which the text
of each label is escaped. -/
def svg_plot_string (b : Backend) (symbol : zint_symbol) : Option PlotOutcome :=
  match symbol.vector with
  | none =>
    some { ret := none
           errtxt := some "681: Vector header NULL".toList
           error_code := some b.ZINT_ERROR_INVALID_DATA }
  | some vector =>
    (svg_document b symbol vector).bind fun fsvg =>
    some { ret := some fsvg, errtxt := none, error_code := none }

/-! ## The text of each piece of output

The functions below give, as plain strings, what the plotting code appends to
the buffer; the theorems prove the code equal to them. -/

/-- Rendering of the nearest decimal with `prec` fractional digits to the exact
ratio `n / d`, trailing zeros and a bare point stripped. -/
def render_ratio (n d prec : Nat) : List Char :=
  let q := round_half_even (n * 10 ^ prec) d
  dec_digits (q / 10 ^ prec) (q / 10 ^ prec) ++ stripped_frac (zero_padded prec (q % 10 ^ prec))

/-- The opacity attribute, when there is one, and the end of the tag. -/
def opacity_close_text (alpha : Nat) (val : F32) (close : Int) : List Char :=
  (if alpha ≠ 255 then " opacity=\"".toList ++ out_float 3 val ++ "\"".toList else []) ++
    (if close ≠ 0 then "/>\n".toList else ">\n".toList)

/-- The subpath of one rectangle. -/
def rect_subpath_text (rect : zint_vector_rect) : List Char :=
  "M".toList ++ out_float 2 rect.x ++ " ".toList ++ out_float 2 rect.y ++
    "h".toList ++ out_float 2 rect.width ++ "v".toList ++ out_float 2 rect.height ++
    "h-".toList ++ out_float 2 rect.width ++ "Z".toList

/-- The end of a path element of the rectangle block for the run colour `tag`. -/
def rect_close_text (fg_alpha : Nat) (fg_alpha_opacity : F32) (tag : Int) : List Char :=
  "\"".toList ++
    (if tag ≠ -1 then " fill=\"#".toList ++ svg_pick_colour tag ++ "\"".toList else []) ++
    opacity_close_text fg_alpha fg_alpha_opacity 1

/-- What the rectangle loop appends, started with the run colour `current_colour`. -/
def rect_loop_text (fg_alpha : Nat) (fg_alpha_opacity : F32) :
    List zint_vector_rect → Int → List Char
  | [], _ => []
  | rect :: next, current_colour =>
    (if current_colour ≠ 0 ∧ rect.colour ≠ current_colour then
        rect_close_text fg_alpha fg_alpha_opacity current_colour ++ "  <path d=\"".toList
      else []) ++
    rect_subpath_text rect ++ rect_loop_text fg_alpha fg_alpha_opacity next rect.colour

/-- The value of `current_colour` after the rectangle loop. -/
def rect_loop_colour : List zint_vector_rect → Int → Int
  | [], current_colour => current_colour
  | rect :: next, _ => rect_loop_colour next rect.colour

/-- The maximal contiguous runs of rectangles with equal colour tag, each with
its tag, in sequence order. -/
def colour_runs : List zint_vector_rect → List (Int × List zint_vector_rect)
  | [] => []
  | rect :: next =>
    match colour_runs next with
    | [] => [(rect.colour, [rect])]
    | (tag, run) :: runs =>
      if tag = rect.colour then (tag, rect :: run) :: runs
      else (rect.colour, [rect]) :: (tag, run) :: runs

/-- One path element: the subpaths of the rectangles of a run, the fill
attribute unless the tag is -1, and the opacity closing. -/
def path_element_text (fg_alpha : Nat) (fg_alpha_opacity : F32)
    (run : Int × List zint_vector_rect) : List Char :=
  "  <path d=\"".toList ++ run.2.flatMap rect_subpath_text ++
    rect_close_text fg_alpha fg_alpha_opacity run.1

/-- One vertex: the command, x, a space, y; both coordinates at 2 decimals. -/
def vertex_text (cmd : List Char) (v : F32 × F32) : List Char :=
  cmd ++ out_float 2 v.1 ++ " ".toList ++ out_float 2 v.2

/-- A closed subpath through the given vertices: `M` for the first vertex, `L`
for every later one, then `Z`. -/
def polygon_text : List (F32 × F32) → List Char
  | [] => "Z".toList
  | v :: rest => vertex_text "M".toList v ++ rest.flatMap (vertex_text "L".toList) ++ "Z".toList

/-- The vertex lists of the hexagons in sequence order, with the cache carried
through the loop. -/
def hex_coords : List zint_vector_hexagon → HexCache → List (List (F32 × F32))
  | [], _ => []
  | hex :: next, c => hex_vertices (hex_cache c hex) hex :: hex_coords next (hex_cache c hex)

/-- What one circle appends. -/
def circle_text (fgcolour_string bgcolour_string : List Char) (fg_alpha bg_alpha : Nat)
    (fg_alpha_opacity bg_alpha_opacity : F32) (radius : F32)
    (circle : zint_vector_circle) : List Char :=
  "  <circle".toList ++ " cx=\"".toList ++ out_float 2 circle.x ++ "\"".toList ++
    " cy=\"".toList ++ out_float 2 circle.y ++ "\"".toList ++
    " r=\"".toList ++ out_float (if circle.width.nonzero then 3 else 2) radius ++ "\"".toList ++
    (if circle.colour ≠ 0 then
      (if circle.width.nonzero then
          " stroke=\"#".toList ++ bgcolour_string ++ "\"".toList ++
            " stroke-width=\"".toList ++ out_float 3 circle.width ++ "\"".toList ++
            " fill=\"none\"".toList
        else " fill=\"#".toList ++ bgcolour_string ++ "\"".toList) ++
        opacity_close_text bg_alpha bg_alpha_opacity 1
    else
      (if circle.width.nonzero then
          " stroke=\"#".toList ++ fgcolour_string ++ "\"".toList ++
            " stroke-width=\"".toList ++ out_float 3 circle.width ++ "\"".toList ++
            " fill=\"none\"".toList
        else []) ++
        opacity_close_text fg_alpha fg_alpha_opacity 1)

/-- What the circle loop appends. -/
def circle_loop_text (fgcolour_string bgcolour_string : List Char) (fg_alpha bg_alpha : Nat)
    (fg_alpha_opacity bg_alpha_opacity : F32) :
    List zint_vector_circle → F32 → F32 → List Char
  | [], _, _ => []
  | circ :: next, previous_diameter, radius =>
    let changed := F32.ne previous_diameter circ.diameter
    let previous_diameter := if changed then circ.diameter else previous_diameter
    let radius := if changed then F32.mul F32.half previous_diameter else radius
    circle_text fgcolour_string bgcolour_string fg_alpha bg_alpha fg_alpha_opacity
        bg_alpha_opacity radius circ ++
      circle_loop_text fgcolour_string bgcolour_string fg_alpha bg_alpha fg_alpha_opacity
        bg_alpha_opacity next previous_diameter radius

/-- What one text label appends. -/
def string_text (upcean : Bool) (bold : Bool) (fg_alpha : Nat) (fg_alpha_opacity : F32)
    (string : zint_vector_string) : List Char :=
  "  <text".toList ++ " x=\"".toList ++ out_float 2 string.x ++ "\"".toList ++
    " y=\"".toList ++ out_float 2 string.y ++ "\"".toList ++
    " text-anchor=\"".toList ++
    (if string.halign = 2 then "end".toList
      else if string.halign = 1 then "start".toList else "middle".toList) ++ "\"".toList ++
    (if upcean then " font-family=\"OCRB, monospace\"".toList
      else " font-family=\"Arimo, Arial, sans-serif\"".toList) ++
    " font-size=\"".toList ++ out_float 1 string.fsize ++ "\"".toList ++
    (if bold then " font-weight=\"bold\"".toList else []) ++
    (if string.rotation ≠ 0 then
        " transform=\"rotate(".toList ++ sprintf_d string.rotation ++ ",".toList ++
          out_float 2 string.x ++ ",".toList ++ out_float 2 string.y ++ ")\"".toList
      else []) ++
    opacity_close_text fg_alpha fg_alpha_opacity 0 ++
    "   ".toList ++ svg_make_html_friendly string.text ++ "\n".toList ++ "  </text>\n".toList

/-- What the rectangle block appends. -/
def plot_rectangles_text (fg_alpha : Nat) (fg_alpha_opacity : F32)
    (rectangles : List zint_vector_rect) : List Char :=
  if rectangles.isEmpty then []
  else
    "  <path d=\"".toList ++ rect_loop_text fg_alpha fg_alpha_opacity rectangles 0 ++
      rect_close_text fg_alpha fg_alpha_opacity (rect_loop_colour rectangles 0)

/-- What the hexagon block appends. -/
def plot_hexagons_text (fg_alpha : Nat) (fg_alpha_opacity : F32)
    (hexagons : List zint_vector_hexagon) : List Char :=
  if hexagons.isEmpty then []
  else
    "  <path d=\"".toList ++
      (hex_coords hexagons ⟨F32.zero, F32.zero, F32.zero, F32.zero⟩).flatMap polygon_text ++
      "\"".toList ++ opacity_close_text fg_alpha fg_alpha_opacity 1

/-- The background rectangle, when it is written. -/
def background_text (b : Backend) (symbol : zint_symbol) (vector : zint_vector) : List Char :=
  let bg := b.out_colour_get_rgb symbol.bgcolour
  if bg.2.2.2 % 256 ≠ 0 then
    "  <rect x=\"0\" y=\"0\" width=\"".toList ++ extent_text b vector.width ++
      "\" height=\"".toList ++ extent_text b vector.height ++ "\" fill=\"#".toList ++
      colour_string bg ++ "\"".toList ++
      opacity_close_text (bg.2.2.2 % 256) (alpha_opacity (bg.2.2.2 % 256)) 1
  else []

/-- The whole document, piece by piece in the order it is written. -/
def svg_document_text (b : Backend) (symbol : zint_symbol) (vector : zint_vector) : List Char :=
  let upcean := b.is_upcean symbol.symbology
  let fg := b.out_colour_get_rgb symbol.fgcolour
  let bg := b.out_colour_get_rgb symbol.bgcolour
  let fg_alpha := fg.2.2.2 % 256
  let bg_alpha := bg.2.2.2 % 256
  let bold := decide (Int.land symbol.output_options b.BOLD_TEXT ≠ 0) && !upcean
  header_text b vector ++ style_text b symbol vector ++ group_text b symbol ++
    background_text b symbol vector ++
    plot_rectangles_text fg_alpha (alpha_opacity fg_alpha) vector.rectangles ++
    plot_hexagons_text fg_alpha (alpha_opacity fg_alpha) vector.hexagons ++
    circle_loop_text (colour_string fg) (colour_string bg) fg_alpha bg_alpha
      (alpha_opacity fg_alpha) (alpha_opacity bg_alpha) vector.circles F32.zero F32.zero ++
    vector.strings.flatMap (string_text upcean bold fg_alpha (alpha_opacity fg_alpha)) ++
    (" </g>\n" ++ "</svg>\n").toList

/-! ## Notions used to state properties of the output -/

/-- The five characters that the escaper replaces. -/
def is_special (c : Char) : Bool :=
  c == '>' || c == '<' || c == '&' || c == DQUOTE || c == SQUOTE

/-- The five named entities. -/
def entities : List (List Char) :=
  ["&gt;".toList, "&lt;".toList, "&amp;".toList, "&quot;".toList, "&apos;".toList]

/-- Number of places of a document where the text `<name` starts: the number of
elements called `name`. -/
def count_tag (name : List Char) : List Char → Nat
  | [] => 0
  | c :: rest =>
    (if c = '<' ∧ name.isPrefixOf rest = true then 1 else 0) + count_tag name rest

/-- The text from the start of a list up to the first `>` inclusive. -/
def upto_gt : List Char → List Char
  | [] => []
  | c :: rest => if c = '>' then [c] else c :: upto_gt rest

/-- The tags `<name ...>` of a document, in order: for each place where `<name`
starts, the text from there up to the next `>` inclusive. -/
def tag_texts (name : List Char) : List Char → List (List Char)
  | [] => []
  | c :: rest =>
    (if c = '<' ∧ name.isPrefixOf rest = true then [c :: upto_gt rest] else []) ++
      tag_texts name rest

/-- Whether `pat` occurs in `s` as a contiguous piece. -/
def occurs (pat : List Char) : List Char → Bool
  | [] => pat.isEmpty
  | c :: rest => pat.isPrefixOf (c :: rest) || occurs pat rest

/-- For each `<` of a document, in order, the six characters that follow it
(fewer at the end of the document). -/
def tag_heads : List Char → List (List Char)
  | [] => []
  | c :: rest => (if c = '<' then [rest.take 6] else []) ++ tag_heads rest

/-- Number of tag heads that start with `name`. -/
def hits (name : List Char) (hs : List (List Char)) : Nat :=
  (hs.filter fun h => name.isPrefixOf h).length

/-- A piece of a document whose last six characters hold no `<`, and its tag
heads. -/
def Heads (s : List Char) (hs : List (List Char)) : Prop :=
  '<' ∉ s.drop (s.length - 6) ∧ tag_heads s = hs

/-- Number of adjacent pairs of different colour tags in a rectangle sequence. -/
def adjacent_changes : List zint_vector_rect → Nat
  | [] => 0
  | [_] => 0
  | r1 :: r2 :: rest =>
    (if r1.colour ≠ r2.colour then 1 else 0) + adjacent_changes (r2 :: rest)

/-- The scratch buffer `html_string` of `svg_html_len` bytes holds what the
escaper stores for every label of the scene. -/
def html_fits (b : Backend) (symbol : zint_symbol) (vector : zint_vector) : Prop :=
  ∀ string ∈ vector.strings, (escaped_size string.text : Int) ≤ svg_html_len b symbol

instance html_fits.decidable (b : Backend) (symbol : zint_symbol) (vector : zint_vector) :
    Decidable (html_fits b symbol vector) := by
  unfold html_fits
  infer_instance

/-- An upper-case hexadecimal digit. -/
def is_hex_upper (c : Char) : Bool :=
  ('0' ≤ c && c ≤ '9') || ('A' ≤ c && c ≤ 'F')

/-- Value of an upper-case hexadecimal digit (0 for every other character). -/
def hex_digit_val (c : Char) : Nat :=
  if '0' ≤ c ∧ c ≤ '9' then c.toNat - 48
  else if 'A' ≤ c ∧ c ≤ 'F' then c.toNat - 55
  else 0

/-- Value of a string of upper-case hexadecimal digits. -/
def hex_val (ds : List Char) : Nat :=
  ds.foldl (fun acc c => 16 * acc + hex_digit_val c) 0

/-! ## Sample inputs -/

/-- The rectangle at (0, 0) of width 100 and height 50 with colour tag `c`. -/
def sample_rect (c : Int) : zint_vector_rect :=
  { x := F32.zero, y := F32.zero, height := F32.ofNat 50, width := F32.ofNat 100, colour := c }

/-- A hexagon at (10, 20) of diameter 3 with the given rotation. -/
def sample_hexagon (rotation : Int) : zint_vector_hexagon :=
  { x := F32.ofNat 10, y := F32.ofNat 20, diameter := F32.ofNat 3, rotation := rotation }

/-- A backend for the sample scenes: no symbology is of the UPC/EAN family,
the colour `FFFFFF` is opaque white and every other colour opaque black, and
the option bits and the error code have the values of `zint.h`. -/
def sample_backend : Backend where
  is_upcean := fun _ => false
  out_colour_get_rgb := fun colour =>
    if colour = "FFFFFF".toList then (255, 255, 255, 255) else (0, 0, 0, 255)
  EANUPC_GUARD_WHITESPACE := 32768
  EMBED_VECTOR_FONT := 262144
  BOLD_TEXT := 128
  ZINT_ERROR_INVALID_DATA := 6
  upcean_woff2 := "d09GMgABAAAA".toList
  normal_woff2 := "d09GMgABAAAB".toList
  float_to_int_undefined := fun _ => 0

/-- A label at (10, 20) of font size 7 with the given text. -/
def sample_label (text : List Char) : zint_vector_string :=
  { x := F32.ofNat 10, y := F32.ofNat 20, fsize := F32.ofNat 7, width := F32.zero,
    length := -1, rotation := 0, halign := 0, text := text }

/-- A 100 by 50 canvas with the given rectangles, labels and circles. -/
def sample_vector (rectangles : List zint_vector_rect) (strings : List zint_vector_string)
    (circles : List zint_vector_circle) : zint_vector :=
  { width := F32.ofNat 100, height := F32.ofNat 50, rectangles := rectangles,
    hexagons := [], strings := strings, circles := circles }

/-- A black on white symbol with the given options, text and vector header. -/
def sample_symbol (output_options : Int) (text : List Char) (vector : zint_vector) :
    zint_symbol :=
  { symbology := 20, output_options := output_options, fgcolour := "000000".toList,
    bgcolour := "FFFFFF".toList, text := text, vector := some vector }

/-- The sample backend with one more colour: `12345680` is the translucent
colour with red 0x12, green 0x34, blue 0x56 and alpha 0x80. -/
def translucent_backend : Backend :=
  { sample_backend with
    out_colour_get_rgb := fun colour =>
      if colour = "12345680".toList then (18, 52, 86, 128)
      else sample_backend.out_colour_get_rgb colour }

/-- The document of the black on white scene with one foreground rectangle
covering the canvas of 100 by 50. -/
def black_on_white_document : List Char :=
  ("<?xml version=\"1.0\" standalone=\"no\"?>\n" ++
   "<!DOCTYPE svg PUBLIC \"-//W3C//DTD SVG 1.1//EN\" " ++
   "\"http://www.w3.org/Graphics/SVG/1.1/DTD/svg11.dtd\">\n" ++
   "<svg width=\"100\" height=\"50\" version=\"1.1\" xmlns=\"http://www.w3.org/2000/svg\">\n" ++
   " <desc>Zint Generated Symbol</desc>\n" ++
   " <g id=\"barcode\" fill=\"#000000\">\n" ++
   "  <rect x=\"0\" y=\"0\" width=\"100\" height=\"50\" fill=\"#FFFFFF\"/>\n" ++
   "  <path d=\"M0 0h100v50h-100Z\"/>\n" ++
   " </g>\n" ++
   "</svg>\n").toList

/-! ## Theorems -/

set_option maxRecDepth 100000

/-- C1: for every NUL-free input, `svg_make_html_friendly` writes the
concatenation, in order, of the images of the input bytes. -/
theorem svg_make_html_friendly_eq_flatMap (s : List Char) (h : NUL ∉ s) :
    svg_make_html_friendly s = s.flatMap entity_image := by
  induction s with
  | nil => rfl
  | cons c rest ih =>
    have hc : c ≠ NUL := fun e => h (by simp [e])
    have hr : NUL ∉ rest := fun e => h (List.mem_cons_of_mem _ e)
    simp only [svg_make_html_friendly, List.flatMap_cons, entity_image, ih hr, if_neg hc]
    split_ifs <;> simp

/-- Witness of C1 on the input of the specification: `A&B<C>"D'` is escaped to
`A&amp;B&lt;C&gt;&quot;D&apos;`. -/
theorem svg_make_html_friendly_eq_flatMap_witness :
    NUL ∉ "A&B<C>\"D'".toList ∧
    svg_make_html_friendly "A&B<C>\"D'".toList = "A&amp;B&lt;C&gt;&quot;D&apos;".toList :=
  ⟨by decide, (svg_make_html_friendly_eq_flatMap _ (by decide)).trans (by decide)⟩

theorem digitChar_isdigit (d : Nat) (h : d < 10) : z_isdigit (Nat.digitChar d) = true := by
  interval_cases d <;> rfl

theorem digitChar_toNat (d : Nat) (h : d < 10) : (Nat.digitChar d).toNat - 48 = d := by
  interval_cases d <;> rfl

/-- A digit character is neither the point nor the minus sign. -/
theorem isdigit_ne (c : Char) (h : z_isdigit c = true) : c ≠ '.' ∧ c ≠ '-' := by
  constructor <;> (rintro rfl; revert h; decide)

theorem zero_padded_length (w n : Nat) : (zero_padded w n).length = w := by
  induction w generalizing n with
  | zero => rfl
  | succ w ih => simp [zero_padded, ih]

theorem zero_padded_isdigit (w n : Nat) : ∀ c ∈ zero_padded w n, z_isdigit c = true := by
  induction w generalizing n with
  | zero => simp [zero_padded]
  | succ w ih =>
    intro c hc
    simp only [zero_padded, List.mem_append, List.mem_singleton] at hc
    rcases hc with hc | rfl
    · exact ih _ c hc
    · exact digitChar_isdigit _ (Nat.mod_lt _ (by decide))

theorem dec_digits_isdigit (fuel n : Nat) : ∀ c ∈ dec_digits fuel n, z_isdigit c = true := by
  induction fuel generalizing n with
  | zero =>
    intro c hc
    simp only [dec_digits, List.mem_singleton] at hc
    subst hc
    exact digitChar_isdigit _ (Nat.mod_lt _ (by decide))
  | succ fuel ih =>
    intro c hc
    unfold dec_digits at hc
    split at hc
    · simp only [List.mem_singleton] at hc
      subst hc
      exact digitChar_isdigit _ (by assumption)
    · simp only [List.mem_append, List.mem_singleton] at hc
      rcases hc with hc | rfl
      · exact ih _ c hc
      · exact digitChar_isdigit _ (Nat.mod_lt _ (by decide))

theorem dec_digits_ne_nil (fuel n : Nat) : dec_digits fuel n ≠ [] := by
  cases fuel with
  | zero => simp [dec_digits]
  | succ fuel =>
    unfold dec_digits
    split <;> simp

theorem dec_digits_length_le (fuel n k : Nat) (h : n < 10 ^ (k + 1)) :
    (dec_digits fuel n).length ≤ k + 1 := by
  induction fuel generalizing n k with
  | zero => simp [dec_digits]
  | succ fuel ih =>
    unfold dec_digits
    split
    · simp
    · rename_i h10
      cases k with
      | zero => simp at h; omega
      | succ k =>
        have : n / 10 < 10 ^ (k + 1) := by
          rw [Nat.div_lt_iff_lt_mul (by decide)]
          calc n < 10 ^ (k + 1 + 1) := h
            _ = 10 ^ (k + 1) * 10 := by ring
        have := ih (n / 10) k this
        simp only [List.length_append, List.length_singleton]
        omega

theorem drop_trailing_zeros_cons (c : Char) (l : List Char) :
    drop_trailing_zeros (c :: l) =
      if c = '0' ∧ drop_trailing_zeros l = [] then [] else c :: drop_trailing_zeros l := by
  unfold drop_trailing_zeros
  rw [List.reverse_cons, List.dropWhile_append]
  by_cases hl : List.dropWhile (fun c => c == '0') l.reverse = []
  · by_cases hc : c = '0'
    · simp [hl, hc]
    · have hb : (c == '0') = false := by simpa using hc
      simp [hl, hc, List.dropWhile, hb]
  · have : (List.dropWhile (fun c => c == '0') l.reverse).isEmpty = false := by
      cases h : List.dropWhile (fun c => c == '0') l.reverse with
      | nil => exact absurd h hl
      | cons a b => rfl
    simp [this, hl]

theorem drop_trailing_zeros_prefix (l : List Char) :
    l.take (drop_trailing_zeros l).length = drop_trailing_zeros l := by
  have h : drop_trailing_zeros l <+: l := List.rdropWhile_prefix _ l
  obtain ⟨t, ht⟩ := h
  have := List.take_left (drop_trailing_zeros l) t
  rwa [ht] at this

/-- The trimming loop on a buffer with a decimal point followed by digits:
`f1` is the part of the fraction still to visit, `f2` the part visited. -/
theorem trim_loop_frac (pre f1 f2 : List Char) (hf1 : ∀ c ∈ f1, z_isdigit c = true) :
    trim_loop (pre ++ '.' :: (f1 ++ f2)) (pre.length + 1 + f1.length)
        (pre.length + 1 + f1.length + (drop_trailing_zeros f2).length)
      = pre ++ stripped_frac (f1 ++ f2) := by
  induction f1 using List.reverseRecOn generalizing f2 with
  | nil =>
    simp only [List.nil_append, List.length_nil, Nat.add_zero]
    unfold trim_loop
    have hget : (pre ++ '.' :: f2).getD pre.length NUL = '.' := by
      rw [List.getD_append_right _ _ _ _ (le_refl _)]
      simp
    simp only [hget]
    have h1 : ('.' : Char) ≠ '0' := by decide
    have h2 : (!z_isdigit '.' && '.' != '-') = true := by decide
    rw [if_neg h1, if_pos h2]
    unfold stripped_frac
    by_cases hz : drop_trailing_zeros f2 = []
    · simp [hz]
    · have hlen : (drop_trailing_zeros f2).length ≠ 0 := by
        simpa [List.length_eq_zero] using hz
      rw [if_neg (by omega), if_neg hz]
      have hset : (pre ++ '.' :: f2).set pre.length '.' = pre ++ '.' :: f2 := by
        rw [List.set_append_right _ _ (le_refl _)]
        simp
      rw [hset, List.take_append_eq_append_take]
      have : pre.length + 1 + (drop_trailing_zeros f2).length - pre.length
          = (drop_trailing_zeros f2).length + 1 := by omega
      rw [this, List.take_of_length_le (by omega), List.take_succ_cons,
        drop_trailing_zeros_prefix]
  | append_singleton f1 c ih =>
    have hc : z_isdigit c = true := hf1 c (by simp)
    have hf1r : ∀ c ∈ f1, z_isdigit c = true := fun d hd => hf1 d (by simp [hd])
    have hbuf : f1 ++ [c] ++ f2 = f1 ++ c :: f2 := by simp
    have hn : pre.length + 1 + (f1 ++ [c]).length = (pre.length + 1 + f1.length) + 1 := by
      simp; omega
    rw [hbuf, hn]
    unfold trim_loop
    have hget : (pre ++ '.' :: (f1 ++ c :: f2)).getD (pre.length + 1 + f1.length) NUL = c := by
      rw [List.getD_append_right _ _ _ _ (by omega)]
      have : pre.length + 1 + f1.length - pre.length = f1.length + 1 := by omega
      rw [this]
      rw [List.getD_cons_succ, List.getD_append_right _ _ _ _ (le_refl _)]
      simp
    simp only [hget]
    have ih2 := ih (c :: f2) hf1r
    rw [drop_trailing_zeros_cons] at ih2
    by_cases h0 : c = '0'
    · rw [if_pos h0]
      by_cases hz : drop_trailing_zeros f2 = []
      · rw [if_pos ⟨h0, hz⟩] at ih2
        simp only [hz, List.length_nil, Nat.add_zero, if_true] at ih2 ⊢
        exact ih2
      · have hlen : (drop_trailing_zeros f2).length ≠ 0 := by
          simpa [List.length_eq_zero] using hz
        rw [if_neg (fun h => hz h.2)] at ih2
        rw [if_neg (by omega)]
        simp only [List.length_cons] at ih2
        have e : pre.length + 1 + f1.length + 1 + (drop_trailing_zeros f2).length
            = pre.length + 1 + f1.length + ((drop_trailing_zeros f2).length + 1) := by omega
        rw [e]
        exact ih2
    · rw [if_neg h0]
      have h2 : (!z_isdigit c && c != '-') = false := by simp [hc]
      rw [h2]
      simp only [Bool.false_eq_true, if_false]
      rw [if_neg (fun h => h0 h.1)] at ih2
      simp only [List.length_cons] at ih2
      have e : pre.length + 1 + f1.length + 1 + (drop_trailing_zeros f2).length
          = pre.length + 1 + f1.length + ((drop_trailing_zeros f2).length + 1) := by omega
      rw [e]
      exact ih2

/-- The trimming loop leaves a buffer without a decimal point as it is. -/
theorem trim_loop_nopoint (buf : List Char) (h : ∀ c ∈ buf, z_isdigit c = true ∨ c = '-')
    (n e : Nat) (hn : n ≤ buf.length) : trim_loop buf n e = buf := by
  induction n generalizing e with
  | zero => rfl
  | succ i ih =>
    unfold trim_loop
    have hi : i < buf.length := hn
    have hmem : buf.getD i NUL ∈ buf := by
      rw [List.getD_eq_getElem _ _ hi]
      exact List.getElem_mem hi
    rcases h _ hmem with hd | hm
    · by_cases h0 : buf.getD i NUL = '0'
      · simp only [h0, if_true]
        exact ih _ (by omega)
      · simp only [h0, if_false, hd]
        simp only [Bool.not_true, Bool.false_and, Bool.false_eq_true, if_false]
        exact ih _ (by omega)
    · simp only [hm]
      have : ('-' : Char) ≠ '0' := by decide
      simp only [this, if_false]
      have : (!z_isdigit '-' && '-' != '-') = false := by decide
      simp only [this, Bool.false_eq_true, if_false]
      exact ih _ (by omega)

theorem out_putsf_patched_eq (pre : List Char) (dp : Int) (arg : F32) (fp : List Char) :
    out_putsf_patched pre dp arg fp =
      if (sprintf_f dp arg).length < 256 then some (fp ++ pre ++ out_float dp arg) else none := by
  unfold out_putsf_patched out_float
  by_cases h : (sprintf_f dp arg).length < 256
  · have h2 : (sprintf_f dp arg).length + 1 ≤ 256 := h
    simp only [h, h2, if_true]
    by_cases hp : pre = []
    · simp [hp]
    · simp [hp]
  · have h2 : ¬ (sprintf_f dp arg).length + 1 ≤ 256 := by omega
    simp only [h, h2, if_false]

theorem fixed_sign_mem (arg : F32) : ∀ c ∈ fixed_sign arg, c = '-' := by
  intro c hc
  unfold fixed_sign at hc
  split at hc
  · simpa using hc
  · simp at hc

theorem fixed_sign_length (arg : F32) : (fixed_sign arg).length ≤ 1 := by
  unfold fixed_sign
  split <;> simp

theorem stripped_frac_nil : stripped_frac [] = [] := by
  simp [stripped_frac, drop_trailing_zeros]

/-- Closed form of the trimmed rendering of a finite value. -/
theorem out_float_fin (dp : Int) (neg : Bool) (mant : Nat) (exp : Int) (hm : mant < 2 ^ 24)
    (hlo : -149 ≤ exp) (hhi : exp ≤ 104) :
    out_float dp (.fin neg mant exp hm hlo hhi) =
      fixed_sign (.fin neg mant exp hm hlo hhi) ++ fixed_int dp (.fin neg mant exp hm hlo hhi) ++
        stripped_frac (fixed_frac dp (.fin neg mant exp hm hlo hhi)) := by
  unfold out_float sprintf_f
  by_cases hp : fixed_prec dp = 0
  · simp only [hp, if_true, List.append_nil]
    have hfr : fixed_frac dp (.fin neg mant exp hm hlo hhi) = [] := by
      simp [fixed_frac, hp, zero_padded]
    rw [hfr, stripped_frac_nil, List.append_nil]
    apply trim_loop_nopoint _ _ _ _ (le_refl _)
    intro c hc
    rw [List.mem_append] at hc
    rcases hc with hc | hc
    · right
      exact fixed_sign_mem _ c hc
    · left
      exact dec_digits_isdigit _ _ c hc
  · simp only [hp, if_false]
    have hfrd : ∀ c ∈ fixed_frac dp (.fin neg mant exp hm hlo hhi), z_isdigit c = true :=
      zero_padded_isdigit _ _
    have key := trim_loop_frac
      (fixed_sign (.fin neg mant exp hm hlo hhi) ++ fixed_int dp (.fin neg mant exp hm hlo hhi))
      (fixed_frac dp (.fin neg mant exp hm hlo hhi)) [] hfrd
    simp only [List.append_nil, drop_trailing_zeros, List.reverse_nil, List.dropWhile_nil,
      List.length_nil, Nat.add_zero] at key
    have hlen : (fixed_sign (.fin neg mant exp hm hlo hhi) ++
        fixed_int dp (.fin neg mant exp hm hlo hhi) ++
        '.' :: fixed_frac dp (.fin neg mant exp hm hlo hhi)).length
        = (fixed_sign (.fin neg mant exp hm hlo hhi) ++
            fixed_int dp (.fin neg mant exp hm hlo hhi)).length + 1 +
          (fixed_frac dp (.fin neg mant exp hm hlo hhi)).length := by
      simp only [List.length_append, List.length_cons]
      omega
    rw [hlen]
    exact key

theorem round_half_even_le (n d : Nat) : round_half_even n d ≤ n / d + 1 := by
  unfold round_half_even
  simp only
  split_ifs <;> omega

theorem fixed_scaled_div_lt (mant : Nat) (exp : Int) (prec : Nat) (hm : mant < 2 ^ 24)
    (hhi : exp ≤ 104) : fixed_scaled mant exp prec / 10 ^ prec < 10 ^ 39 := by
  unfold fixed_scaled
  have hpos : 0 < 10 ^ prec := (by positivity)
  split
  · rename_i h0
    rw [Nat.mul_div_cancel _ hpos]
    have he : exp.toNat ≤ 104 := by omega
    calc mant * 2 ^ exp.toNat < 2 ^ 24 * 2 ^ exp.toNat :=
          Nat.mul_lt_mul_of_pos_right hm ((by positivity))
      _ ≤ 2 ^ 24 * 2 ^ 104 := Nat.mul_le_mul_left _ (Nat.pow_le_pow_right (by decide) he)
      _ < 10 ^ 39 := by norm_num
  · have h1 := round_half_even_le (mant * 10 ^ prec) (2 ^ (-exp).toNat)
    have h2 : mant * 10 ^ prec / 2 ^ (-exp).toNat ≤ mant * 10 ^ prec := Nat.div_le_self _ _
    have h3 : round_half_even (mant * 10 ^ prec) (2 ^ (-exp).toNat) / 10 ^ prec
        ≤ (mant * 10 ^ prec + 1) / 10 ^ prec := Nat.div_le_div_right (by omega)
    have h4 : (mant * 10 ^ prec + 1) / 10 ^ prec ≤ mant + 1 := by
      rw [Nat.div_le_iff_le_mul_add_pred hpos]
      have : 10 ^ prec * (mant + 1) = 10 ^ prec * mant + 10 ^ prec := by ring
      rw [this, Nat.mul_comm mant]
      omega
    have h5 : mant + 1 < 10 ^ 39 := by
      have : (2:Nat) ^ 24 < 10 ^ 39 - 1 := by norm_num
      omega
    omega

/-- Length of the fixed-point rendering of a float. -/
theorem sprintf_f_length_le (dp : Int) (arg : F32) :
    (sprintf_f dp arg).length ≤ 41 + fixed_prec dp := by
  cases arg with
  | fin neg mant exp hm hlo hhi =>
    unfold sprintf_f
    have hs := fixed_sign_length (.fin neg mant exp hm hlo hhi)
    have hi : (fixed_int dp (.fin neg mant exp hm hlo hhi)).length ≤ 39 :=
      dec_digits_length_le _ _ 38 (fixed_scaled_div_lt mant exp _ hm hhi)
    have hf : (fixed_frac dp (.fin neg mant exp hm hlo hhi)).length = fixed_prec dp :=
      zero_padded_length _ _
    simp only [List.length_append]
    split
    · simp; omega
    · simp only [List.length_cons]; omega
  | inf neg => cases neg <;> simp [sprintf_f, fixed_sign, fixed_int, F32.signbit] <;> omega
  | nan neg => cases neg <;> simp [sprintf_f, fixed_sign, fixed_int, F32.signbit] <;> omega

/-- The formatter does not overrun its buffer for a precision up to 214. -/
theorem out_putsf_patched_small (pre : List Char) (dp : Int) (arg : F32) (fp : List Char)
    (hdp : dp ≤ 214) : out_putsf_patched pre dp arg fp = some (fp ++ pre ++ out_float dp arg) := by
  rw [out_putsf_patched_eq, if_pos]
  have := sprintf_f_length_le dp arg
  have hp : fixed_prec dp ≤ 214 := by
    unfold fixed_prec
    split <;> omega
  omega

/-- C2: for every `int` colour code, `svg_pick_colour` yields the hex triplet of
cyan, blue, magenta, red, yellow, green, black, white for the codes 1 to 8 in
that order, and black for every other code. -/
theorem svg_pick_colour_table (c : Int) :
    svg_pick_colour c =
      if c = 1 then "00ffff".toList
      else if c = 2 then "0000ff".toList
      else if c = 3 then "ff00ff".toList
      else if c = 4 then "ff0000".toList
      else if c = 5 then "ffff00".toList
      else if c = 6 then "00ff00".toList
      else if c = 7 then "000000".toList
      else if c = 8 then "ffffff".toList
      else "000000".toList := by
  by_cases h : c ≥ 1 ∧ c ≤ 8
  · obtain ⟨h1, h8⟩ := h
    interval_cases c <;> rfl
  · have hne : ¬ (c = 1) ∧ ¬ (c = 2) ∧ ¬ (c = 3) ∧ ¬ (c = 4) ∧ ¬ (c = 5) ∧ ¬ (c = 6) ∧
        ¬ (c = 7) ∧ ¬ (c = 8) := by omega
    obtain ⟨a1, a2, a3, a4, a5, a6, a7, a8⟩ := hne
    simp only [svg_pick_colour, h, if_false, a1, a2, a3, a4, a5, a6, a7, a8]
    rfl

/-- C3 fails as stated: palette code 7 is black, not "ffffff". -/
theorem svg_pick_colour_seven_not_white :
    ¬ (svg_pick_colour 7 = "ffffff".toList ∧ svg_pick_colour 0 = "000000".toList ∧
        svg_pick_colour 9 = "000000".toList) := by
  decide

/-- C3 as amended: palette code 7 maps to "000000" (white "ffffff" is code 8),
and each of the codes 0 and 9 maps to "000000". -/
theorem svg_pick_colour_examples :
    svg_pick_colour 7 = "000000".toList ∧ svg_pick_colour 8 = "ffffff".toList ∧
      svg_pick_colour 0 = "000000".toList ∧ svg_pick_colour 9 = "000000".toList := by
  decide

theorem fixed_prec_nonneg (dp : Int) (h : 0 ≤ dp) : fixed_prec dp = dp.toNat := by
  unfold fixed_prec
  rw [if_neg (by omega)]

/-- C4 fails as stated: at `dp = 254` the rendering of 0.0 has 256 characters,
one more than `buf` holds with its NUL, so nothing is appended. -/
theorem out_putsf_patched_overrun : out_putsf_patched [] 254 F32.zero [] = none := by
  rw [out_putsf_patched_eq]
  have h : (sprintf_f 254 F32.zero).length = 256 := by
    simp [sprintf_f, F32.zero, fixed_sign, F32.signbit, fixed_int, fixed_frac, fixed_scaled,
      fixed_prec, zero_padded_length, dec_digits]
  rw [h]
  rfl

/-- C4 as amended: for every prefix, every `dp ≥ 0` and every finite value whose
`dp`-digit rendering fits the 256-byte buffer, the formatter appends the prefix,
then the sign and all integer digits of the rendering, then the fractional
digits without their trailing zeros, and no point when no fractional digit is
left; when the rendering does not fit, the call overruns `buf`. -/
theorem out_putsf_patched_spec (pre : List Char) (dp : Int) (arg : F32) (fp : List Char)
    (hdp : 0 ≤ dp) (hfin : arg.isFinite = true) :
    sprintf_f dp arg = fixed_sign arg ++ fixed_int dp arg ++
        (if dp = 0 then [] else '.' :: fixed_frac dp arg) ∧
    (fixed_frac dp arg).length = dp.toNat ∧
    out_putsf_patched pre dp arg fp =
      if (sprintf_f dp arg).length < 256 then
        some (fp ++ pre ++
          (fixed_sign arg ++ fixed_int dp arg ++ stripped_frac (fixed_frac dp arg)))
      else none := by
  cases arg with
  | fin neg mant exp hm hlo hhi =>
    refine ⟨?_, ?_, ?_⟩
    · unfold sprintf_f
      have : (fixed_prec dp = 0) ↔ (dp = 0) := by
        rw [fixed_prec_nonneg dp hdp]; omega
      simp only [this]
    · have := zero_padded_length (fixed_prec dp)
        (fixed_scaled mant exp (fixed_prec dp) % 10 ^ fixed_prec dp)
      rw [fixed_prec_nonneg dp hdp] at this
      simpa [fixed_frac, fixed_prec_nonneg dp hdp] using this
    · rw [out_putsf_patched_eq, out_float_fin]
  | inf neg => simp [F32.isFinite] at hfin
  | nan neg => simp [F32.isFinite] at hfin

/-- Witness of C4: the values of the specification. -/
theorem out_putsf_patched_spec_witness :
    ((0 : Int) ≤ 2 ∧ (F32.round false 150 100).isFinite = true ∧
      out_putsf_patched "M".toList 2 (F32.round false 150 100) "x".toList
        = some "xM1.5".toList) ∧
    out_putsf_patched [] 2 (F32.ofNat 1) [] = some "1".toList ∧
    out_putsf_patched [] 3 (F32.round true 5 1000) [] = some "-0.005".toList ∧
    out_putsf_patched [] 2 F32.zero [] = some "0".toList ∧
    out_putsf_patched [] 0 (F32.ofNat 100) [] = some "100".toList ∧
    out_putsf_patched [] 2 (F32.ofNat 100) [] = some "100".toList :=
  ⟨⟨by decide, by decide,
    ((out_putsf_patched_spec "M".toList 2 (F32.round false 150 100) "x".toList
      (by decide) (by decide)).2.2).trans (by decide)⟩,
   by decide, by decide, by decide, by decide, by decide⟩

theorem digits_val_append_singleton (l : List Char) (c : Char) :
    digits_val (l ++ [c]) = 10 * digits_val l + (c.toNat - 48) := by
  simp [digits_val, List.foldl_append]

theorem digits_val_zero_padded (w n : Nat) : digits_val (zero_padded w n) = n % 10 ^ w := by
  induction w generalizing n with
  | zero => simp [zero_padded, digits_val, Nat.mod_one]
  | succ w ih =>
    rw [zero_padded, digits_val_append_singleton, ih, digitChar_toNat _ (Nat.mod_lt _ (by decide))]
    rw [Nat.pow_succ, Nat.mul_comm (10 ^ w) 10, Nat.mod_mul]
    omega

theorem digits_val_dec_digits (fuel n : Nat) (h : n ≤ fuel) :
    digits_val (dec_digits fuel n) = n := by
  induction fuel generalizing n with
  | zero =>
    have : n = 0 := by omega
    subst this
    rfl
  | succ fuel ih =>
    unfold dec_digits
    split
    · rename_i h10
      simp [digits_val, digitChar_toNat n h10]
    · rw [digits_val_append_singleton, ih (n / 10) (by omega),
        digitChar_toNat _ (Nat.mod_lt _ (by decide))]
      omega

/-- A digit string is its trimmed part followed by zeros. -/
theorem drop_trailing_zeros_replicate (l : List Char) :
    ∃ k, l = drop_trailing_zeros l ++ List.replicate k '0' := by
  induction l with
  | nil => exact ⟨0, by simp [drop_trailing_zeros]⟩
  | cons c l ih =>
    obtain ⟨k, hk⟩ := ih
    rw [drop_trailing_zeros_cons]
    split
    · rename_i h
      refine ⟨k + 1, ?_⟩
      rw [h.2] at hk
      rw [h.1]
      simp only [List.nil_append] at hk ⊢
      rw [hk]
      simp [List.replicate_succ]
    · refine ⟨k, ?_⟩
      simp only [List.cons_append]
      rw [← hk]

theorem digits_val_append_zeros (l : List Char) (k : Nat) :
    digits_val (l ++ List.replicate k '0') = digits_val l * 10 ^ k := by
  induction k with
  | zero => simp
  | succ k ih =>
    rw [List.replicate_succ', ← List.append_assoc, digits_val_append_singleton, ih]
    have : ('0' : Char).toNat - 48 = 0 := by decide
    rw [this, Nat.pow_succ]
    ring

/-- Trimming trailing zeros keeps the fraction denoted by the digits. -/
theorem digits_val_trim (l : List Char) :
    (digits_val (drop_trailing_zeros l) : ℚ) / (10 : ℚ) ^ (drop_trailing_zeros l).length
      = (digits_val l : ℚ) / (10 : ℚ) ^ l.length := by
  obtain ⟨k, hk⟩ := drop_trailing_zeros_replicate l
  have h1 : digits_val l = digits_val (drop_trailing_zeros l) * 10 ^ k := by
    conv_lhs => rw [hk]
    exact digits_val_append_zeros _ _
  have h2 : l.length = (drop_trailing_zeros l).length + k := by
    conv_lhs => rw [hk]
    simp
  rw [h1, h2, pow_add]
  push_cast
  have : (10 : ℚ) ^ k ≠ 0 := by positivity
  have : (10 : ℚ) ^ (drop_trailing_zeros l).length ≠ 0 := by positivity
  field_simp
  ring

theorem takeWhile_notpoint (ip rest : List Char) (hip : ∀ c ∈ ip, z_isdigit c = true)
    (hrest : rest = [] ∨ ∃ t, rest = '.' :: t) :
    (ip ++ rest).takeWhile (fun c => c != '.') = ip ∧
    (ip ++ rest).dropWhile (fun c => c != '.') = rest := by
  induction ip with
  | nil =>
    rcases hrest with rfl | ⟨t, rfl⟩
    · simp
    · simp [List.takeWhile, List.dropWhile]
  | cons c ip ih =>
    have hc : (c != '.') = true := by
      have := (isdigit_ne c (hip c (by simp))).1
      simpa using this
    have ih2 := ih (fun d hd => hip d (by simp [hd]))
    simp only [List.cons_append, List.takeWhile_cons, List.dropWhile_cons, hc, if_true]
    exact ⟨by rw [ih2.1], ih2.2⟩

/-- Value of a rendering `sign digits rest` where `rest` is empty or a point
followed by digits. -/
theorem parse_decimal_shape (neg : Bool) (ip rest : List Char)
    (hip : ∀ c ∈ ip, z_isdigit c = true) (hne : ip ≠ [])
    (hrest : rest = [] ∨ ∃ t, rest = '.' :: t) :
    parse_decimal ((if neg then ['-'] else []) ++ ip ++ rest) =
      (if neg then -1 else 1) *
        ((digits_val ip : ℚ) + (digits_val rest.tail : ℚ) / (10 : ℚ) ^ rest.tail.length) := by
  obtain ⟨c0, ip0, rfl⟩ := List.exists_cons_of_ne_nil hne
  have hc0 : c0 ≠ '-' := (isdigit_ne c0 (hip c0 (by simp))).2
  have htd := takeWhile_notpoint (c0 :: ip0) rest hip hrest
  cases neg with
  | true =>
    have hh : (['-'] ++ c0 :: ip0 ++ rest).head? = some '-' := rfl
    have ht : (['-'] ++ c0 :: ip0 ++ rest).tail = (c0 :: ip0) ++ rest := rfl
    simp only [parse_decimal, if_true, hh, ht, htd.1, htd.2]
    ring
  | false =>
    have hh : ¬ (([] ++ c0 :: ip0 ++ rest).head? = some '-') := by
      simpa using hc0
    have hb : ([] : List Char) ++ c0 :: ip0 ++ rest = (c0 :: ip0) ++ rest := rfl
    simp only [parse_decimal, Bool.false_eq_true, if_false, hh]
    rw [hb, htd.1, htd.2]
    ring

theorem round_half_even_err (n d : Nat) (hd : 0 < d) :
    2 * (round_half_even n d * d) ≤ 2 * n + d ∧ 2 * n ≤ 2 * (round_half_even n d * d) + d := by
  have h := Nat.div_add_mod n d
  have hr := Nat.mod_lt n hd
  have hx : (n / d + 1) * d = d * (n / d) + d := by ring
  have hy : (n / d) * d = d * (n / d) := by ring
  unfold round_half_even
  simp only
  split_ifs <;> (first | rw [hx] | rw [hy]) <;> omega

/-- The scaled and rounded integer is within half a unit of the last place of
the exact magnitude. -/
theorem fixed_scaled_err (mant : Nat) (exp : Int) (prec : Nat) :
    |(fixed_scaled mant exp prec : ℚ) / (10 : ℚ) ^ prec - (mant : ℚ) * (2 : ℚ) ^ exp|
      ≤ 1 / (2 * (10 : ℚ) ^ prec) := by
  have hP : (0 : ℚ) < (10 : ℚ) ^ prec := by positivity
  unfold fixed_scaled
  split
  · rename_i h0
    have he : (2 : ℚ) ^ exp = (2 : ℚ) ^ exp.toNat := by
      conv_lhs => rw [← Int.toNat_of_nonneg h0]
      exact zpow_natCast 2 _
    rw [he]
    push_cast
    have : (mant : ℚ) * 2 ^ exp.toNat * 10 ^ prec / 10 ^ prec = (mant : ℚ) * 2 ^ exp.toNat := by
      field_simp
    rw [this, sub_self, abs_zero]
    positivity
  · rename_i h0
    have hneg : exp = -(((-exp).toNat : Nat) : Int) := by
      rw [Int.toNat_of_nonneg (by omega)]; ring
    have he : (2 : ℚ) ^ exp = 1 / (2 : ℚ) ^ (-exp).toNat := by
      conv_lhs => rw [hneg]
      rw [zpow_neg, zpow_natCast, one_div]
    rw [he]
    have hD : (0 : ℚ) < (2 : ℚ) ^ (-exp).toNat := by positivity
    have herr := round_half_even_err (mant * 10 ^ prec) (2 ^ (-exp).toNat) (by positivity)
    obtain ⟨h1, h2⟩ := herr
    have h1q : (2 : ℚ) * ((round_half_even (mant * 10 ^ prec) (2 ^ (-exp).toNat) : ℚ) *
        (2 : ℚ) ^ (-exp).toNat) ≤ 2 * ((mant : ℚ) * 10 ^ prec) + (2 : ℚ) ^ (-exp).toNat := by
      exact_mod_cast h1
    have h2q : (2 : ℚ) * ((mant : ℚ) * 10 ^ prec) ≤
        2 * ((round_half_even (mant * 10 ^ prec) (2 ^ (-exp).toNat) : ℚ) *
          (2 : ℚ) ^ (-exp).toNat) + (2 : ℚ) ^ (-exp).toNat := by
      exact_mod_cast h2
    generalize (round_half_even (mant * 10 ^ prec) (2 ^ (-exp).toNat) : ℚ) = X at h1q h2q ⊢
    generalize (2 : ℚ) ^ (-exp).toNat = D at h1q h2q hD ⊢
    generalize (10 : ℚ) ^ prec = P at h1q h2q hP ⊢
    have key : X / P - (mant : ℚ) * (1 / D) = (X * D - mant * P) / (P * D) := by
      field_simp
      ring
    rw [key, abs_le]
    constructor
    · rw [le_div_iff₀ (by positivity)]
      have : -(1 / (2 * P)) * (P * D) = -(D / 2) := by field_simp; ring
      rw [this]
      linarith
    · rw [div_le_iff₀ (by positivity)]
      have : 1 / (2 * P) * (P * D) = D / 2 := by field_simp; ring
      rw [this]
      linarith

theorem fixed_value_cast (q p : Nat) :
    ((q / 10 ^ p : Nat) : ℚ) + ((q % 10 ^ p : Nat) : ℚ) / (10 : ℚ) ^ p = (q : ℚ) / (10 : ℚ) ^ p := by
  have h := Nat.div_add_mod q (10 ^ p)
  have hq : (q : ℚ) = (10 : ℚ) ^ p * ((q / 10 ^ p : Nat) : ℚ) + ((q % 10 ^ p : Nat) : ℚ) := by
    exact_mod_cast h.symm
  have hP : (10 : ℚ) ^ p ≠ 0 := by positivity
  conv_rhs => rw [hq]
  field_simp
  ring

/-- The number denoted by the trimmed rendering of a finite value, and by the
untrimmed one. -/
theorem parse_out_float (dp : Int) (neg : Bool) (mant : Nat) (exp : Int) (hm : mant < 2 ^ 24)
    (hlo : -149 ≤ exp) (hhi : exp ≤ 104) :
    parse_decimal (out_float dp (.fin neg mant exp hm hlo hhi)) =
      (if neg then -1 else 1) *
        ((fixed_scaled mant exp (fixed_prec dp) : ℚ) / (10 : ℚ) ^ fixed_prec dp) ∧
    parse_decimal (sprintf_f dp (.fin neg mant exp hm hlo hhi)) =
      (if neg then -1 else 1) *
        ((fixed_scaled mant exp (fixed_prec dp) : ℚ) / (10 : ℚ) ^ fixed_prec dp) := by
  have hsign : fixed_sign (.fin neg mant exp hm hlo hhi) = if neg then ['-'] else [] := rfl
  have hint : digits_val (fixed_int dp (.fin neg mant exp hm hlo hhi)) =
      fixed_scaled mant exp (fixed_prec dp) / 10 ^ fixed_prec dp :=
    digits_val_dec_digits _ _ (le_refl _)
  have hfrac : digits_val (fixed_frac dp (.fin neg mant exp hm hlo hhi)) =
      fixed_scaled mant exp (fixed_prec dp) % 10 ^ fixed_prec dp := by
    have := digits_val_zero_padded (fixed_prec dp)
      (fixed_scaled mant exp (fixed_prec dp) % 10 ^ fixed_prec dp)
    rw [Nat.mod_mod] at this
    exact this
  have hflen : (fixed_frac dp (.fin neg mant exp hm hlo hhi)).length = fixed_prec dp :=
    zero_padded_length _ _
  have hid : ∀ c ∈ fixed_int dp (.fin neg mant exp hm hlo hhi), z_isdigit c = true :=
    dec_digits_isdigit _ _
  have hine : fixed_int dp (.fin neg mant exp hm hlo hhi) ≠ [] := dec_digits_ne_nil _ _
  have hval := fixed_value_cast (fixed_scaled mant exp (fixed_prec dp)) (fixed_prec dp)
  constructor
  · rw [out_float_fin, hsign]
    have hrest : stripped_frac (fixed_frac dp (.fin neg mant exp hm hlo hhi)) = [] ∨
        ∃ t, stripped_frac (fixed_frac dp (.fin neg mant exp hm hlo hhi)) = '.' :: t := by
      unfold stripped_frac
      split
      · exact Or.inl rfl
      · exact Or.inr ⟨_, rfl⟩
    rw [parse_decimal_shape neg _ _ hid hine hrest]
    have htail : (stripped_frac (fixed_frac dp (.fin neg mant exp hm hlo hhi))).tail =
        drop_trailing_zeros (fixed_frac dp (.fin neg mant exp hm hlo hhi)) := by
      unfold stripped_frac
      split
      · rename_i h
        rw [h]; rfl
      · rfl
    rw [htail, digits_val_trim, hint, hfrac, hflen, hval]
  · unfold sprintf_f
    rw [hsign]
    by_cases hp : fixed_prec dp = 0
    · simp only [hp, if_true]
      rw [parse_decimal_shape neg _ [] hid hine (Or.inl rfl), hint, hp]
      simp [digits_val]
    · simp only [hp, if_false]
      rw [parse_decimal_shape neg _ _ hid hine (Or.inr ⟨_, rfl⟩)]
      simp only [List.tail_cons]
      rw [hint, hfrac, hflen, hval]

/-- C5: for every finite value and every `dp` from 0 to 6, the formatter (with
empty prefix) returns a string that denotes the same number as the `dp`-digit
fixed-point rendering it starts from, and that number is within `10^-dp` of
the value. -/
theorem out_putsf_patched_parses_back (dp : Int) (arg : F32) (hdp : 0 ≤ dp) (hdp6 : dp ≤ 6)
    (hfin : arg.isFinite = true) :
    ∃ out, out_putsf_patched [] dp arg [] = some out ∧
      parse_decimal out = parse_decimal (sprintf_f dp arg) ∧
      |parse_decimal out - arg.toRat| < 1 / (10 : ℚ) ^ dp.toNat := by
  cases arg with
  | fin neg mant exp hm hlo hhi =>
    refine ⟨out_float dp (.fin neg mant exp hm hlo hhi), ?_, ?_, ?_⟩
    · rw [out_putsf_patched_small _ _ _ _ (by omega)]
      simp
    · rw [(parse_out_float dp neg mant exp hm hlo hhi).1,
        (parse_out_float dp neg mant exp hm hlo hhi).2]
    · rw [(parse_out_float dp neg mant exp hm hlo hhi).1, fixed_prec_nonneg dp hdp]
      have herr := fixed_scaled_err mant exp dp.toNat
      have hP : (0 : ℚ) < (10 : ℚ) ^ dp.toNat := by positivity
      have hlt : 1 / (2 * (10 : ℚ) ^ dp.toNat) < 1 / (10 : ℚ) ^ dp.toNat := by
        apply div_lt_div_of_pos_left one_pos hP
        linarith
      unfold F32.toRat
      cases neg with
      | true =>
        simp only [if_true]
        have : (-1 : ℚ) * ((fixed_scaled mant exp dp.toNat : ℚ) / 10 ^ dp.toNat) -
            -1 * (mant : ℚ) * 2 ^ exp =
            -((fixed_scaled mant exp dp.toNat : ℚ) / 10 ^ dp.toNat - (mant : ℚ) * 2 ^ exp) := by
          ring
        rw [this, abs_neg]
        exact lt_of_le_of_lt herr hlt
      | false =>
        simp only [Bool.false_eq_true, if_false, one_mul]
        exact lt_of_le_of_lt herr hlt
  | inf neg => simp [F32.isFinite] at hfin
  | nan neg => simp [F32.isFinite] at hfin

/-- Witness of C5 at -0.005 and `dp = 3`. -/
theorem out_putsf_patched_parses_back_witness :
    (0 : Int) ≤ 3 ∧ (3 : Int) ≤ 6 ∧ (F32.round true 5 1000).isFinite = true ∧
    ∃ out, out_putsf_patched [] 3 (F32.round true 5 1000) [] = some out ∧
      parse_decimal out = parse_decimal (sprintf_f 3 (F32.round true 5 1000)) ∧
      |parse_decimal out - (F32.round true 5 1000).toRat| < 1 / (10 : ℚ) ^ (3 : Int).toNat :=
  ⟨by decide, by decide, by decide,
    out_putsf_patched_parses_back 3 (F32.round true 5 1000) (by decide) (by decide) (by decide)⟩

theorem svg_put_fattrib_eq (pre : List Char) (dp : Int) (val : F32) (fsvg : List Char)
    (hdp : dp ≤ 214) :
    svg_put_fattrib pre dp val fsvg = some (fsvg ++ pre ++ out_float dp val ++ "\"".toList) := by
  unfold svg_put_fattrib
  rw [out_putsf_patched_small _ _ _ _ hdp]
  rfl

theorem svg_put_opacity_close_eq (alpha : Nat) (val : F32) (close : Int) (fsvg : List Char) :
    svg_put_opacity_close alpha val close fsvg =
      some (fsvg ++ opacity_close_text alpha val close) := by
  unfold svg_put_opacity_close opacity_close_text
  by_cases ha : alpha = 255 <;> by_cases hc : close = 0 <;>
    simp [ha, hc, svg_put_fattrib_eq]

theorem rect_subpath_eq (rect : zint_vector_rect) (fsvg : List Char) :
    rect_subpath rect fsvg = some (fsvg ++ rect_subpath_text rect) := by
  unfold rect_subpath rect_subpath_text
  simp [out_putsf_patched_small]

theorem rect_close_eq (fg_alpha : Nat) (fg_alpha_opacity : F32) (tag : Int) (fsvg : List Char) :
    rect_close fg_alpha fg_alpha_opacity tag fsvg =
      some (fsvg ++ rect_close_text fg_alpha fg_alpha_opacity tag) := by
  unfold rect_close rect_close_text
  by_cases h : tag = -1 <;> simp [h, svg_put_opacity_close_eq]

theorem rect_loop_eq (fg_alpha : Nat) (fg_alpha_opacity : F32) (rects : List zint_vector_rect)
    (cur : Int) (fsvg : List Char) :
    rect_loop fg_alpha fg_alpha_opacity rects cur fsvg =
      some (rect_loop_colour rects cur,
        fsvg ++ rect_loop_text fg_alpha fg_alpha_opacity rects cur) := by
  induction rects generalizing cur fsvg with
  | nil => simp [rect_loop, rect_loop_colour, rect_loop_text]
  | cons r rest ih =>
    unfold rect_loop rect_step
    by_cases h : cur ≠ 0 ∧ r.colour ≠ cur
    · simp only [h, and_self, if_true, rect_close_eq, rect_subpath_eq, Option.some_bind, ih,
        rect_loop_colour, rect_loop_text, ne_eq, not_false_eq_true]
      simp
    · simp only [h, if_false, rect_close_eq, rect_subpath_eq, Option.some_bind, ih,
        rect_loop_colour, rect_loop_text]
      simp

/-- The float quotient `a / 255.0f` of an alpha byte renders, at 3 decimals, as
the exact ratio `a / 255` does. -/
theorem out_float_alpha : ∀ a, a < 255 →
    out_float 3 (F32.div (F32.ofNat a) F32.c255) = render_ratio a 255 3 := by
  decide!

/-- C6: closing an element with the alpha byte `a` of a colour and the opacity
computed for it emits no opacity attribute when `a = 255` and otherwise the one
attribute ` opacity="V"`, V being `a / 255` at 3 decimals with trailing zeros
stripped; then `/>` and a newline when `close` is set, `>` and a newline
otherwise. -/
theorem svg_put_opacity_close_spec (a : Nat) (ha : a < 256) (close : Int) (fsvg : List Char) :
    svg_put_opacity_close a (alpha_opacity a) close fsvg =
      some (fsvg ++
        (if a = 255 then [] else " opacity=\"".toList ++ render_ratio a 255 3 ++ "\"".toList) ++
        (if close ≠ 0 then "/>\n".toList else ">\n".toList)) := by
  rw [svg_put_opacity_close_eq]
  unfold opacity_close_text
  by_cases h : a = 255
  · simp [h]
  · have hlt : a < 255 := by omega
    simp only [ne_eq, h, not_false_eq_true, if_true, if_false, alpha_opacity,
      out_float_alpha a hlt, List.append_assoc]

/-- Witness of C6: alpha 128 gives `0.502`, alpha 0 gives `0`, alpha 255 gives
no attribute. -/
theorem svg_put_opacity_close_spec_witness :
    ((128 : Nat) < 256 ∧
      svg_put_opacity_close 128 (alpha_opacity 128) 1 "<x".toList =
        some "<x opacity=\"0.502\"/>\n".toList) ∧
    ((0 : Nat) < 256 ∧
      svg_put_opacity_close 0 (alpha_opacity 0) 0 "<x".toList =
        some "<x opacity=\"0\">\n".toList) ∧
    ((255 : Nat) < 256 ∧
      svg_put_opacity_close 255 (alpha_opacity 255) 1 "<x".toList = some "<x/>\n".toList) :=
  ⟨⟨by decide, (svg_put_opacity_close_spec 128 (by decide) 1 "<x".toList).trans (by decide)⟩,
   ⟨by decide, (svg_put_opacity_close_spec 0 (by decide) 0 "<x".toList).trans (by decide)⟩,
   ⟨by decide, (svg_put_opacity_close_spec 255 (by decide) 1 "<x".toList).trans (by decide)⟩⟩

/-- The first run starts with the first rectangle and carries its tag. -/
theorem colour_runs_cons (r : zint_vector_rect) (rest : List zint_vector_rect) :
    ∃ run runs, colour_runs (r :: rest) = (r.colour, r :: run) :: runs := by
  unfold colour_runs
  split
  · exact ⟨[], [], rfl⟩
  · rename_i tag run runs _
    by_cases h : tag = r.colour
    · exact ⟨run, runs, by simp [h]⟩
    · exact ⟨[], (tag, run) :: runs, by simp [h]⟩

/-- The text of the rectangle block, from the subpath of the first rectangle
on, is the text of the runs without the opening of the first path. -/
theorem rect_loop_text_runs (fg_alpha : Nat) (fg_alpha_opacity : F32) (r : zint_vector_rect)
    (rest : List zint_vector_rect) (h0 : ∀ x ∈ r :: rest, x.colour ≠ 0) :
    "  <path d=\"".toList ++ (rect_subpath_text r ++
        (rect_loop_text fg_alpha fg_alpha_opacity rest r.colour ++
          rect_close_text fg_alpha fg_alpha_opacity (rect_loop_colour rest r.colour)))
      = (colour_runs (r :: rest)).flatMap (path_element_text fg_alpha fg_alpha_opacity) := by
  induction rest generalizing r with
  | nil =>
    simp [rect_loop_text, rect_loop_colour, colour_runs, path_element_text]
  | cons r2 rest ih =>
    have hr : r.colour ≠ 0 := h0 r (by simp)
    have ih2 := ih r2 (fun x hx => h0 x (List.mem_cons_of_mem _ hx))
    obtain ⟨run, runs, hruns⟩ := colour_runs_cons r2 rest
    rw [hruns] at ih2
    have hcr : colour_runs (r :: r2 :: rest) =
        if r2.colour = r.colour then (r2.colour, r :: r2 :: run) :: runs
        else (r.colour, [r]) :: (r2.colour, r2 :: run) :: runs := by
      conv_lhs => unfold colour_runs
      rw [hruns]
    rw [hcr]
    simp only [rect_loop_text, rect_loop_colour]
    by_cases hc : r2.colour = r.colour
    · have hcond : ¬ (r.colour ≠ 0 ∧ r2.colour ≠ r.colour) := fun h => h.2 hc
      rw [if_neg hcond, if_pos hc]
      simp only [List.flatMap_cons, path_element_text, List.append_assoc, hc,
        List.nil_append] at ih2 ⊢
      have ih3 := List.append_cancel_left (List.append_cancel_left ih2)
      rw [ih3]
    · have hcond : r.colour ≠ 0 ∧ r2.colour ≠ r.colour := ⟨hr, hc⟩
      rw [if_pos hcond, if_neg hc]
      simp only [List.flatMap_cons, List.append_assoc] at ih2 ⊢
      rw [← ih2]
      simp [path_element_text]

theorem drop_trailing_zeros_subset (l : List Char) : ∀ c ∈ drop_trailing_zeros l, c ∈ l := by
  intro c hc
  have h : drop_trailing_zeros l <+: l := List.rdropWhile_prefix _ l
  exact h.subset hc

/-- The characters of a formatted number: digits, minus, point, and the letters
left of `inf` and `nan`. -/
theorem out_float_chars (dp : Int) (arg : F32) :
    ∀ c ∈ out_float dp arg,
      z_isdigit c = true ∨ c = '-' ∨ c = '.' ∨ c = 'i' ∨ c = 'n' ∨ c = 'a' := by
  cases arg with
  | fin neg mant exp hm hlo hhi =>
    intro c hc
    rw [out_float_fin] at hc
    simp only [List.mem_append] at hc
    rcases hc with (hc | hc) | hc
    · exact Or.inr (Or.inl (fixed_sign_mem _ c hc))
    · exact Or.inl (dec_digits_isdigit _ _ c hc)
    · unfold stripped_frac at hc
      split at hc
      · simp at hc
      · rcases List.mem_cons.1 hc with rfl | hc
        · exact Or.inr (Or.inr (Or.inl rfl))
        · exact Or.inl (zero_padded_isdigit _ _ c (drop_trailing_zeros_subset _ c hc))
  | inf neg =>
    cases neg
    · have : out_float dp (.inf false) = "in".toList := rfl
      rw [this]; decide
    · have : out_float dp (.inf true) = "-in".toList := rfl
      rw [this]; decide
  | nan neg =>
    cases neg
    · have : out_float dp (.nan false) = "na".toList := rfl
      rw [this]; decide
    · have : out_float dp (.nan true) = "-na".toList := rfl
      rw [this]; decide

/-- A character outside the number alphabet does not occur in a formatted
number. -/
theorem count_out_float (c : Char) (dp : Int) (arg : F32)
    (hc : ¬ (z_isdigit c = true ∨ c = '-' ∨ c = '.' ∨ c = 'i' ∨ c = 'n' ∨ c = 'a')) :
    List.count c (out_float dp arg) = 0 := by
  rw [List.count_eq_zero]
  intro h
  exact hc (out_float_chars dp arg c h)

theorem count_lt_out_float (dp : Int) (arg : F32) : List.count '<' (out_float dp arg) = 0 :=
  count_out_float '<' dp arg (by decide)

/-- The colour code is always an entry of the table. -/
theorem svg_pick_colour_mem (c : Int) : svg_pick_colour c ∈ rgbs := by
  unfold svg_pick_colour
  by_cases h : c ≥ 1 ∧ c ≤ 8
  · obtain ⟨h1, h8⟩ := h
    interval_cases c <;> decide
  · simp only [h, if_false]
    decide

theorem count_lt_opacity_close_text (alpha : Nat) (val : F32) (close : Int) :
    List.count '<' (opacity_close_text alpha val close) = 0 := by
  unfold opacity_close_text
  split_ifs <;> simp [List.count_append, count_lt_out_float]

theorem count_lt_rect_subpath_text (r : zint_vector_rect) :
    List.count '<' (rect_subpath_text r) = 0 := by
  unfold rect_subpath_text
  simp only [List.count_append, count_lt_out_float]
  decide

theorem plot_rectangles_eq (fg_alpha : Nat) (fg_alpha_opacity : F32) (r : zint_vector_rect)
    (rest : List zint_vector_rect) (fsvg : List Char) :
    plot_rectangles fg_alpha fg_alpha_opacity (r :: rest) fsvg =
      some (fsvg ++ ("  <path d=\"".toList ++ (rect_subpath_text r ++
        (rect_loop_text fg_alpha fg_alpha_opacity rest r.colour ++
          rect_close_text fg_alpha fg_alpha_opacity (rect_loop_colour rest r.colour))))) := by
  unfold plot_rectangles
  simp only [List.isEmpty_cons, Bool.false_eq_true, if_false, rect_loop_eq, Option.some_bind,
    rect_close_eq, rect_loop_text, rect_loop_colour]
  simp

theorem rect_step_eq (fg_alpha : Nat) (fg_alpha_opacity : F32) (cur : Int)
    (r : zint_vector_rect) (fsvg : List Char) :
    rect_step fg_alpha fg_alpha_opacity cur r fsvg =
      some (r.colour, fsvg ++
        (if cur ≠ 0 ∧ r.colour ≠ cur then
            rect_close_text fg_alpha fg_alpha_opacity cur ++ "  <path d=\"".toList
          else []) ++ rect_subpath_text r) := by
  unfold rect_step
  by_cases h : cur ≠ 0 ∧ r.colour ≠ cur
  · simp only [h, and_self, if_true, rect_close_eq, rect_subpath_eq, Option.some_bind,
      ne_eq, not_false_eq_true]
    simp
  · simp only [h, if_false, rect_subpath_eq, Option.some_bind]
    simp

theorem rect_loop_text_append (fg_alpha : Nat) (fg_alpha_opacity : F32)
    (pre : List zint_vector_rect) (r : zint_vector_rect) (post : List zint_vector_rect)
    (cur : Int) :
    ∃ a b, rect_loop_text fg_alpha fg_alpha_opacity (pre ++ r :: post) cur =
      a ++ rect_subpath_text r ++ b := by
  induction pre generalizing cur with
  | nil =>
    exact ⟨(if cur ≠ 0 ∧ r.colour ≠ cur then
        rect_close_text fg_alpha fg_alpha_opacity cur ++ "  <path d=\"".toList
      else []), rect_loop_text fg_alpha fg_alpha_opacity post r.colour,
      by simp only [List.nil_append, rect_loop_text]⟩
  | cons p pre ih =>
    obtain ⟨a, b, hab⟩ := ih p.colour
    refine ⟨(if cur ≠ 0 ∧ p.colour ≠ cur then
        rect_close_text fg_alpha fg_alpha_opacity cur ++ "  <path d=\"".toList
      else []) ++ rect_subpath_text p ++ a, b, ?_⟩
    have hab2 : rect_loop_text fg_alpha fg_alpha_opacity (pre.append (r :: post)) p.colour =
        a ++ rect_subpath_text r ++ b := hab
    simp only [List.cons_append, rect_loop_text, hab2, List.append_assoc]

/-- C8: the iteration of the rectangle loop for a rectangle appends, after the
closing of the previous path and the opening of a new one when the colour tag
changes, exactly `M` x, a space, y, `h` width, `v` height, `h-` width, `Z`, each
number being what the float formatter appends at 2 decimals; and that subpath
is part of the output of the block for every rectangle of the sequence. -/
theorem rect_step_subpath (fg_alpha : Nat) (fg_alpha_opacity : F32) (r : zint_vector_rect) :
    (∀ (v : F32) (fp : List Char), out_putsf_patched [] 2 v fp = some (fp ++ out_float 2 v)) ∧
    (∀ (cur : Int) (fsvg : List Char), ∃ sep,
      (sep = [] ∨ sep = rect_close_text fg_alpha fg_alpha_opacity cur ++ "  <path d=\"".toList) ∧
      rect_step fg_alpha fg_alpha_opacity cur r fsvg =
        some (r.colour, fsvg ++ sep ++
          ("M".toList ++ out_float 2 r.x ++ " ".toList ++ out_float 2 r.y ++
            "h".toList ++ out_float 2 r.width ++ "v".toList ++ out_float 2 r.height ++
            "h-".toList ++ out_float 2 r.width ++ "Z".toList))) ∧
    (∀ (pre post : List zint_vector_rect) (fsvg : List Char), ∃ a b,
      plot_rectangles fg_alpha fg_alpha_opacity (pre ++ r :: post) fsvg =
        some (fsvg ++ a ++
          ("M".toList ++ out_float 2 r.x ++ " ".toList ++ out_float 2 r.y ++
            "h".toList ++ out_float 2 r.width ++ "v".toList ++ out_float 2 r.height ++
            "h-".toList ++ out_float 2 r.width ++ "Z".toList) ++ b)) := by
  refine ⟨?_, ?_, ?_⟩
  · intro v fp
    rw [out_putsf_patched_small _ _ _ _ (by decide)]
    simp
  · intro cur fsvg
    refine ⟨_, ?_, rect_step_eq fg_alpha fg_alpha_opacity cur r fsvg⟩
    split_ifs
    · exact Or.inr rfl
    · exact Or.inl rfl
  · intro pre post fsvg
    obtain ⟨a, b, hab⟩ := rect_loop_text_append fg_alpha fg_alpha_opacity pre r post 0
    have hne : (pre ++ r :: post).isEmpty = false := by
      cases pre <;> rfl
    refine ⟨"  <path d=\"".toList ++ a, b ++ rect_close_text fg_alpha fg_alpha_opacity
      (rect_loop_colour (pre ++ r :: post) 0), ?_⟩
    unfold plot_rectangles
    simp only [hne, Bool.false_eq_true, if_false, rect_loop_eq, Option.some_bind, rect_close_eq,
      hab]
    simp [rect_subpath_text]

theorem put_vertices_L (vs : List (F32 × F32)) (fsvg : List Char) :
    put_vertices "L".toList vs fsvg = some (fsvg ++ vs.flatMap (vertex_text "L".toList)) := by
  induction vs generalizing fsvg with
  | nil => simp [put_vertices]
  | cons v rest ih =>
    unfold put_vertices
    simp only [out_putsf_patched_small _ _ _ _ (show (2 : Int) ≤ 214 by decide),
      Option.some_bind, ih, List.flatMap_cons, vertex_text]
    simp

theorem put_vertices_M (v : F32 × F32) (rest : List (F32 × F32)) (fsvg : List Char) :
    put_vertices "M".toList (v :: rest) fsvg =
      some (fsvg ++ (vertex_text "M".toList v ++ rest.flatMap (vertex_text "L".toList))) := by
  unfold put_vertices
  simp only [out_putsf_patched_small _ _ _ _ (show (2 : Int) ≤ 214 by decide),
    Option.some_bind, put_vertices_L, vertex_text]
  simp

/-- Every hexagon has six vertices. -/
theorem hex_vertices_six (c : HexCache) (hex : zint_vector_hexagon) :
    ∃ p1 p2 p3 p4 p5 p6, hex_vertices c hex = [p1, p2, p3, p4, p5, p6] := by
  unfold hex_vertices
  split
  · exact ⟨_, _, _, _, _, _, rfl⟩
  · exact ⟨_, _, _, _, _, _, rfl⟩

theorem hex_loop_eq (hexes : List zint_vector_hexagon) (c : HexCache) (fsvg : List Char) :
    hex_loop hexes c fsvg = some (fsvg ++ (hex_coords hexes c).flatMap polygon_text) := by
  induction hexes generalizing c fsvg with
  | nil => simp [hex_loop, hex_coords]
  | cons hex next ih =>
    obtain ⟨p1, p2, p3, p4, p5, p6, hp⟩ := hex_vertices_six (hex_cache c hex) hex
    unfold hex_loop
    simp only [hex_coords, hp, put_vertices_M, Option.some_bind, ih, List.flatMap_cons,
      polygon_text]
    simp

theorem hex_coords_length (hexes : List zint_vector_hexagon) (c : HexCache) :
    (hex_coords hexes c).length = hexes.length := by
  induction hexes generalizing c with
  | nil => rfl
  | cons hex next ih => simp [hex_coords, ih]

theorem hex_coords_six (hexes : List zint_vector_hexagon) (c : HexCache) :
    ∀ vs ∈ hex_coords hexes c, ∃ p1 p2 p3 p4 p5 p6, vs = [p1, p2, p3, p4, p5, p6] := by
  induction hexes generalizing c with
  | nil => simp [hex_coords]
  | cons hex next ih =>
    intro vs hvs
    simp only [hex_coords, List.mem_cons] at hvs
    rcases hvs with rfl | hvs
    · exact hex_vertices_six _ _
    · exact ih _ vs hvs

theorem count_vertex_text (c : Char) (cmd : List Char) (v : F32 × F32)
    (hc : ¬ (z_isdigit c = true ∨ c = '-' ∨ c = '.' ∨ c = 'i' ∨ c = 'n' ∨ c = 'a'))
    (hs : c ≠ ' ') :
    List.count c (vertex_text cmd v) = List.count c cmd := by
  unfold vertex_text
  simp only [List.count_append, count_out_float c _ _ hc]
  have : List.count c " ".toList = 0 := by
    rw [List.count_eq_zero]
    simpa using hs
  omega

/-- Command letters in the subpath of a hexagon: one `M`, five `L`, one `Z`. -/
theorem count_polygon_text_six (p1 p2 p3 p4 p5 p6 : F32 × F32) :
    List.count 'M' (polygon_text [p1, p2, p3, p4, p5, p6]) = 1 ∧
    List.count 'L' (polygon_text [p1, p2, p3, p4, p5, p6]) = 5 ∧
    List.count 'Z' (polygon_text [p1, p2, p3, p4, p5, p6]) = 1 := by
  refine ⟨?_, ?_, ?_⟩ <;>
    simp only [polygon_text, List.flatMap_cons, List.flatMap_nil, List.count_append,
      count_vertex_text 'M' _ _ (by decide) (by decide),
      count_vertex_text 'L' _ _ (by decide) (by decide),
      count_vertex_text 'Z' _ _ (by decide) (by decide)] <;> decide

theorem count_flatMap_const (c : Char) (k : Nat) (l : List (List (F32 × F32)))
    (h : ∀ vs ∈ l, List.count c (polygon_text vs) = k) :
    List.count c (l.flatMap polygon_text) = k * l.length := by
  induction l with
  | nil => simp
  | cons vs rest ih =>
    rw [List.flatMap_cons, List.count_append, h vs (by simp),
      ih (fun x hx => h x (List.mem_cons_of_mem _ hx)), List.length_cons]
    ring

/-- The hexagon block: for a non-empty hexagon sequence it is a single path
element without fill attribute, closed once with the opacity handed to the
block; its data is one subpath per hexagon, each an `M` vertex, five `L`
vertices (two coordinates at 2 decimals each) and a `Z`. -/
theorem plot_hexagons_single_path (fg_alpha : Nat) (fg_alpha_opacity : F32)
    (hexes : List zint_vector_hexagon) (fsvg : List Char) (hne : hexes ≠ []) :
    plot_hexagons fg_alpha fg_alpha_opacity hexes fsvg =
      some (fsvg ++ "  <path d=\"".toList ++
        (hex_coords hexes ⟨F32.zero, F32.zero, F32.zero, F32.zero⟩).flatMap polygon_text ++
        "\"".toList ++ opacity_close_text fg_alpha fg_alpha_opacity 1) ∧
    (hex_coords hexes ⟨F32.zero, F32.zero, F32.zero, F32.zero⟩).length = hexes.length ∧
    (∀ vs ∈ hex_coords hexes ⟨F32.zero, F32.zero, F32.zero, F32.zero⟩,
      ∃ p1 p2 p3 p4 p5 p6, vs = [p1, p2, p3, p4, p5, p6] ∧
        polygon_text vs =
          vertex_text "M".toList p1 ++ vertex_text "L".toList p2 ++ vertex_text "L".toList p3 ++
          vertex_text "L".toList p4 ++ vertex_text "L".toList p5 ++ vertex_text "L".toList p6 ++
          "Z".toList) ∧
    List.count 'M'
      ((hex_coords hexes ⟨F32.zero, F32.zero, F32.zero, F32.zero⟩).flatMap polygon_text)
        = hexes.length ∧
    List.count 'L'
      ((hex_coords hexes ⟨F32.zero, F32.zero, F32.zero, F32.zero⟩).flatMap polygon_text)
        = 5 * hexes.length ∧
    List.count 'Z'
      ((hex_coords hexes ⟨F32.zero, F32.zero, F32.zero, F32.zero⟩).flatMap polygon_text)
        = hexes.length ∧
    List.count '<' ("  <path d=\"".toList ++
        (hex_coords hexes ⟨F32.zero, F32.zero, F32.zero, F32.zero⟩).flatMap polygon_text ++
        "\"".toList ++ opacity_close_text fg_alpha fg_alpha_opacity 1) = 1 := by
  have hsix := hex_coords_six hexes ⟨F32.zero, F32.zero, F32.zero, F32.zero⟩
  have hlen := hex_coords_length hexes ⟨F32.zero, F32.zero, F32.zero, F32.zero⟩
  have hcount : ∀ (c : Char) (k : Nat),
      (∀ p1 p2 p3 p4 p5 p6, List.count c (polygon_text [p1, p2, p3, p4, p5, p6]) = k) →
      List.count c
        ((hex_coords hexes ⟨F32.zero, F32.zero, F32.zero, F32.zero⟩).flatMap polygon_text)
          = k * hexes.length := by
    intro c k hk
    rw [← hlen]
    apply count_flatMap_const
    intro vs hvs
    obtain ⟨p1, p2, p3, p4, p5, p6, rfl⟩ := hsix vs hvs
    exact hk _ _ _ _ _ _
  refine ⟨?_, hlen, ?_, ?_, ?_, ?_, ?_⟩
  · obtain ⟨h, rest, rfl⟩ := List.exists_cons_of_ne_nil hne
    unfold plot_hexagons
    simp only [List.isEmpty_cons, Bool.false_eq_true, if_false, hex_loop_eq, Option.some_bind,
      svg_put_opacity_close_eq, List.append_assoc]
  · intro vs hvs
    obtain ⟨p1, p2, p3, p4, p5, p6, rfl⟩ := hsix vs hvs
    exact ⟨p1, p2, p3, p4, p5, p6, rfl, by simp [polygon_text]⟩
  · rw [hcount 'M' 1 (fun p1 p2 p3 p4 p5 p6 => (count_polygon_text_six p1 p2 p3 p4 p5 p6).1)]
    omega
  · exact hcount 'L' 5 (fun p1 p2 p3 p4 p5 p6 => (count_polygon_text_six p1 p2 p3 p4 p5 p6).2.1)
  · rw [hcount 'Z' 1 (fun p1 p2 p3 p4 p5 p6 => (count_polygon_text_six p1 p2 p3 p4 p5 p6).2.2)]
    omega
  · have h0 : List.count '<'
        ((hex_coords hexes ⟨F32.zero, F32.zero, F32.zero, F32.zero⟩).flatMap polygon_text)
          = 0 * hexes.length := by
      apply hcount
      intro p1 p2 p3 p4 p5 p6
      simp only [polygon_text, List.flatMap_cons, List.flatMap_nil, List.count_append,
        count_vertex_text '<' _ _ (by decide) (by decide)]
      decide
    simp only [List.count_append, h0, count_lt_opacity_close_text, Nat.zero_mul]
    decide

/-- The hexagon block for one hexagon of diameter 3 at (10, 20). -/
theorem plot_hexagons_single_path_witness :
    [sample_hexagon 0] ≠ [] ∧
    plot_hexagons 255 F32.zero [sample_hexagon 0] [] =
      some ("  <path d=\"M10 21.5L11.3 20.75L11.3 19.25L10 18.5L8.7 19.25L8.7 20.75Z\"/>\n").toList :=
  ⟨by simp, (plot_hexagons_single_path 255 F32.zero [sample_hexagon 0] []
    (by simp)).1.trans (by decide)⟩

theorem plot_rectangles_text_eq (fg_alpha : Nat) (fg_alpha_opacity : F32)
    (rects : List zint_vector_rect) (fsvg : List Char) :
    plot_rectangles fg_alpha fg_alpha_opacity rects fsvg =
      some (fsvg ++ plot_rectangles_text fg_alpha fg_alpha_opacity rects) := by
  unfold plot_rectangles plot_rectangles_text
  cases rects with
  | nil => simp
  | cons r rest =>
    simp only [List.isEmpty_cons, Bool.false_eq_true, if_false, rect_loop_eq, Option.some_bind,
      rect_close_eq, List.append_assoc]

theorem plot_hexagons_text_eq (fg_alpha : Nat) (fg_alpha_opacity : F32)
    (hexes : List zint_vector_hexagon) (fsvg : List Char) :
    plot_hexagons fg_alpha fg_alpha_opacity hexes fsvg =
      some (fsvg ++ plot_hexagons_text fg_alpha fg_alpha_opacity hexes) := by
  unfold plot_hexagons plot_hexagons_text
  cases hexes with
  | nil => simp
  | cons h rest =>
    simp only [List.isEmpty_cons, Bool.false_eq_true, if_false, hex_loop_eq, Option.some_bind,
      svg_put_opacity_close_eq, List.append_assoc]

theorem circle_step_eq (fgc bgc : List Char) (fg_alpha bg_alpha : Nat)
    (fg_alpha_opacity bg_alpha_opacity : F32) (radius : F32) (circle : zint_vector_circle)
    (fsvg : List Char) :
    circle_step fgc bgc fg_alpha bg_alpha fg_alpha_opacity bg_alpha_opacity radius circle fsvg =
      some (fsvg ++ circle_text fgc bgc fg_alpha bg_alpha fg_alpha_opacity bg_alpha_opacity
        radius circle) := by
  unfold circle_step circle_text
  have hdp : (if circle.width.nonzero = true then (3 : Int) else 2) ≤ 214 := by
    split <;> decide
  rw [svg_put_fattrib_eq _ _ _ _ (by decide), Option.some_bind,
    svg_put_fattrib_eq _ _ _ _ (by decide), Option.some_bind,
    svg_put_fattrib_eq _ _ _ _ hdp, Option.some_bind]
  by_cases hc : circle.colour = 0 <;> by_cases hw : circle.width.nonzero = true <;>
    simp [hc, hw, svg_put_fattrib_eq, svg_put_opacity_close_eq]

theorem circle_loop_eq (fgc bgc : List Char) (fg_alpha bg_alpha : Nat)
    (fg_alpha_opacity bg_alpha_opacity : F32) (circles : List zint_vector_circle)
    (pd radius : F32) (fsvg : List Char) :
    circle_loop fgc bgc fg_alpha bg_alpha fg_alpha_opacity bg_alpha_opacity circles pd radius
        fsvg =
      some (fsvg ++ circle_loop_text fgc bgc fg_alpha bg_alpha fg_alpha_opacity
        bg_alpha_opacity circles pd radius) := by
  induction circles generalizing pd radius fsvg with
  | nil => simp [circle_loop, circle_loop_text]
  | cons c rest ih =>
    unfold circle_loop circle_loop_text
    simp only [circle_step_eq, Option.some_bind, ih, List.append_assoc]

theorem string_step_eq (upcean bold : Bool) (fg_alpha : Nat) (fg_alpha_opacity : F32)
    (html_len : Int) (string : zint_vector_string) (fsvg : List Char)
    (hfit : (escaped_size string.text : Int) ≤ html_len) :
    string_step upcean bold fg_alpha fg_alpha_opacity html_len string fsvg =
      some (fsvg ++ string_text upcean bold fg_alpha fg_alpha_opacity string) := by
  unfold string_step string_text escape_into
  simp only [svg_put_fattrib_eq _ _ _ _ (show (2 : Int) ≤ 214 by decide),
    svg_put_fattrib_eq _ _ _ _ (show (1 : Int) ≤ 214 by decide), Option.some_bind,
    out_putsf_patched_small _ _ _ _ (show (2 : Int) ≤ 214 by decide), if_pos hfit]
  by_cases hr : string.rotation = 0 <;> cases upcean <;> cases bold <;>
    simp [hr, svg_put_opacity_close_eq]

theorem string_loop_eq (upcean bold : Bool) (fg_alpha : Nat) (fg_alpha_opacity : F32)
    (html_len : Int) (strings : List zint_vector_string) (fsvg : List Char)
    (hfit : ∀ string ∈ strings, (escaped_size string.text : Int) ≤ html_len) :
    string_loop upcean bold fg_alpha fg_alpha_opacity html_len strings fsvg =
      some (fsvg ++ strings.flatMap (string_text upcean bold fg_alpha fg_alpha_opacity)) := by
  induction strings generalizing fsvg with
  | nil => simp [string_loop]
  | cons s rest ih =>
    unfold string_loop
    rw [string_step_eq _ _ _ _ _ _ _ (hfit s (List.mem_cons_self _ _)), Option.some_bind,
      ih _ (fun x hx => hfit x (List.mem_cons_of_mem _ hx))]
    simp only [List.flatMap_cons, List.append_assoc]

theorem plot_background_eq (b : Backend) (symbol : zint_symbol) (vector : zint_vector)
    (fsvg : List Char) :
    plot_background b symbol vector fsvg = some (fsvg ++ background_text b symbol vector) := by
  unfold plot_background background_text
  by_cases h : (b.out_colour_get_rgb symbol.bgcolour).2.2.2 % 256 = 0
  · simp only [h, ne_eq, not_true_eq_false, if_false, List.append_nil]
  · simp only [h, ne_eq, not_false_eq_true, if_true, svg_put_opacity_close_eq,
      List.append_assoc]

/-- When every label fits the scratch buffer the document model produces the
document text. -/
theorem svg_document_eq (b : Backend) (symbol : zint_symbol) (vector : zint_vector)
    (hfit : html_fits b symbol vector) :
    svg_document b symbol vector = some (svg_document_text b symbol vector) := by
  unfold svg_document svg_document_text
  simp only [plot_background_eq, plot_rectangles_text_eq, plot_hexagons_text_eq,
    circle_loop_eq, string_loop_eq _ _ _ _ _ _ _ hfit, Option.some_bind, List.append_assoc,
    List.nil_append]

/-- When every label fits the scratch buffer, `svg_plot_string` returns NULL
exactly when the vector header is NULL; then it stores the error code
`ZINT_ERROR_INVALID_DATA` and the text `681: Vector header NULL` and has
produced no output; for every other symbol it returns the document and stores
neither an error code nor an error text. -/
theorem svg_plot_string_null_iff (b : Backend) (symbol : zint_symbol)
    (hfit : ∀ vector, symbol.vector = some vector → html_fits b symbol vector) :
    ∃ o, svg_plot_string b symbol = some o ∧
      (o.ret = none ↔ symbol.vector = none) ∧
      (match symbol.vector with
        | none =>
          o.ret = none ∧ o.errtxt = some "681: Vector header NULL".toList ∧
            o.error_code = some b.ZINT_ERROR_INVALID_DATA
        | some vector =>
          o.ret = some (svg_document_text b symbol vector) ∧ o.errtxt = none ∧
            o.error_code = none) := by
  unfold svg_plot_string
  cases h : symbol.vector with
  | none => exact ⟨_, rfl, by simp, rfl, rfl, rfl⟩
  | some vector =>
    simp only [svg_document_eq b symbol vector (hfit vector h), Option.some_bind]
    exact ⟨_, rfl, by simp, rfl, rfl, rfl⟩

theorem svg_make_html_friendly_c_str (s : List Char) :
    svg_make_html_friendly s = (c_str s).flatMap entity_image := by
  induction s with
  | nil => rfl
  | cons c rest ih =>
    unfold c_str at ih ⊢
    by_cases hc : c = NUL
    · simp [svg_make_html_friendly, hc, List.takeWhile]
    · have hb : (c != NUL) = true := by simpa using hc
      simp only [svg_make_html_friendly, if_neg hc, List.takeWhile_cons, hb, if_true,
        List.flatMap_cons, entity_image, ih]
      split_ifs <;> simp

theorem c_str_no_nul (s : List Char) : NUL ∉ c_str s := by
  intro h
  have := List.mem_takeWhile_imp h
  simp at this

theorem c_str_of_no_nul (s : List Char) (h : NUL ∉ s) : c_str s = s := by
  unfold c_str
  rw [List.takeWhile_eq_self_iff]
  intro c hc
  have : c ≠ NUL := fun e => h (e ▸ hc)
  simpa using this

/-- The image of a byte is an entity when the byte is special and the byte
itself otherwise. -/
theorem entity_image_cases (c : Char) :
    (is_special c = true ∧ entity_image c ∈ entities) ∨
    (is_special c = false ∧ entity_image c = [c]) := by
  unfold entity_image is_special entities
  by_cases h1 : c = '>'
  · left; subst h1; decide
  by_cases h2 : c = '<'
  · left; subst h2; decide
  by_cases h3 : c = '&'
  · left; subst h3; decide
  by_cases h4 : c = DQUOTE
  · left; subst h4; decide
  by_cases h5 : c = SQUOTE
  · left; subst h5; decide
  · right
    simp [h1, h2, h3, h4, h5]

theorem entities_shape_aux : ∀ e ∈ entities, e.head? = some '&' ∧ '&' ∉ e.tail ∧
    ∀ c ∈ e, c ≠ '<' ∧ c ≠ '>' ∧ c ≠ DQUOTE ∧ c ≠ SQUOTE ∧ c ≠ NUL := by
  decide

/-- An entity starts with `&`, holds no other `&`, no NUL and none of the four
characters `<`, `>`, `"`, `'`. -/
theorem entities_shape : ∀ e ∈ entities, ∃ t, e = '&' :: t ∧ '&' ∉ t ∧
    ∀ c ∈ e, c ≠ '<' ∧ c ≠ '>' ∧ c ≠ DQUOTE ∧ c ≠ SQUOTE ∧ c ≠ NUL := by
  intro e he
  obtain ⟨h1, h2, h3⟩ := entities_shape_aux e he
  cases e with
  | nil => simp at h1
  | cons c t =>
    simp only [List.head?_cons, Option.some.injEq] at h1
    subst h1
    exact ⟨t, rfl, h2, h3⟩

/-- No image is a prefix of the image of another byte. -/
theorem entity_image_prefix_free (c d : Char) (x y : List Char)
    (h : entity_image c ++ x = entity_image d ++ y) : c = d := by
  unfold entity_image at h
  split_ifs at h <;> simp at h <;>
    first
      | (subst_vars; rfl)
      | (exfalso; exact absurd h.1.symm (by assumption))
      | (exfalso; exact absurd h.1 (by assumption))
      | exact h.1

theorem flatMap_entity_image_injective (u v : List Char)
    (h : u.flatMap entity_image = v.flatMap entity_image) : u = v := by
  induction u generalizing v with
  | nil =>
    cases v with
    | nil => rfl
    | cons d v =>
      exfalso
      simp only [List.flatMap_nil, List.flatMap_cons] at h
      have hlen := congrArg List.length h
      rcases entity_image_cases d with ⟨_, hd⟩ | ⟨_, hd⟩
      · obtain ⟨t, ht, _⟩ := entities_shape _ hd
        rw [ht] at hlen
        simp at hlen
      · rw [hd] at hlen
        simp at hlen
  | cons c u ih =>
    cases v with
    | nil =>
      exfalso
      simp only [List.flatMap_nil, List.flatMap_cons] at h
      have hlen := congrArg List.length h
      rcases entity_image_cases c with ⟨_, hd⟩ | ⟨_, hd⟩
      · obtain ⟨t, ht, _⟩ := entities_shape _ hd
        rw [ht] at hlen
        simp at hlen
      · rw [hd] at hlen
        simp at hlen
    | cons d v =>
      simp only [List.flatMap_cons] at h
      have hcd := entity_image_prefix_free c d _ _ h
      subst hcd
      rw [ih v (List.append_cancel_left h)]

/-- No `<`, `>`, `"`, `'` and no NUL in the escaped text. -/
theorem svg_make_html_friendly_chars (s : List Char) :
    ∀ c ∈ svg_make_html_friendly s,
      c ≠ '<' ∧ c ≠ '>' ∧ c ≠ DQUOTE ∧ c ≠ SQUOTE ∧ c ≠ NUL := by
  rw [svg_make_html_friendly_c_str]
  intro c hc
  obtain ⟨x, hx, hcx⟩ := List.mem_flatMap.1 hc
  rcases entity_image_cases x with ⟨_, he⟩ | ⟨hs, he⟩
  · obtain ⟨t, _, _, hall⟩ := entities_shape _ he
    exact hall c hcx
  · rw [he] at hcx
    simp only [List.mem_singleton] at hcx
    subst hcx
    have hn : c ≠ NUL := fun e => c_str_no_nul s (e ▸ hx)
    unfold is_special at hs
    simp only [Bool.or_eq_false_iff, beq_eq_false_iff_ne, ne_eq] at hs
    exact ⟨hs.1.1.1.2, hs.1.1.1.1, hs.1.2, hs.2, hn⟩

theorem lt_not_mem_svg_make_html_friendly (s : List Char) :
    '<' ∉ svg_make_html_friendly s :=
  fun h => (svg_make_html_friendly_chars s _ h).1 rfl

/-- Where an `&` stands in a concatenation of images, an entity starts. -/
theorem flatMap_entity_image_amp (u a b : List Char)
    (h : u.flatMap entity_image = a ++ '&' :: b) :
    ∃ e ∈ entities, ∃ b', '&' :: b = e ++ b' := by
  induction u generalizing a with
  | nil =>
    simp at h
  | cons c u ih =>
    simp only [List.flatMap_cons] at h
    rcases entity_image_cases c with ⟨_, he⟩ | ⟨hs, he⟩
    · obtain ⟨t, ht, hamp, _⟩ := entities_shape _ he
      cases a with
      | nil =>
        exact ⟨_, he, _, by simpa using h.symm⟩
      | cons a0 a1 =>
        rw [ht] at h
        simp only [List.cons_append, List.cons.injEq] at h
        obtain ⟨_, h2⟩ := h
        rcases List.append_eq_append_iff.1 h2 with ⟨a', _, hb'⟩ | ⟨c', hc', hb'⟩
        · exact ih a' hb'
        · cases c' with
          | nil =>
            simp only [List.nil_append] at hb'
            exact ih [] (by simpa using hb'.symm)
          | cons c0 c1 =>
            exfalso
            simp only [List.cons_append, List.cons.injEq] at hb'
            apply hamp
            rw [hc', ← hb'.1]
            simp
    · rw [he] at h
      cases a with
      | nil =>
        exfalso
        simp only [List.nil_append, List.singleton_append, List.cons.injEq] at h
        rw [h.1] at hs
        revert hs
        decide
      | cons a0 a1 =>
        simp only [List.singleton_append, List.cons_append, List.cons.injEq] at h
        exact ih a1 h.2

theorem entity_image_length (c : Char) :
    1 ≤ (entity_image c).length ∧ (is_special c = true → 2 ≤ (entity_image c).length) := by
  unfold entity_image is_special
  split_ifs <;> simp_all

theorem flatMap_entity_image_length (l : List Char) :
    l.length ≤ (l.flatMap entity_image).length ∧
    ((∃ c ∈ l, is_special c = true) → l.length < (l.flatMap entity_image).length) := by
  induction l with
  | nil => simp
  | cons c l ih =>
    have h1 := entity_image_length c
    simp only [List.flatMap_cons, List.length_append, List.length_cons]
    refine ⟨by omega, ?_⟩
    rintro ⟨x, hx, hsx⟩
    rcases List.mem_cons.1 hx with rfl | hx
    · have := h1.2 hsx
      omega
    · have := ih.2 ⟨x, hx, hsx⟩
      omega

/-- C17: for every input with at least one of the characters `>`, `<`, `&`,
`"`, `'` (before its terminator), escaping the escaped text gives a different
text. -/
theorem svg_make_html_friendly_not_idempotent (s : List Char)
    (h : ∃ c ∈ c_str s, is_special c = true) :
    svg_make_html_friendly (svg_make_html_friendly s) ≠ svg_make_html_friendly s := by
  obtain ⟨c, hc, hsc⟩ := h
  have hnul : NUL ∉ svg_make_html_friendly s :=
    fun hm => (svg_make_html_friendly_chars s _ hm).2.2.2.2 rfl
  have hamp : '&' ∈ svg_make_html_friendly s := by
    rw [svg_make_html_friendly_c_str]
    apply List.mem_flatMap.2
    refine ⟨c, hc, ?_⟩
    rcases entity_image_cases c with ⟨_, he⟩ | ⟨hn, _⟩
    · obtain ⟨t, ht, _⟩ := entities_shape _ he
      rw [ht]
      simp
    · rw [hsc] at hn
      exact absurd hn (by decide)
  intro heq
  have hlen := (flatMap_entity_image_length (svg_make_html_friendly s)).2
    ⟨'&', hamp, by decide⟩
  rw [svg_make_html_friendly_c_str (svg_make_html_friendly s),
    c_str_of_no_nul _ hnul] at heq
  rw [heq] at hlen
  exact Nat.lt_irrefl _ hlen

/-- Witness of C17: the escaped form of `A&B<C>"D'` is not a fixed point. -/
theorem svg_make_html_friendly_not_idempotent_witness :
    (∃ c ∈ c_str "A&B<C>\"D'".toList, is_special c = true) ∧
    svg_make_html_friendly "A&B<C>\"D'".toList = "A&amp;B&lt;C&gt;&quot;D&apos;".toList ∧
    svg_make_html_friendly (svg_make_html_friendly "A&B<C>\"D'".toList) ≠
      svg_make_html_friendly "A&B<C>\"D'".toList :=
  ⟨by decide, by decide,
    svg_make_html_friendly_not_idempotent "A&B<C>\"D'".toList (by decide)⟩

/-- C20: the escaped text holds none of `<`, `>`, `"`, `'`; wherever it holds
an `&`, one of the five entities starts there; and two inputs with the same
escaped text are the same string. -/
theorem svg_make_html_friendly_safe :
    (∀ s : List Char, ∀ c ∈ svg_make_html_friendly s,
      c ≠ '<' ∧ c ≠ '>' ∧ c ≠ DQUOTE ∧ c ≠ SQUOTE) ∧
    (∀ s a b : List Char, svg_make_html_friendly s = a ++ '&' :: b →
      ∃ e ∈ entities, ∃ b', '&' :: b = e ++ b') ∧
    (∀ s t : List Char, svg_make_html_friendly s = svg_make_html_friendly t →
      c_str s = c_str t) ∧
    (∀ s t : List Char, NUL ∉ s → NUL ∉ t →
      svg_make_html_friendly s = svg_make_html_friendly t → s = t) := by
  have hinj : ∀ s t : List Char, svg_make_html_friendly s = svg_make_html_friendly t →
      c_str s = c_str t := by
    intro s t h
    rw [svg_make_html_friendly_c_str s, svg_make_html_friendly_c_str t] at h
    exact flatMap_entity_image_injective _ _ h
  refine ⟨?_, ?_, hinj, ?_⟩
  · intro s c hc
    have := svg_make_html_friendly_chars s c hc
    exact ⟨this.1, this.2.1, this.2.2.1, this.2.2.2.1⟩
  · intro s a b h
    rw [svg_make_html_friendly_c_str] at h
    exact flatMap_entity_image_amp _ a b h
  · intro s t hs ht h
    have := hinj s t h
    rwa [c_str_of_no_nul s hs, c_str_of_no_nul t ht] at this

theorem mem_drop_of_le {l : List Char} {m n : Nat} {x : Char} (hmn : m ≤ n)
    (h : x ∈ l.drop n) : x ∈ l.drop m := by
  have : l.drop n = (l.drop m).drop (n - m) := by
    rw [List.drop_drop]
    congr 1
    omega
  rw [this] at h
  exact List.mem_of_mem_drop h

theorem tag_heads_of_not_mem (s : List Char) (h : '<' ∉ s) : tag_heads s = [] := by
  induction s with
  | nil => rfl
  | cons c s ih =>
    have hc : c ≠ '<' := fun e => h (by simp [e])
    have hs : '<' ∉ s := fun e => h (List.mem_cons_of_mem _ e)
    simp [tag_heads, hc, ih hs]

theorem tag_heads_append (a b : List Char) (h : '<' ∉ a.drop (a.length - 6)) :
    tag_heads (a ++ b) = tag_heads a ++ tag_heads b := by
  induction a with
  | nil => simp [tag_heads]
  | cons c a ih =>
    have htail : '<' ∉ a.drop (a.length - 6) := by
      intro hm
      apply h
      by_cases hl : a.length + 1 - 6 = 0
      · simp only [List.length_cons, hl, List.drop_zero]
        exact List.mem_cons_of_mem _ (List.mem_of_mem_drop hm)
      · have e : a.length + 1 - 6 = (a.length - 6) + 1 := by omega
        simp only [List.length_cons, e, List.drop_succ_cons]
        exact hm
    have e1 : tag_heads (c :: a ++ b) =
        (if c = '<' then [(a ++ b).take 6] else []) ++ tag_heads (a ++ b) := rfl
    have e2 : tag_heads (c :: a) = (if c = '<' then [a.take 6] else []) ++ tag_heads a := rfl
    rw [e1, e2, ih htail, List.append_assoc]
    congr 1
    by_cases hc : c = '<'
    · have hlen : 6 ≤ a.length := by
        by_contra hl
        apply h
        have e : (c :: a).length - 6 = 0 := by simp only [List.length_cons]; omega
        rw [e, List.drop_zero, hc]
        simp
      simp only [hc, if_true]
      rw [List.take_append_of_le_length hlen]
    · simp [hc]

theorem heads_free {s : List Char} (h : '<' ∉ s) : Heads s [] :=
  ⟨fun hm => h (List.mem_of_mem_drop hm), tag_heads_of_not_mem s h⟩

theorem heads_lit {s : List Char} (h : '<' ∉ s.drop (s.length - 6)) : Heads s (tag_heads s) :=
  ⟨h, rfl⟩

theorem heads_cast {s : List Char} {hs hs' : List (List Char)} (h : Heads s hs)
    (e : hs = hs') : Heads s hs' := e ▸ h

theorem heads_append {a b : List Char} {ha hb : List (List Char)} (h1 : Heads a ha)
    (h2 : Heads b hb) : Heads (a ++ b) (ha ++ hb) := by
  refine ⟨?_, ?_⟩
  · intro hm
    rw [List.drop_append_eq_append_drop, List.mem_append] at hm
    rcases hm with hm | hm
    · exact h1.1 (mem_drop_of_le (by simp only [List.length_append]; omega) hm)
    · have e : (a ++ b).length - 6 - a.length = b.length - 6 := by
        simp only [List.length_append]; omega
      rw [e] at hm
      exact h2.1 hm
  · rw [tag_heads_append a b h1.1, h1.2, h2.2]

theorem heads_ite {c : Prop} [Decidable c] {a b : List Char} {ha hb : List (List Char)}
    (h1 : Heads a ha) (h2 : Heads b hb) :
    Heads (if c then a else b) (if c then ha else hb) := by
  split <;> assumption

theorem heads_flatMap {α : Type} (l : List α) (f : α → List Char) (hs : List (List Char))
    (h : ∀ x ∈ l, Heads (f x) hs) : Heads (l.flatMap f) (l.flatMap fun _ => hs) := by
  induction l with
  | nil => exact heads_free (by simp)
  | cons x l ih =>
    simp only [List.flatMap_cons]
    exact heads_append (h x (by simp)) (ih fun y hy => h y (List.mem_cons_of_mem _ hy))

theorem isPrefixOf_take (name l : List Char) (n : Nat) (h : name.length ≤ n) :
    name.isPrefixOf (l.take n) = name.isPrefixOf l := by
  induction name generalizing l n with
  | nil => simp
  | cons c name ih =>
    cases n with
    | zero => simp at h
    | succ n =>
      cases l with
      | nil => simp
      | cons d l =>
        simp only [List.take_succ_cons, List.isPrefixOf_cons₂]
        rw [ih l n (by simpa using h)]

/-- Counting the elements `name` of a document is counting the tag heads that
start with `name`. -/
theorem count_tag_eq_hits (name s : List Char) (h : name.length ≤ 6) :
    count_tag name s = hits name (tag_heads s) := by
  induction s with
  | nil => rfl
  | cons c s ih =>
    unfold hits at ih ⊢
    simp only [count_tag, tag_heads, List.filter_append, List.length_append, ih]
    congr 1
    by_cases hc : c = '<'
    · simp only [hc, true_and, if_true, List.filter_cons, List.filter_nil,
        isPrefixOf_take name s 6 h]
      split <;> simp
    · simp [hc]

theorem hits_append (name : List Char) (a b : List (List Char)) :
    hits name (a ++ b) = hits name a + hits name b := by
  simp [hits]

theorem hits_flatMap_const {α : Type} (name : List Char) (l : List α) (hs : List (List Char)) :
    hits name (l.flatMap fun _ => hs) = l.length * hits name hs := by
  induction l with
  | nil => simp [hits]
  | cons x l ih =>
    simp only [List.flatMap_cons, hits_append, ih, List.length_cons]
    ring

theorem lt_not_mem_out_float (dp : Int) (arg : F32) : '<' ∉ out_float dp arg := by
  intro h
  have := out_float_chars dp arg _ h
  revert this
  decide

theorem lt_not_mem_svg_pick_colour (c : Int) : '<' ∉ svg_pick_colour c := by
  have h : ∀ s ∈ rgbs, '<' ∉ s := by decide
  exact h _ (svg_pick_colour_mem c)

theorem lt_not_mem_dec_digits (fuel n : Nat) : '<' ∉ dec_digits fuel n := by
  intro h
  have := dec_digits_isdigit fuel n _ h
  revert this
  decide

theorem lt_not_mem_sprintf_d (i : Int) : '<' ∉ sprintf_d i := by
  unfold sprintf_d
  split
  · intro h
    rcases List.mem_cons.1 h with h | h
    · revert h; decide
    · exact lt_not_mem_dec_digits _ _ h
  · exact lt_not_mem_dec_digits _ _

theorem hex_upper_ne_lt (d : Nat) (h : d < 16) : hex_upper d ≠ '<' := by
  interval_cases d <;> decide

theorem lt_not_mem_colour_string (rgba : Nat × Nat × Nat × Nat) : '<' ∉ colour_string rgba := by
  unfold colour_string sprintf_02X
  intro h
  simp only [List.mem_append, List.mem_cons, List.mem_singleton, List.not_mem_nil,
    or_false] at h
  rcases h with ((h | h) | (h | h)) | (h | h) <;>
    exact hex_upper_ne_lt _ (Nat.mod_lt _ (by decide)) h.symm

theorem lt_not_mem_extent_text (b : Backend) (extent : F32) : '<' ∉ extent_text b extent :=
  lt_not_mem_sprintf_d _

theorem lt_not_mem_opacity_close_text (alpha : Nat) (val : F32) (close : Int) :
    '<' ∉ opacity_close_text alpha val close := by
  have := count_lt_opacity_close_text alpha val close
  rwa [List.count_eq_zero] at this

theorem lt_not_mem_rect_subpath_text (r : zint_vector_rect) : '<' ∉ rect_subpath_text r := by
  have := count_lt_rect_subpath_text r
  rwa [List.count_eq_zero] at this

theorem lt_not_mem_rect_close_text (fg_alpha : Nat) (fg_alpha_opacity : F32) (tag : Int) :
    '<' ∉ rect_close_text fg_alpha fg_alpha_opacity tag := by
  unfold rect_close_text
  intro h
  simp only [List.mem_append] at h
  rcases h with (h | h) | h
  · revert h; decide
  · split at h
    · simp only [List.mem_append] at h
      rcases h with (h | h) | h
      · revert h; decide
      · exact lt_not_mem_svg_pick_colour _ h
      · revert h; decide
    · simp at h
  · exact lt_not_mem_opacity_close_text _ _ _ h

theorem heads_path_element_text (fg_alpha : Nat) (fg_alpha_opacity : F32)
    (run : Int × List zint_vector_rect) :
    Heads (path_element_text fg_alpha fg_alpha_opacity run) ["path d".toList] := by
  unfold path_element_text
  apply heads_cast
  · apply heads_append
    · apply heads_append
      · exact heads_lit (by decide)
      · apply heads_free
        intro h
        obtain ⟨r, _, hr⟩ := List.mem_flatMap.1 h
        exact lt_not_mem_rect_subpath_text r hr
    · exact heads_free (lt_not_mem_rect_close_text _ _ _)
  · decide

/-- The tag heads of the rectangle loop are those of path elements. -/
theorem heads_rect_loop_text (fg_alpha : Nat) (fg_alpha_opacity : F32)
    (rects : List zint_vector_rect) (cur : Int) :
    ∃ k, Heads (rect_loop_text fg_alpha fg_alpha_opacity rects cur)
      (List.replicate k "path d".toList) := by
  induction rects generalizing cur with
  | nil => exact ⟨0, heads_free (by simp [rect_loop_text])⟩
  | cons r rest ih =>
    obtain ⟨k, hk⟩ := ih r.colour
    unfold rect_loop_text
    by_cases hc : cur ≠ 0 ∧ r.colour ≠ cur
    · refine ⟨k + 1, ?_⟩
      rw [if_pos hc]
      apply heads_cast
      · apply heads_append
        · apply heads_append
          · apply heads_append
            · exact heads_free (lt_not_mem_rect_close_text _ _ _)
            · exact heads_lit (by decide)
          · exact heads_free (lt_not_mem_rect_subpath_text _)
        · exact hk
      · rw [show tag_heads "  <path d=\"".toList = ["path d".toList] from by decide]
        simp [List.replicate_succ]
    · refine ⟨k, ?_⟩
      rw [if_neg hc]
      apply heads_cast
      · apply heads_append
        · apply heads_append
          · exact heads_free (by simp)
          · exact heads_free (lt_not_mem_rect_subpath_text _)
        · exact hk
      · simp

theorem hits_replicate (name h : List Char) (k : Nat) :
    hits name (List.replicate k h) = if name.isPrefixOf h = true then k else 0 := by
  unfold hits
  by_cases hp : name.isPrefixOf h = true
  · simp [hp, List.filter_replicate]
  · simp [hp, List.filter_replicate]

theorem colour_runs_length (r : zint_vector_rect) (rest : List zint_vector_rect) :
    (colour_runs (r :: rest)).length = 1 + adjacent_changes (r :: rest) := by
  induction rest generalizing r with
  | nil => simp [colour_runs, adjacent_changes]
  | cons r2 rest ih =>
    have ih2 := ih r2
    obtain ⟨run, runs, hruns⟩ := colour_runs_cons r2 rest
    have hcr : colour_runs (r :: r2 :: rest) =
        if r2.colour = r.colour then (r2.colour, r :: r2 :: run) :: runs
        else (r.colour, [r]) :: (r2.colour, r2 :: run) :: runs := by
      conv_lhs => unfold colour_runs
      rw [hruns]
    rw [hruns] at ih2
    rw [hcr]
    simp only [adjacent_changes]
    by_cases hc : r2.colour = r.colour
    · have hc2 : ¬ (r.colour ≠ r2.colour) := fun h => h hc.symm
      simp only [hc, if_true, ne_eq, not_true_eq_false, if_false, List.length_cons] at ih2 ⊢
      omega
    · have hc2 : r.colour ≠ r2.colour := fun h => hc h.symm
      simp only [hc, if_false, hc2, if_true, List.length_cons, ne_eq, not_false_eq_true]
        at ih2 ⊢
      omega

theorem count_tag_runs (fg_alpha : Nat) (fg_alpha_opacity : F32)
    (runs : List (Int × List zint_vector_rect)) :
    count_tag "path".toList (runs.flatMap (path_element_text fg_alpha fg_alpha_opacity))
      = runs.length := by
  have h := heads_flatMap runs (path_element_text fg_alpha fg_alpha_opacity)
    ["path d".toList] (fun x _ => heads_path_element_text fg_alpha fg_alpha_opacity x)
  rw [count_tag_eq_hits _ _ (by decide), h.2, hits_flatMap_const]
  have : hits "path".toList ["path d".toList] = 1 := by decide
  rw [this]
  omega

/-- C18 fails as stated: with the colour tags 0 and 5 the two rectangles share
one path element although their tags differ. -/
theorem plot_rectangles_tag_zero_merges :
    plot_rectangles 255 F32.zero [sample_rect 0, sample_rect 5] [] =
      some "  <path d=\"M0 0h100v50h-100ZM0 0h100v50h-100Z\" fill=\"#ffff00\"/>\n".toList ∧
    count_tag "path".toList
      "  <path d=\"M0 0h100v50h-100ZM0 0h100v50h-100Z\" fill=\"#ffff00\"/>\n".toList = 1 ∧
    1 + adjacent_changes [sample_rect 0, sample_rect 5] = 2 := by
  refine ⟨?_, by decide, by decide⟩
  rw [plot_rectangles_text_eq]
  decide

/-- C18 as amended: for a non-empty rectangle sequence whose colour tags are
all different from 0, the first rectangle opens a run, every later rectangle
closes the path and opens a new one exactly when its tag differs from the tag
before it, and the block holds one plus the number of adjacent pairs with
different tags path elements. -/
theorem plot_rectangles_path_count (fg_alpha : Nat) (fg_alpha_opacity : F32)
    (rects : List zint_vector_rect) (fsvg : List Char) (hne : rects ≠ [])
    (h0 : ∀ r ∈ rects, r.colour ≠ 0) :
    (∀ (r : zint_vector_rect) (out : List Char),
      rect_step fg_alpha fg_alpha_opacity 0 r out =
        some (r.colour, out ++ rect_subpath_text r)) ∧
    (∀ (cur : Int) (r : zint_vector_rect) (out : List Char), cur ≠ 0 →
      rect_step fg_alpha fg_alpha_opacity cur r out =
        some (r.colour, out ++
          (if r.colour ≠ cur then
              rect_close_text fg_alpha fg_alpha_opacity cur ++ "  <path d=\"".toList
            else []) ++ rect_subpath_text r)) ∧
    plot_rectangles fg_alpha fg_alpha_opacity rects fsvg =
      some (fsvg ++ (colour_runs rects).flatMap (path_element_text fg_alpha fg_alpha_opacity)) ∧
    count_tag "path".toList
      ((colour_runs rects).flatMap (path_element_text fg_alpha fg_alpha_opacity))
        = 1 + adjacent_changes rects := by
  obtain ⟨r, rest, rfl⟩ := List.exists_cons_of_ne_nil hne
  refine ⟨?_, ?_, ?_, ?_⟩
  · intro r out
    rw [rect_step_eq]
    simp
  · intro cur r out hcur
    rw [rect_step_eq]
    simp [hcur]
  · rw [plot_rectangles_eq, rect_loop_text_runs fg_alpha fg_alpha_opacity r rest h0]
  · rw [count_tag_runs, colour_runs_length]

/-- Witness of C18: the tags 7, 9 (both black) and -1 give three path elements. -/
theorem plot_rectangles_path_count_witness :
    [sample_rect 7, sample_rect 9, sample_rect (-1)] ≠ [] ∧
    (∀ r ∈ [sample_rect 7, sample_rect 9, sample_rect (-1)], r.colour ≠ 0) ∧
    plot_rectangles 255 F32.zero [sample_rect 7, sample_rect 9, sample_rect (-1)] [] =
      some ("  <path d=\"M0 0h100v50h-100Z\" fill=\"#000000\"/>\n" ++
        "  <path d=\"M0 0h100v50h-100Z\" fill=\"#000000\"/>\n" ++
        "  <path d=\"M0 0h100v50h-100Z\"/>\n").toList ∧
    1 + adjacent_changes [sample_rect 7, sample_rect 9, sample_rect (-1)] = 3 :=
  ⟨by simp, by decide,
    (plot_rectangles_path_count 255 F32.zero [sample_rect 7, sample_rect 9, sample_rect (-1)] []
      (by simp) (by decide)).2.2.1.trans (by decide), by decide⟩

theorem entity_image_length_le (c : Char) :
    (entity_image c).length ≤ 1 + 5 * (if is_special c = true then 1 else 0) := by
  unfold entity_image is_special
  split_ifs <;> simp_all

theorem flatMap_entity_image_length_le (l : List Char) :
    (l.flatMap entity_image).length ≤ l.length + 5 * l.countP is_special := by
  induction l with
  | nil => simp
  | cons c l ih =>
    have h := entity_image_length_le c
    simp only [List.flatMap_cons, List.length_append, List.length_cons, List.countP_cons]
    split at h <;> simp_all <;> omega

theorem html_len_ge (b : Backend) (symbol : zint_symbol) :
    ((c_str symbol.text).length : Int) + 1 + 6 * ((c_str symbol.text).countP is_special : Int)
      ≤ svg_html_len b symbol := by
  unfold svg_html_len
  have e : (fun c : Char => c == '>' || c == '<' || c == DQUOTE || c == '&' || c == SQUOTE)
      = is_special := by
    funext c
    unfold is_special
    generalize (c == '>') = x1
    generalize (c == '<') = x2
    generalize (c == '&') = x3
    generalize (c == DQUOTE) = x4
    generalize (c == SQUOTE) = x5
    cases x1 <;> cases x2 <;> cases x3 <;> cases x4 <;> cases x5 <;> rfl
  simp only [e]
  split <;> omega

/-- The scratch buffer is large enough for every label whose text is made of
characters of `symbol->text` in their order (for instance a piece of it). -/
theorem html_fits_of_sublist (b : Backend) (symbol : zint_symbol) (vector : zint_vector)
    (h : ∀ string ∈ vector.strings, (c_str string.text).Sublist (c_str symbol.text)) :
    html_fits b symbol vector := by
  intro string hs
  have hsub := h string hs
  have h1 := flatMap_entity_image_length_le (c_str string.text)
  have h2 := hsub.length_le
  have h3 := hsub.countP_le is_special
  have h4 := html_len_ge b symbol
  unfold escaped_size
  rw [svg_make_html_friendly_c_str]
  omega

/-- C19 does not hold for every scene: for a symbol whose `text` is empty the
scratch buffer has one byte, and the label `AB` of its vector header makes the
escaper store three bytes there. -/
theorem html_string_overrun :
    svg_html_len sample_backend
      (sample_symbol 0 [] (sample_vector [] [sample_label "AB".toList] [])) = 1 ∧
    escaped_size (sample_label "AB".toList).text = 3 ∧
    ¬ html_fits sample_backend
      (sample_symbol 0 [] (sample_vector [] [sample_label "AB".toList] []))
      (sample_vector [] [sample_label "AB".toList] []) := by
  refine ⟨by decide, by decide, ?_⟩
  intro h
  have := h (sample_label "AB".toList) (by simp [sample_vector])
  revert this
  decide

theorem lt_not_mem_vertex_text (cmd : List Char) (v : F32 × F32) (h : '<' ∉ cmd) :
    '<' ∉ vertex_text cmd v := by
  rw [← List.count_eq_zero, count_vertex_text '<' cmd v (by decide) (by decide),
    List.count_eq_zero]
  exact h

theorem lt_not_mem_polygon_text (vs : List (F32 × F32)) : '<' ∉ polygon_text vs := by
  cases vs with
  | nil => decide
  | cons v rest =>
    unfold polygon_text
    intro h
    simp only [List.mem_append] at h
    rcases h with (h | h) | h
    · exact lt_not_mem_vertex_text _ v (by decide) h
    · obtain ⟨x, _, hx⟩ := List.mem_flatMap.1 h
      exact lt_not_mem_vertex_text _ x (by decide) hx
    · revert h; decide

theorem heads_plot_rectangles_text (fg_alpha : Nat) (fg_alpha_opacity : F32)
    (rects : List zint_vector_rect) :
    ∃ k, Heads (plot_rectangles_text fg_alpha fg_alpha_opacity rects)
      (List.replicate k "path d".toList) := by
  unfold plot_rectangles_text
  split
  · exact ⟨0, heads_free (by simp)⟩
  · obtain ⟨k, hk⟩ := heads_rect_loop_text fg_alpha fg_alpha_opacity rects 0
    refine ⟨k + 1, ?_⟩
    apply heads_cast
    · apply heads_append
      · apply heads_append
        · exact heads_lit (by decide)
        · exact hk
      · exact heads_free (lt_not_mem_rect_close_text _ _ _)
    · rw [show tag_heads "  <path d=\"".toList = ["path d".toList] from by decide]
      simp [List.replicate_succ]

theorem lt_not_mem_flatMap_polygon_text (l : List (List (F32 × F32))) :
    '<' ∉ l.flatMap polygon_text := by
  intro h
  obtain ⟨x, _, hx⟩ := List.mem_flatMap.1 h
  exact lt_not_mem_polygon_text x hx

theorem heads_plot_hexagons_text (fg_alpha : Nat) (fg_alpha_opacity : F32)
    (hexes : List zint_vector_hexagon) :
    Heads (plot_hexagons_text fg_alpha fg_alpha_opacity hexes)
      (if hexes.isEmpty then [] else ["path d".toList]) := by
  unfold plot_hexagons_text
  apply heads_ite
  · exact heads_free (by simp)
  · apply heads_cast
    · repeat (first
        | with_reducible apply heads_append
        | with_reducible exact heads_free (lt_not_mem_opacity_close_text _ _ _)
        | with_reducible exact heads_free (lt_not_mem_flatMap_polygon_text _)
        | exact heads_lit (by decide))
    · decide

theorem heads_circle_text (fgc bgc : List Char) (fg_alpha bg_alpha : Nat)
    (fg_alpha_opacity bg_alpha_opacity : F32) (radius : F32) (circle : zint_vector_circle)
    (hf : '<' ∉ fgc) (hb : '<' ∉ bgc) :
    Heads (circle_text fgc bgc fg_alpha bg_alpha fg_alpha_opacity bg_alpha_opacity radius
      circle) ["circle".toList] := by
  unfold circle_text
  apply heads_cast
  · repeat (first
      | with_reducible apply heads_append
      | with_reducible apply heads_ite
      | with_reducible exact heads_free (lt_not_mem_out_float _ _)
      | with_reducible exact heads_free (lt_not_mem_opacity_close_text _ _ _)
      | with_reducible exact heads_free hf
      | with_reducible exact heads_free hb
      | exact heads_lit (by decide))
  · split_ifs <;> decide

theorem heads_circle_loop_text (fgc bgc : List Char) (fg_alpha bg_alpha : Nat)
    (fg_alpha_opacity bg_alpha_opacity : F32) (circles : List zint_vector_circle)
    (pd radius : F32) (hf : '<' ∉ fgc) (hb : '<' ∉ bgc) :
    Heads (circle_loop_text fgc bgc fg_alpha bg_alpha fg_alpha_opacity bg_alpha_opacity
      circles pd radius) (List.replicate circles.length "circle".toList) := by
  induction circles generalizing pd radius with
  | nil => exact heads_free (by simp [circle_loop_text])
  | cons c rest ih =>
    unfold circle_loop_text
    simp only [List.length_cons, List.replicate_succ]
    exact heads_append (heads_circle_text _ _ _ _ _ _ _ _ hf hb) (ih _ _)

theorem heads_string_text (upcean bold : Bool) (fg_alpha : Nat) (fg_alpha_opacity : F32)
    (string : zint_vector_string) :
    Heads (string_text upcean bold fg_alpha fg_alpha_opacity string)
      ["text x".toList, "/text>".toList] := by
  unfold string_text
  rw [show "  <text".toList ++ " x=\"".toList = "  <text x=\"".toList from by decide]
  apply heads_cast
  · repeat (first
      | with_reducible apply heads_append
      | with_reducible apply heads_ite
      | with_reducible exact heads_free (lt_not_mem_out_float _ _)
      | with_reducible exact heads_free (lt_not_mem_opacity_close_text _ _ _)
      | with_reducible exact heads_free (lt_not_mem_sprintf_d _)
      | with_reducible exact heads_free (lt_not_mem_svg_make_html_friendly _)
      | exact heads_lit (by decide))
  · split_ifs <;> decide

theorem heads_header_text (b : Backend) (vector : zint_vector) :
    Heads (header_text b vector)
      ["?xml v".toList, "!DOCTY".toList, "svg wi".toList, "desc>Z".toList,
        "/desc>".toList] := by
  unfold header_text
  apply heads_cast
  · repeat (first
      | with_reducible apply heads_append
      | with_reducible exact heads_free (lt_not_mem_extent_text _ _)
      | exact heads_lit (by decide))
  · decide

theorem heads_style_text (b : Backend) (symbol : zint_symbol) (vector : zint_vector)
    (hu : '<' ∉ b.upcean_woff2) (hn : '<' ∉ b.normal_woff2) :
    Heads (style_text b symbol vector)
      (if Int.land symbol.output_options b.EMBED_VECTOR_FONT ≠ 0 ∧ ¬ vector.strings.isEmpty
        then ["style>".toList, "/style".toList] else []) := by
  unfold style_text
  apply heads_ite
  · apply heads_cast
    · repeat (first
        | with_reducible apply heads_append
        | with_reducible apply heads_ite
        | with_reducible exact heads_free hu
        | with_reducible exact heads_free hn
        | exact heads_lit (by decide))
    · split_ifs <;> decide
  · exact heads_lit (by decide)

theorem heads_group_text (b : Backend) (symbol : zint_symbol) :
    Heads (group_text b symbol) ["g id=\"".toList] := by
  unfold group_text
  apply heads_cast
  · repeat (first
      | with_reducible apply heads_append
      | with_reducible exact heads_free (lt_not_mem_colour_string _)
      | exact heads_lit (by decide))
  · decide

theorem heads_background_text (b : Backend) (symbol : zint_symbol) (vector : zint_vector) :
    Heads (background_text b symbol vector)
      (if (b.out_colour_get_rgb symbol.bgcolour).2.2.2 % 256 ≠ 0 then ["rect x".toList]
        else []) := by
  unfold background_text
  apply heads_ite
  · apply heads_cast
    · repeat (first
        | with_reducible apply heads_append
        | with_reducible exact heads_free (lt_not_mem_colour_string _)
        | with_reducible exact heads_free (lt_not_mem_extent_text _ _)
        | with_reducible exact heads_free (lt_not_mem_opacity_close_text _ _ _)
        | exact heads_lit (by decide))
    · decide
  · exact heads_lit (by decide)

theorem svg_plot_string_of_vector (b : Backend) (symbol : zint_symbol) (vector : zint_vector)
    (hv : symbol.vector = some vector) (hfit : html_fits b symbol vector) :
    svg_plot_string b symbol =
      some { ret := some (svg_document_text b symbol vector), errtxt := none,
             error_code := none } := by
  unfold svg_plot_string
  rw [hv]
  simp only [svg_document_eq b symbol vector hfit, Option.some_bind]

theorem heads_document_open (b : Backend) (symbol : zint_symbol) (vector : zint_vector)
    (hu : '<' ∉ b.upcean_woff2) (hn : '<' ∉ b.normal_woff2) :
    Heads (header_text b vector ++ style_text b symbol vector ++ group_text b symbol)
      (["?xml v".toList, "!DOCTY".toList, "svg wi".toList, "desc>Z".toList,
          "/desc>".toList] ++
        (if Int.land symbol.output_options b.EMBED_VECTOR_FONT ≠ 0 ∧ ¬ vector.strings.isEmpty
          then ["style>".toList, "/style".toList] else []) ++ ["g id=\"".toList]) :=
  heads_append (heads_append (heads_header_text b vector) (heads_style_text b symbol vector hu hn))
    (heads_group_text b symbol)

theorem heads_document_shapes (b : Backend) (symbol : zint_symbol) (vector : zint_vector) :
    ∃ k, Heads
      (plot_rectangles_text ((b.out_colour_get_rgb symbol.fgcolour).2.2.2 % 256)
          (alpha_opacity ((b.out_colour_get_rgb symbol.fgcolour).2.2.2 % 256))
          vector.rectangles ++
        plot_hexagons_text ((b.out_colour_get_rgb symbol.fgcolour).2.2.2 % 256)
          (alpha_opacity ((b.out_colour_get_rgb symbol.fgcolour).2.2.2 % 256))
          vector.hexagons ++
        circle_loop_text (colour_string (b.out_colour_get_rgb symbol.fgcolour))
          (colour_string (b.out_colour_get_rgb symbol.bgcolour))
          ((b.out_colour_get_rgb symbol.fgcolour).2.2.2 % 256)
          ((b.out_colour_get_rgb symbol.bgcolour).2.2.2 % 256)
          (alpha_opacity ((b.out_colour_get_rgb symbol.fgcolour).2.2.2 % 256))
          (alpha_opacity ((b.out_colour_get_rgb symbol.bgcolour).2.2.2 % 256))
          vector.circles F32.zero F32.zero ++
        vector.strings.flatMap
          (string_text (b.is_upcean symbol.symbology)
            (decide (Int.land symbol.output_options b.BOLD_TEXT ≠ 0) &&
              !b.is_upcean symbol.symbology)
            ((b.out_colour_get_rgb symbol.fgcolour).2.2.2 % 256)
            (alpha_opacity ((b.out_colour_get_rgb symbol.fgcolour).2.2.2 % 256))) ++
        (" </g>\n" ++ "</svg>\n").toList)
      (List.replicate k "path d".toList ++
        List.replicate vector.circles.length "circle".toList ++
        (vector.strings.flatMap fun _ => ["text x".toList, "/text>".toList]) ++
        ["/g>\n</".toList, "/svg>\n".toList]) := by
  obtain ⟨k, hk⟩ := heads_plot_rectangles_text
    ((b.out_colour_get_rgb symbol.fgcolour).2.2.2 % 256)
    (alpha_opacity ((b.out_colour_get_rgb symbol.fgcolour).2.2.2 % 256)) vector.rectangles
  have hh := heads_plot_hexagons_text
    ((b.out_colour_get_rgb symbol.fgcolour).2.2.2 % 256)
    (alpha_opacity ((b.out_colour_get_rgb symbol.fgcolour).2.2.2 % 256)) vector.hexagons
  refine ⟨k + (if vector.hexagons.isEmpty then 0 else 1), ?_⟩
  refine heads_cast (heads_append (heads_append (heads_append (heads_append hk hh)
    (heads_circle_loop_text _ _ _ _ _ _ vector.circles F32.zero F32.zero
      (lt_not_mem_colour_string _) (lt_not_mem_colour_string _)))
    (heads_flatMap vector.strings _ _ fun s _ => heads_string_text _ _ _ _ s))
    (heads_lit (by decide))) ?_
  rw [show tag_heads (" </g>\n" ++ "</svg>\n").toList = ["/g>\n</".toList, "/svg>\n".toList]
    from by decide]
  congr 3
  split_ifs
  · simp
  · rw [List.replicate_add]; rfl

theorem svg_document_text_split (b : Backend) (symbol : zint_symbol) (vector : zint_vector) :
    svg_document_text b symbol vector =
      (header_text b vector ++ style_text b symbol vector ++ group_text b symbol) ++
        (background_text b symbol vector ++
      (plot_rectangles_text ((b.out_colour_get_rgb symbol.fgcolour).2.2.2 % 256)
          (alpha_opacity ((b.out_colour_get_rgb symbol.fgcolour).2.2.2 % 256))
          vector.rectangles ++
        plot_hexagons_text ((b.out_colour_get_rgb symbol.fgcolour).2.2.2 % 256)
          (alpha_opacity ((b.out_colour_get_rgb symbol.fgcolour).2.2.2 % 256))
          vector.hexagons ++
        circle_loop_text (colour_string (b.out_colour_get_rgb symbol.fgcolour))
          (colour_string (b.out_colour_get_rgb symbol.bgcolour))
          ((b.out_colour_get_rgb symbol.fgcolour).2.2.2 % 256)
          ((b.out_colour_get_rgb symbol.bgcolour).2.2.2 % 256)
          (alpha_opacity ((b.out_colour_get_rgb symbol.fgcolour).2.2.2 % 256))
          (alpha_opacity ((b.out_colour_get_rgb symbol.bgcolour).2.2.2 % 256))
          vector.circles F32.zero F32.zero ++
        vector.strings.flatMap
          (string_text (b.is_upcean symbol.symbology)
            (decide (Int.land symbol.output_options b.BOLD_TEXT ≠ 0) &&
              !b.is_upcean symbol.symbology)
            ((b.out_colour_get_rgb symbol.fgcolour).2.2.2 % 256)
            (alpha_opacity ((b.out_colour_get_rgb symbol.fgcolour).2.2.2 % 256))) ++
        (" </g>\n" ++ "</svg>\n").toList)) := by
  unfold svg_document_text
  simp only [List.append_assoc]

theorem heads_svg_document_text (b : Backend) (symbol : zint_symbol) (vector : zint_vector)
    (hu : '<' ∉ b.upcean_woff2) (hn : '<' ∉ b.normal_woff2) :
    ∃ k, Heads (svg_document_text b symbol vector)
      ((["?xml v".toList, "!DOCTY".toList, "svg wi".toList, "desc>Z".toList,
          "/desc>".toList] ++
        (if Int.land symbol.output_options b.EMBED_VECTOR_FONT ≠ 0 ∧ ¬ vector.strings.isEmpty
          then ["style>".toList, "/style".toList] else []) ++ ["g id=\"".toList]) ++
        ((if (b.out_colour_get_rgb symbol.bgcolour).2.2.2 % 256 ≠ 0 then ["rect x".toList]
          else []) ++
        (List.replicate k "path d".toList ++
          List.replicate vector.circles.length "circle".toList ++
          (vector.strings.flatMap fun _ => ["text x".toList, "/text>".toList]) ++
          ["/g>\n</".toList, "/svg>\n".toList]))) := by
  obtain ⟨k, hk⟩ := heads_document_shapes b symbol vector
  refine ⟨k, ?_⟩
  rw [svg_document_text_split]
  exact heads_append (heads_document_open b symbol vector hu hn)
    (heads_append (heads_background_text b symbol vector) hk)

theorem count_tag_rect_document (b : Backend) (symbol : zint_symbol) (vector : zint_vector)
    (hu : '<' ∉ b.upcean_woff2) (hn : '<' ∉ b.normal_woff2) :
    count_tag "rect".toList (svg_document_text b symbol vector) =
      if (b.out_colour_get_rgb symbol.bgcolour).2.2.2 % 256 ≠ 0 then 1 else 0 := by
  obtain ⟨k, hk⟩ := heads_svg_document_text b symbol vector hu hn
  rw [count_tag_eq_hits _ _ (by decide), hk.2]
  simp only [hits_append, hits_replicate, hits_flatMap_const]
  rw [show hits "rect".toList ["?xml v".toList, "!DOCTY".toList, "svg wi".toList,
      "desc>Z".toList, "/desc>".toList] = 0 from by decide,
    show hits "rect".toList ["g id=\"".toList] = 0 from by decide,
    show hits "rect".toList ["text x".toList, "/text>".toList] = 0 from by decide,
    show hits "rect".toList ["/g>\n</".toList, "/svg>\n".toList] = 0 from by decide,
    if_neg (show ¬ ("rect".toList.isPrefixOf "path d".toList = true) from by decide),
    if_neg (show ¬ ("rect".toList.isPrefixOf "circle".toList = true) from by decide)]
  have e1 : hits "rect".toList
      (if Int.land symbol.output_options b.EMBED_VECTOR_FONT ≠ 0 ∧ ¬ vector.strings.isEmpty
        then ["style>".toList, "/style".toList] else []) = 0 := by
    split_ifs <;> decide
  have e2 : hits "rect".toList
      (if (b.out_colour_get_rgb symbol.bgcolour).2.2.2 % 256 ≠ 0 then ["rect x".toList]
        else []) = if (b.out_colour_get_rgb symbol.bgcolour).2.2.2 % 256 ≠ 0 then 1 else 0 := by
    split_ifs <;> decide
  rw [e1, e2]
  simp

theorem count_tag_style_document (b : Backend) (symbol : zint_symbol) (vector : zint_vector)
    (hu : '<' ∉ b.upcean_woff2) (hn : '<' ∉ b.normal_woff2) :
    count_tag "style".toList (svg_document_text b symbol vector) =
      if Int.land symbol.output_options b.EMBED_VECTOR_FONT ≠ 0 ∧ ¬ vector.strings.isEmpty
        then 1 else 0 := by
  obtain ⟨k, hk⟩ := heads_svg_document_text b symbol vector hu hn
  rw [count_tag_eq_hits _ _ (by decide), hk.2]
  simp only [hits_append, hits_replicate, hits_flatMap_const]
  rw [show hits "style".toList ["?xml v".toList, "!DOCTY".toList, "svg wi".toList,
      "desc>Z".toList, "/desc>".toList] = 0 from by decide,
    show hits "style".toList ["g id=\"".toList] = 0 from by decide,
    show hits "style".toList ["text x".toList, "/text>".toList] = 0 from by decide,
    show hits "style".toList ["/g>\n</".toList, "/svg>\n".toList] = 0 from by decide,
    if_neg (show ¬ ("style".toList.isPrefixOf "path d".toList = true) from by decide),
    if_neg (show ¬ ("style".toList.isPrefixOf "circle".toList = true) from by decide)]
  have e1 : hits "style".toList
      (if Int.land symbol.output_options b.EMBED_VECTOR_FONT ≠ 0 ∧ ¬ vector.strings.isEmpty
        then ["style>".toList, "/style".toList] else []) =
      if Int.land symbol.output_options b.EMBED_VECTOR_FONT ≠ 0 ∧ ¬ vector.strings.isEmpty
        then 1 else 0 := by
    split_ifs <;> decide
  have e2 : hits "style".toList
      (if (b.out_colour_get_rgb symbol.bgcolour).2.2.2 % 256 ≠ 0 then ["rect x".toList]
        else []) = 0 := by
    split_ifs <;> decide
  rw [e1, e2]
  simp

theorem count_tag_document_open (b : Backend) (symbol : zint_symbol) (vector : zint_vector)
    (hu : '<' ∉ b.upcean_woff2) (hn : '<' ∉ b.normal_woff2) (name : List Char)
    (hname : name ∈ ["rect".toList, "path".toList, "circle".toList, "text".toList]) :
    count_tag name
      (header_text b vector ++ style_text b symbol vector ++ group_text b symbol) = 0 := by
  rw [count_tag_eq_hits _ _ (by
    simp only [List.mem_cons, List.mem_singleton, List.not_mem_nil, or_false] at hname
    rcases hname with h | h | h | h <;> subst h <;> decide),
    (heads_document_open b symbol vector hu hn).2]
  simp only [List.mem_cons, List.mem_singleton, List.not_mem_nil, or_false] at hname
  rcases hname with h | h | h | h <;> subst h <;> split_ifs <;> decide

theorem background_text_explicit (b : Backend) (symbol : zint_symbol) (vector : zint_vector) :
    background_text b symbol vector =
      if (b.out_colour_get_rgb symbol.bgcolour).2.2.2 % 256 ≠ 0 then
        "  <rect x=\"0\" y=\"0\" width=\"".toList ++ extent_text b vector.width ++
          "\" height=\"".toList ++ extent_text b vector.height ++ "\" fill=\"#".toList ++
          colour_string (b.out_colour_get_rgb symbol.bgcolour) ++ "\"".toList ++
          (if (b.out_colour_get_rgb symbol.bgcolour).2.2.2 % 256 ≠ 255 then
            " opacity=\"".toList ++
              out_float 3 (alpha_opacity ((b.out_colour_get_rgb symbol.bgcolour).2.2.2 % 256)) ++
              "\"".toList
            else []) ++ "/>\n".toList
      else [] := by
  unfold background_text opacity_close_text
  simp only [ne_eq, one_ne_zero, not_false_eq_true, if_true, List.append_assoc]

theorem svg_document_text_open (b : Backend) (symbol : zint_symbol) (vector : zint_vector) :
    ∃ rest, svg_document_text b symbol vector =
      header_text b vector ++ style_text b symbol vector ++ group_text b symbol ++
        background_text b symbol vector ++ rest :=
  ⟨_, by rw [svg_document_text_split, ← List.append_assoc]⟩

theorem hex_val_foldl (ds : List Char) (acc : Nat) :
    ds.foldl (fun acc c => 16 * acc + hex_digit_val c) acc =
      acc * 16 ^ ds.length + hex_val ds := by
  induction ds generalizing acc with
  | nil => simp [hex_val]
  | cons c ds ih =>
    simp only [List.foldl_cons, List.length_cons, hex_val]
    rw [ih, ih (16 * 0 + hex_digit_val c)]
    ring

theorem hex_val_append (a b : List Char) :
    hex_val (a ++ b) = hex_val a * 16 ^ b.length + hex_val b := by
  have h := hex_val_foldl b (hex_val a)
  unfold hex_val at h ⊢
  rw [List.foldl_append]
  exact h

theorem sprintf_02X_byte : ∀ x, x < 256 →
    (∀ c ∈ sprintf_02X x, is_hex_upper c = true) ∧ hex_val (sprintf_02X x) = x := by
  decide!

/-- The colour string is six upper-case hexadecimal digits whose value is the
red, green and blue bytes in that order. -/
theorem colour_string_spec (rgba : Nat × Nat × Nat × Nat) :
    (colour_string rgba).length = 6 ∧
    (∀ c ∈ colour_string rgba, is_hex_upper c = true) ∧
    hex_val (colour_string rgba) =
      (rgba.1 % 256) * 65536 + (rgba.2.1 % 256) * 256 + rgba.2.2.1 % 256 := by
  have h1 := sprintf_02X_byte (rgba.1 % 256) (Nat.mod_lt _ (by decide))
  have h2 := sprintf_02X_byte (rgba.2.1 % 256) (Nat.mod_lt _ (by decide))
  have h3 := sprintf_02X_byte (rgba.2.2.1 % 256) (Nat.mod_lt _ (by decide))
  have hl : ∀ x, (sprintf_02X x).length = 2 := fun _ => rfl
  unfold colour_string
  refine ⟨by simp [hl], ?_, ?_⟩
  · intro c hc
    simp only [List.mem_append] at hc
    rcases hc with (hc | hc) | hc
    · exact h1.1 c hc
    · exact h2.1 c hc
    · exact h3.1 c hc
  · rw [hex_val_append, hex_val_append, h1.2, h2.2, h3.2, hl, hl]
    ring

theorem opacity_attr_eq (x : Nat) :
    (if x % 256 ≠ 255 then
        " opacity=\"".toList ++ out_float 3 (alpha_opacity (x % 256)) ++ "\"".toList
      else []) =
    (if x % 256 ≠ 255 then
        " opacity=\"".toList ++ render_ratio (x % 256) 255 3 ++ "\"".toList
      else []) := by
  by_cases h : x % 256 = 255
  · simp [h]
  · have hlt : x % 256 < 255 := by
      have := Nat.mod_lt x (show 0 < 256 by decide)
      omega
    simp only [ne_eq, h, not_false_eq_true, if_true, alpha_opacity, out_float_alpha _ hlt]

/-- C12: for every symbol with a vector header whose labels fit the scratch
buffer (the font blobs being free of `<`, as Base64 text is) the document is
the header, the style block when there is one, the opening of the group, then
the background rectangle exactly when the background alpha is not 0, then the
rest.  The rectangle is `<rect x="0" y="0"` with the width and height texts of
the root, the fill `#` and six upper-case hexadecimal digits whose value is
the red, green and blue bytes of the background colour, an opacity attribute
exactly when the alpha is not 255 (the alpha over 255 at 3 decimals), and it is
self-closed.  What precedes it holds no rect, path, circle or text element, and
the document holds one `<rect` when the alpha is not 0 and none otherwise. -/
theorem svg_plot_string_background (b : Backend) (symbol : zint_symbol) (vector : zint_vector)
    (hv : symbol.vector = some vector) (hfit : html_fits b symbol vector)
    (hu : '<' ∉ b.upcean_woff2) (hn : '<' ∉ b.normal_woff2) :
    ∃ doc rest : List Char,
      svg_plot_string b symbol = some { ret := some doc, errtxt := none, error_code := none } ∧
      doc = header_text b vector ++ style_text b symbol vector ++ group_text b symbol ++
        (if (b.out_colour_get_rgb symbol.bgcolour).2.2.2 % 256 ≠ 0 then
          "  <rect x=\"0\" y=\"0\" width=\"".toList ++ extent_text b vector.width ++
            "\" height=\"".toList ++ extent_text b vector.height ++ "\" fill=\"#".toList ++
            colour_string (b.out_colour_get_rgb symbol.bgcolour) ++ "\"".toList ++
            (if (b.out_colour_get_rgb symbol.bgcolour).2.2.2 % 256 ≠ 255 then
              " opacity=\"".toList ++
                render_ratio ((b.out_colour_get_rgb symbol.bgcolour).2.2.2 % 256) 255 3 ++
                "\"".toList
              else []) ++ "/>\n".toList
        else []) ++ rest ∧
      (colour_string (b.out_colour_get_rgb symbol.bgcolour)).length = 6 ∧
      (∀ c ∈ colour_string (b.out_colour_get_rgb symbol.bgcolour), is_hex_upper c = true) ∧
      hex_val (colour_string (b.out_colour_get_rgb symbol.bgcolour)) =
        ((b.out_colour_get_rgb symbol.bgcolour).1 % 256) * 65536 +
          ((b.out_colour_get_rgb symbol.bgcolour).2.1 % 256) * 256 +
          (b.out_colour_get_rgb symbol.bgcolour).2.2.1 % 256 ∧
      header_text b vector =
        ("<?xml version=\"1.0\" standalone=\"no\"?>\n" ++
          "<!DOCTYPE svg PUBLIC \"-//W3C//DTD SVG 1.1//EN\" " ++
          "\"http://www.w3.org/Graphics/SVG/1.1/DTD/svg11.dtd\">\n").toList ++
        "<svg width=\"".toList ++ extent_text b vector.width ++ "\" height=\"".toList ++
          extent_text b vector.height ++
          "\" version=\"1.1\" xmlns=\"http://www.w3.org/2000/svg\">\n".toList ++
        " <desc>Zint Generated Symbol</desc>\n".toList ∧
      group_text b symbol =
        " <g id=\"barcode\" fill=\"#".toList ++
          colour_string (b.out_colour_get_rgb symbol.fgcolour) ++ "\">\n".toList ∧
      (∀ name ∈ ["rect".toList, "path".toList, "circle".toList, "text".toList],
        count_tag name
          (header_text b vector ++ style_text b symbol vector ++ group_text b symbol) = 0) ∧
      count_tag "rect".toList doc =
        (if (b.out_colour_get_rgb symbol.bgcolour).2.2.2 % 256 ≠ 0 then 1 else 0) := by
  obtain ⟨rest, hrest⟩ := svg_document_text_open b symbol vector
  obtain ⟨c1, c2, c3⟩ := colour_string_spec (b.out_colour_get_rgb symbol.bgcolour)
  refine ⟨svg_document_text b symbol vector, rest,
    svg_plot_string_of_vector b symbol vector hv hfit,
    ?_, c1, c2, c3, rfl, rfl,
    fun name hname => count_tag_document_open b symbol vector hu hn name hname,
    count_tag_rect_document b symbol vector hu hn⟩
  rw [hrest, background_text_explicit, opacity_attr_eq]

/-- Witness of C12: a scene with the translucent background `12345680` has the
background rectangle with fill `#123456` and opacity `0.502`. -/
theorem svg_plot_string_background_witness :
    html_fits translucent_backend
      { symbology := 20, output_options := 0, fgcolour := "000000".toList,
        bgcolour := "12345680".toList, text := [],
        vector := some (sample_vector [sample_rect (-1)] [] []) }
      (sample_vector [sample_rect (-1)] [] []) ∧
    '<' ∉ translucent_backend.upcean_woff2 ∧ '<' ∉ translucent_backend.normal_woff2 ∧
    ∃ rest : List Char,
      svg_plot_string translucent_backend
        { symbology := 20, output_options := 0, fgcolour := "000000".toList,
          bgcolour := "12345680".toList, text := [],
          vector := some (sample_vector [sample_rect (-1)] [] []) } =
        some { ret := some
                 (("<?xml version=\"1.0\" standalone=\"no\"?>\n" ++
                   "<!DOCTYPE svg PUBLIC \"-//W3C//DTD SVG 1.1//EN\" " ++
                   "\"http://www.w3.org/Graphics/SVG/1.1/DTD/svg11.dtd\">\n" ++
                   "<svg width=\"100\" height=\"50\" version=\"1.1\" " ++
                   "xmlns=\"http://www.w3.org/2000/svg\">\n" ++
                   " <desc>Zint Generated Symbol</desc>\n" ++
                   " <g id=\"barcode\" fill=\"#000000\">\n" ++
                   "  <rect x=\"0\" y=\"0\" width=\"100\" height=\"50\" fill=\"#123456\"" ++
                   " opacity=\"0.502\"/>\n").toList ++ rest)
               errtxt := none
               error_code := none } :=
  ⟨by decide, by decide, by decide,
    match svg_plot_string_background translucent_backend
      { symbology := 20, output_options := 0, fgcolour := "000000".toList,
        bgcolour := "12345680".toList, text := [],
        vector := some (sample_vector [sample_rect (-1)] [] []) }
      (sample_vector [sample_rect (-1)] [] []) rfl (by decide) (by decide) (by decide) with
    | ⟨_, rest, h1, h2, _, _, _, _, _, _, _⟩ =>
      ⟨rest, h1.trans (congrArg (fun d => some (PlotOutcome.mk (some d) none none))
        (h2.trans (congrArg (fun x => x ++ rest) (by decide))))⟩⟩

theorem svg_document_text_style (b : Backend) (symbol : zint_symbol) (vector : zint_vector) :
    ∃ rest, svg_document_text b symbol vector =
      header_text b vector ++ style_text b symbol vector ++ group_text b symbol ++ rest :=
  ⟨_, svg_document_text_split b symbol vector⟩

/-- C14: for every symbol with a vector header whose labels fit the scratch
buffer (the font blobs being free of `<`, as Base64 text is) the document is the header, which ends with the
`<desc>` line, then the style block exactly when `EMBED_VECTOR_FONT` is set and
there is a text label, then the opening of the group, then the rest.  The style
block holds one `@font-face` rule, with the family `OCRB` and the UPC/EAN blob
for a symbology of the UPC/EAN family and with `Arimo` and the normal blob
otherwise, and the document holds one `<style` when the block is written and
none otherwise. -/
theorem svg_plot_string_style (b : Backend) (symbol : zint_symbol) (vector : zint_vector)
    (hv : symbol.vector = some vector) (hfit : html_fits b symbol vector)
    (hu : '<' ∉ b.upcean_woff2) (hn : '<' ∉ b.normal_woff2) :
    ∃ doc root rest : List Char,
      svg_plot_string b symbol = some { ret := some doc, errtxt := none, error_code := none } ∧
      doc = root ++ " <desc>Zint Generated Symbol</desc>\n".toList ++
        (if Int.land symbol.output_options b.EMBED_VECTOR_FONT ≠ 0 ∧ ¬ vector.strings.isEmpty then
          " <style>@font-face \x7bfont-family:\"".toList ++
            (if b.is_upcean symbol.symbology then "OCRB".toList else "Arimo".toList) ++
            "\"; src:url(data:font/woff2;base64,".toList ++
            (if b.is_upcean symbol.symbology then b.upcean_woff2 else b.normal_woff2) ++
            ");\x7d</style>\n".toList
        else []) ++
        (" <g id=\"barcode\" fill=\"#".toList ++
          colour_string (b.out_colour_get_rgb symbol.fgcolour) ++ "\">\n".toList) ++ rest ∧
      count_tag "style".toList doc =
        (if Int.land symbol.output_options b.EMBED_VECTOR_FONT ≠ 0 ∧ ¬ vector.strings.isEmpty
          then 1 else 0) := by
  obtain ⟨rest, hrest⟩ := svg_document_text_style b symbol vector
  refine ⟨svg_document_text b symbol vector,
    ("<?xml version=\"1.0\" standalone=\"no\"?>\n" ++
      "<!DOCTYPE svg PUBLIC \"-//W3C//DTD SVG 1.1//EN\" " ++
      "\"http://www.w3.org/Graphics/SVG/1.1/DTD/svg11.dtd\">\n").toList ++
    "<svg width=\"".toList ++ extent_text b vector.width ++ "\" height=\"".toList ++
      extent_text b vector.height ++
      "\" version=\"1.1\" xmlns=\"http://www.w3.org/2000/svg\">\n".toList, rest,
    svg_plot_string_of_vector b symbol vector hv hfit, ?_, ?_⟩
  · rw [hrest]
    rfl
  · rw [count_tag_style_document b symbol vector hu hn]

/-- Witness of C14: with the option set and one label the document has one
style block. -/
theorem svg_plot_string_style_witness :
    (sample_symbol 262144 "AB".toList (sample_vector [] [sample_label "AB".toList] [])).vector =
      some (sample_vector [] [sample_label "AB".toList] []) ∧
    html_fits sample_backend
      (sample_symbol 262144 "AB".toList (sample_vector [] [sample_label "AB".toList] []))
      (sample_vector [] [sample_label "AB".toList] []) ∧
    '<' ∉ sample_backend.upcean_woff2 ∧ '<' ∉ sample_backend.normal_woff2 ∧
    ∃ doc : List Char,
      svg_plot_string sample_backend
          (sample_symbol 262144 "AB".toList (sample_vector [] [sample_label "AB".toList] []))
        = some { ret := some doc, errtxt := none, error_code := none } ∧
      count_tag "style".toList doc = 1 :=
  ⟨rfl, by decide, by decide, by decide,
    match svg_plot_string_style sample_backend
      (sample_symbol 262144 "AB".toList (sample_vector [] [sample_label "AB".toList] []))
      (sample_vector [] [sample_label "AB".toList] []) rfl (by decide) (by decide)
      (by decide) with
    | ⟨doc, _, _, h1, _, h3⟩ => ⟨doc, h1, h3.trans (by decide)⟩⟩

theorem bit_length_zero (fuel : Nat) : bit_length fuel 0 = 0 := by
  cases fuel <;> simp [bit_length]

theorem bit_length_spec (fuel n : Nat) (h : n ≤ fuel) (hn : 0 < n) :
    1 ≤ bit_length fuel n ∧ 2 ^ (bit_length fuel n - 1) ≤ n ∧ n < 2 ^ bit_length fuel n := by
  induction fuel generalizing n with
  | zero => omega
  | succ fuel ih =>
    unfold bit_length
    rw [if_neg (by omega)]
    by_cases h2 : n / 2 = 0
    · rw [h2, bit_length_zero]
      have : n = 1 := by omega
      subst this
      simp
    · obtain ⟨i1, i2, i3⟩ := ih (n / 2) (by omega) (by omega)
      refine ⟨by omega, ?_, ?_⟩
      · rw [Nat.add_sub_cancel]
        have e : 2 ^ bit_length fuel (n / 2) = 2 * 2 ^ (bit_length fuel (n / 2) - 1) := by
          rw [← Nat.pow_succ']
          congr 1
          omega
        omega
      · rw [Nat.pow_succ]
        omega

theorem round_half_even_one (n : Nat) : round_half_even n 1 = n := by
  simp [round_half_even, Nat.mod_one]

theorem toInt_round_core (u : F32 → Int) (neg : Bool) (c L : Nat)
    (hL0 : 1 ≤ L) (hL1 : 2 ^ (L - 1) ≤ c) (hL2 : c < 2 ^ L) (hL24 : L ≤ 24) :
    F32.toInt u
      (let k0 : Int := (L : Int) - ((1 : Nat) : Int)
       let ge : Bool :=
         if 0 ≤ k0 then decide (1 * 2 ^ k0.toNat ≤ c) else decide (1 ≤ c * 2 ^ (-k0).toNat)
       let k : Int := if ge then k0 else k0 - 1
       let p : Int := max (k - 23) (-149)
       let m : Nat :=
         if 0 ≤ p then round_half_even c (1 * 2 ^ p.toNat)
         else round_half_even (c * 2 ^ (-p).toNat) 1
       let m1 : Nat := if m = 2 ^ 24 then 2 ^ 23 else m
       let p1 : Int := if m = 2 ^ 24 then p + 1 else p
       if h : m1 < 2 ^ 24 ∧ -149 ≤ p1 ∧ p1 ≤ 104 then F32.fin neg m1 p1 h.1 h.2.1 h.2.2
       else F32.inf neg) = if neg then -(c : Int) else (c : Int) := by
  obtain ⟨j, rfl⟩ : ∃ j, L = j + 1 := ⟨L - 1, by omega⟩
  have e1 : ((j + 1 : Nat) : Int) - ((1 : Nat) : Int) = (j : Int) := by push_cast; ring
  have e2 : max ((j : Int) - 23) (-149) = (j : Int) - 23 := by
    apply max_eq_left; omega
  have hj : 2 ^ j ≤ c := by simpa using hL1
  simp only [e1, Int.toNat_ofNat, Int.ofNat_nonneg, Int.natCast_nonneg, if_true, Nat.one_mul,
    hj, decide_True, e2, round_half_even_one]
  have e3 : (-((j : Int) - 23)).toNat = 23 - j := by omega
  have eM : (if 0 ≤ (j : Int) - 23 then round_half_even c (2 ^ ((j : Int) - 23).toNat)
      else c * 2 ^ (-((j : Int) - 23)).toNat) = c * 2 ^ (23 - j) := by
    by_cases hj23 : j = 23
    · subst hj23
      simp [round_half_even_one]
    · rw [if_neg (by omega), e3]
  have hM : c * 2 ^ (23 - j) < 2 ^ 24 := by
    calc c * 2 ^ (23 - j) < 2 ^ (j + 1) * 2 ^ (23 - j) :=
          Nat.mul_lt_mul_of_pos_right hL2 (by positivity)
      _ = 2 ^ 24 := by rw [← Nat.pow_add]; congr 1; omega
  simp only [eM, if_neg (Nat.ne_of_lt hM)]
  rw [dif_pos ⟨hM, by omega, by omega⟩]
  have hc24 : c < 2 ^ 24 := lt_of_lt_of_le hL2 (Nat.pow_le_pow_right (by decide) hL24)
  have hmag : (if 0 ≤ (j : Int) - 23 then c * 2 ^ (23 - j) * 2 ^ ((j : Int) - 23).toNat
      else c * 2 ^ (23 - j) / 2 ^ (-((j : Int) - 23)).toNat) = c := by
    by_cases hj23 : j = 23
    · subst hj23
      simp
    · rw [if_neg (by omega), e3, Nat.mul_div_cancel _ (by positivity)]
  simp only [F32.toInt, hmag]
  have hc24i : (c : Int) < 16777216 := by exact_mod_cast hc24
  cases neg
  · simp only [Bool.false_eq_true, if_false]
    rw [if_pos (by omega)]
  · simp only [if_true]
    rw [if_pos (by omega)]

theorem toInt_round_nat (u : F32 → Int) (neg : Bool) (c : Nat) (hc : c < 2 ^ 24) :
    F32.toInt u (F32.round neg c 1) = if neg then -(c : Int) else (c : Int) := by
  by_cases h0 : c = 0
  · subst h0
    cases neg <;> rfl
  · obtain ⟨hL0, hL1, hL2⟩ := bit_length_spec c c le_rfl (Nat.pos_of_ne_zero h0)
    have hL24 : bit_length c c ≤ 24 := by
      by_contra hcon
      have : 2 ^ 24 ≤ 2 ^ (bit_length c c - 1) := Nat.pow_le_pow_right (by decide) (by omega)
      omega
    unfold F32.round
    rw [if_neg h0]
    exact toInt_round_core u neg c (bit_length c c) hL0 hL1 hL2 hL24

theorem toInt_ceilf (u : F32 → Int) (x : F32) (hfin : x.isFinite = true)
    (h0 : 0 ≤ x.toRat) (hmax : ⌈x.toRat⌉ ≤ 2147483647) :
    F32.toInt u (F32.ceilf x) = ⌈x.toRat⌉ := by
  cases x with
  | inf neg => simp [F32.isFinite] at hfin
  | nan neg => simp [F32.isFinite] at hfin
  | fin neg mant exp hm hlo hhi =>
    have hzero : neg = true → mant = 0 := by
      intro hn
      subst hn
      simp only [F32.toRat, if_true] at h0
      by_contra hne
      have hpos : (0 : ℚ) < (mant : ℚ) * (2 : ℚ) ^ exp := by
        have : (0 : ℚ) < (mant : ℚ) := by exact_mod_cast Nat.pos_of_ne_zero hne
        positivity
      linarith
    by_cases he : 0 ≤ exp
    · obtain ⟨e, rfl⟩ := Int.eq_ofNat_of_zero_le he
      have hr : (F32.fin neg mant (e : Int) hm hlo hhi).toRat =
          (((if neg then -1 else 1) * ((mant * 2 ^ e : Nat) : Int) : Int) : ℚ) := by
        simp only [F32.toRat, zpow_natCast]
        cases neg <;> push_cast <;> ring
      rw [hr, Int.ceil_intCast] at hmax ⊢
      simp only [F32.ceilf, if_pos he, F32.toInt, Int.toNat_ofNat]
      cases neg with
      | true =>
        have := hzero rfl
        subst this
        simp
      | false =>
        simp only [Bool.false_eq_true, if_false, one_mul] at hmax ⊢
        rw [if_pos ⟨by omega, hmax⟩]
    · obtain ⟨k, hk⟩ : ∃ k : Nat, exp = -(k : Int) := ⟨(-exp).toNat, by omega⟩
      subst hk
      have hD : 0 < 2 ^ k := by positivity
      have hr : (F32.fin neg mant (-(k : Int)) hm hlo hhi).toRat =
          (if neg then -1 else 1) * ((mant : ℚ) / ((2 ^ k : Nat) : ℚ)) := by
        simp only [F32.toRat, zpow_neg, zpow_natCast]
        push_cast
        ring
      simp only [F32.ceilf, if_neg he, neg_neg, Int.toNat_ofNat]
      cases neg with
      | true =>
        have := hzero rfl
        subst this
        rw [if_pos rfl, hr, toInt_round_nat _ _ _ (by simp)]
        simp
      | false =>
        simp only [Bool.false_eq_true, if_false]
        have hdm := Nat.div_add_mod (mant + 2 ^ k - 1) (2 ^ k)
        have hml := Nat.mod_lt (mant + 2 ^ k - 1) hD
        generalize hcdef : (mant + 2 ^ k - 1) / 2 ^ k = c at hdm
        have h1 : mant ≤ 2 ^ k * c := by omega
        have h2 : 2 ^ k * c < mant + 2 ^ k := by omega
        have hcm : c ≤ mant := by
          by_contra hcon
          have : 2 ^ k * (mant + 1) ≤ 2 ^ k * c := Nat.mul_le_mul_left _ (by omega)
          have h3 : 2 ^ k * (mant + 1) = 2 ^ k * mant + 2 ^ k := by ring
          have h4 : mant ≤ 2 ^ k * mant := Nat.le_mul_of_pos_left _ hD
          omega
        rw [toInt_round_nat _ _ _ (by omega), hr]
        simp only [Bool.false_eq_true, if_false, one_mul]
        symm
        rw [Int.ceil_eq_iff]
        have hDq : (0 : ℚ) < ((2 ^ k : Nat) : ℚ) := by exact_mod_cast hD
        have h1q : (mant : ℚ) ≤ ((2 ^ k : Nat) : ℚ) * (c : ℚ) := by exact_mod_cast h1
        have h2q : ((2 ^ k : Nat) : ℚ) * (c : ℚ) < (mant : ℚ) + ((2 ^ k : Nat) : ℚ) := by
          exact_mod_cast h2
        constructor
        · rw [lt_div_iff₀ hDq]
          push_cast at h2q ⊢
          linarith
        · rw [div_le_iff₀ hDq]
          push_cast at h1q ⊢
          linarith

theorem extent_text_ceil (b : Backend) (x : F32) (hfin : x.isFinite = true)
    (h0 : 0 ≤ x.toRat) (hmax : ⌈x.toRat⌉ ≤ 2147483647) :
    extent_text b x = dec_digits ⌈x.toRat⌉.toNat ⌈x.toRat⌉.toNat := by
  have hc : 0 ≤ ⌈x.toRat⌉ := Int.ceil_nonneg h0
  unfold extent_text sprintf_d
  rw [toInt_ceilf _ x hfin h0 hmax, if_neg (by omega)]
  congr 1 <;> omega

theorem svg_document_text_root (b : Backend) (symbol : zint_symbol) (vector : zint_vector) :
    ∃ rest, svg_document_text b symbol vector =
      ("<?xml version=\"1.0\" standalone=\"no\"?>\n" ++
        "<!DOCTYPE svg PUBLIC \"-//W3C//DTD SVG 1.1//EN\" " ++
        "\"http://www.w3.org/Graphics/SVG/1.1/DTD/svg11.dtd\">\n").toList ++
      "<svg width=\"".toList ++ extent_text b vector.width ++ "\" height=\"".toList ++
        extent_text b vector.height ++
        "\" version=\"1.1\" xmlns=\"http://www.w3.org/2000/svg\">\n".toList ++ rest := by
  obtain ⟨rest, h⟩ := svg_document_text_style b symbol vector
  refine ⟨" <desc>Zint Generated Symbol</desc>\n".toList ++ style_text b symbol vector ++
    group_text b symbol ++ rest, ?_⟩
  rw [h]
  unfold header_text
  simp only [List.append_assoc]

/-- C13: for every symbol whose vector header has finite, non-negative width
and height with ceilings that fit an `int`, and whose labels fit the scratch
buffer, the document starts with the XML
declaration, the DOCTYPE and the root tag whose width and height attributes are
the decimal digits of the least integers not below the width and the height. -/
theorem svg_plot_string_root_extents (b : Backend) (symbol : zint_symbol)
    (vector : zint_vector) (hv : symbol.vector = some vector)
    (hfit : html_fits b symbol vector)
    (hwf : vector.width.isFinite = true) (hhf : vector.height.isFinite = true)
    (hw0 : 0 ≤ vector.width.toRat) (hh0 : 0 ≤ vector.height.toRat)
    (hwmax : ⌈vector.width.toRat⌉ ≤ 2147483647)
    (hhmax : ⌈vector.height.toRat⌉ ≤ 2147483647) :
    (∃ rest : List Char,
      svg_plot_string b symbol =
        some { ret := some
                 (("<?xml version=\"1.0\" standalone=\"no\"?>\n" ++
                    "<!DOCTYPE svg PUBLIC \"-//W3C//DTD SVG 1.1//EN\" " ++
                    "\"http://www.w3.org/Graphics/SVG/1.1/DTD/svg11.dtd\">\n").toList ++
                  "<svg width=\"".toList ++
                  dec_digits ⌈vector.width.toRat⌉.toNat ⌈vector.width.toRat⌉.toNat ++
                  "\" height=\"".toList ++
                  dec_digits ⌈vector.height.toRat⌉.toNat ⌈vector.height.toRat⌉.toNat ++
                  "\" version=\"1.1\" xmlns=\"http://www.w3.org/2000/svg\">\n".toList ++ rest)
               errtxt := none
               error_code := none }) ∧
    (∀ x ∈ [vector.width, vector.height],
      x.toRat ≤ (⌈x.toRat⌉.toNat : ℚ) ∧
      (∀ n : Nat, x.toRat ≤ (n : ℚ) → ⌈x.toRat⌉.toNat ≤ n) ∧
      (∀ c ∈ dec_digits ⌈x.toRat⌉.toNat ⌈x.toRat⌉.toNat, z_isdigit c = true) ∧
      digits_val (dec_digits ⌈x.toRat⌉.toNat ⌈x.toRat⌉.toNat) = ⌈x.toRat⌉.toNat) := by
  constructor
  · obtain ⟨rest, h⟩ := svg_document_text_root b symbol vector
    refine ⟨rest, ?_⟩
    rw [svg_plot_string_of_vector b symbol vector hv hfit, h,
      extent_text_ceil b _ hwf hw0 hwmax, extent_text_ceil b _ hhf hh0 hhmax]
  · have key : ∀ x : F32, 0 ≤ x.toRat →
        x.toRat ≤ (⌈x.toRat⌉.toNat : ℚ) ∧
        (∀ n : Nat, x.toRat ≤ (n : ℚ) → ⌈x.toRat⌉.toNat ≤ n) ∧
        (∀ c ∈ dec_digits ⌈x.toRat⌉.toNat ⌈x.toRat⌉.toNat, z_isdigit c = true) ∧
        digits_val (dec_digits ⌈x.toRat⌉.toNat ⌈x.toRat⌉.toNat) = ⌈x.toRat⌉.toNat := by
      intro x hx
      have hc : 0 ≤ ⌈x.toRat⌉ := Int.ceil_nonneg hx
      have hcast : ((⌈x.toRat⌉.toNat : Nat) : ℚ) = ((⌈x.toRat⌉ : Int) : ℚ) := by
        rw [← Int.cast_natCast, Int.toNat_of_nonneg hc]
      refine ⟨?_, ?_, dec_digits_isdigit _ _, digits_val_dec_digits _ _ le_rfl⟩
      · rw [hcast]
        exact Int.le_ceil _
      · intro n hn
        have : ⌈x.toRat⌉ ≤ (n : Int) := Int.ceil_le.2 (by exact_mod_cast hn)
        omega
    intro x hx
    simp only [List.mem_cons, List.mem_singleton, List.not_mem_nil, or_false] at hx
    rcases hx with rfl | rfl
    · exact key _ hw0
    · exact key _ hh0

/-- Witness of C13: the width 99.01 is written as 100 and the height 50 as 50. -/
theorem svg_plot_string_root_extents_witness :
    html_fits sample_backend
      (sample_symbol 0 []
        { width := F32.round false 9901 100, height := F32.ofNat 50,
          rectangles := [], hexagons := [], strings := [], circles := [] })
      { width := F32.round false 9901 100, height := F32.ofNat 50,
        rectangles := [], hexagons := [], strings := [], circles := [] } ∧
    (F32.round false 9901 100).isFinite = true ∧ (F32.ofNat 50).isFinite = true ∧
    (0 : ℚ) ≤ (F32.round false 9901 100).toRat ∧ (0 : ℚ) ≤ (F32.ofNat 50).toRat ∧
    ⌈(F32.round false 9901 100).toRat⌉ ≤ 2147483647 ∧
    ⌈(F32.ofNat 50).toRat⌉ ≤ 2147483647 ∧
    ∃ rest : List Char,
      svg_plot_string sample_backend
          (sample_symbol 0 []
            { width := F32.round false 9901 100, height := F32.ofNat 50,
              rectangles := [], hexagons := [], strings := [], circles := [] }) =
        some { ret := some
                 (("<?xml version=\"1.0\" standalone=\"no\"?>\n" ++
                    "<!DOCTYPE svg PUBLIC \"-//W3C//DTD SVG 1.1//EN\" " ++
                    "\"http://www.w3.org/Graphics/SVG/1.1/DTD/svg11.dtd\">\n").toList ++
                  "<svg width=\"".toList ++ "100".toList ++ "\" height=\"".toList ++
                  "50".toList ++
                  "\" version=\"1.1\" xmlns=\"http://www.w3.org/2000/svg\">\n".toList ++ rest)
               errtxt := none
               error_code := none } :=
  ⟨by decide, by decide, by decide, by decide!, by decide!, by decide!, by decide!,
    (svg_plot_string_root_extents sample_backend
      (sample_symbol 0 []
        { width := F32.round false 9901 100, height := F32.ofNat 50,
          rectangles := [], hexagons := [], strings := [], circles := [] })
      { width := F32.round false 9901 100, height := F32.ofNat 50,
        rectangles := [], hexagons := [], strings := [], circles := [] }
      rfl (by decide) (by decide) (by decide) (by decide!) (by decide!) (by decide!)
      (by decide!)).1.imp
      fun rest h =>
        h.trans (by
          rw [show ⌈(F32.round false 9901 100).toRat⌉.toNat = 100 from by decide!,
            show ⌈(F32.ofNat 50).toRat⌉.toNat = 50 from by decide!]
          rfl)⟩

theorem extent_text_100 (b : Backend) : extent_text b (F32.ofNat 100) = "100".toList := by
  rw [extent_text_ceil b _ (by decide) (by decide!) (by decide!),
    show ⌈(F32.ofNat 100).toRat⌉.toNat = 100 from by decide!]
  decide

theorem extent_text_50 (b : Backend) : extent_text b (F32.ofNat 50) = "50".toList := by
  rw [extent_text_ceil b _ (by decide) (by decide!) (by decide!),
    show ⌈(F32.ofNat 50).toRat⌉.toNat = 50 from by decide!]
  decide

theorem svg_document_text_black_on_white (b : Backend) (symbol : zint_symbol)
    (hfg : b.out_colour_get_rgb symbol.fgcolour = (0, 0, 0, 255))
    (hbg : b.out_colour_get_rgb symbol.bgcolour = (255, 255, 255, 255)) :
    svg_document_text b symbol
      { width := F32.ofNat 100, height := F32.ofNat 50,
        rectangles := [{ x := F32.zero, y := F32.zero, height := F32.ofNat 50,
                         width := F32.ofNat 100, colour := -1 }],
        hexagons := [], strings := [], circles := [] } = black_on_white_document := by
  rw [svg_document_text_split]
  unfold header_text style_text group_text background_text
  simp only [hfg, hbg, List.flatMap_nil, extent_text_100, extent_text_50, List.isEmpty_nil,
    not_true_eq_false, and_false, if_false]
  decide

/-- C11 fails as stated: the path element of the black on white scene is
`<path d="M0 0h100v50h-100Z"/>`, without a fill attribute. -/
theorem black_on_white_path_without_fill :
    svg_plot_string sample_backend (sample_symbol 0 [] (sample_vector [sample_rect (-1)] [] [])) =
      some { ret := some black_on_white_document, errtxt := none, error_code := none } ∧
    tag_texts "path".toList black_on_white_document =
      ["<path d=\"M0 0h100v50h-100Z\"/>".toList] ∧
    occurs "fill".toList "<path d=\"M0 0h100v50h-100Z\"/>".toList = false := by
  refine ⟨?_, by decide, by decide⟩
  rw [svg_plot_string_of_vector sample_backend _ _ rfl (by decide)]
  exact congrArg (fun d => some (PlotOutcome.mk (some d) none none))
    (svg_document_text_black_on_white sample_backend _ (by decide) (by decide))

/-- C11 as amended: for the scene with canvas 100 by 50, opaque black
foreground, opaque white background, one rectangle (0, 0, 100, 50) in the
foreground colour and no other shape, the document is `black_on_white_document`:
it holds one `<rect` (the background) and one `<path`, the path has no fill
attribute of its own and lies in the group with fill `#000000`, and the word
`opacity` does not occur in the document. -/
theorem svg_plot_string_black_on_white (b : Backend) (symbol : zint_symbol)
    (hfg : b.out_colour_get_rgb symbol.fgcolour = (0, 0, 0, 255))
    (hbg : b.out_colour_get_rgb symbol.bgcolour = (255, 255, 255, 255))
    (hv : symbol.vector = some
      { width := F32.ofNat 100, height := F32.ofNat 50,
        rectangles := [{ x := F32.zero, y := F32.zero, height := F32.ofNat 50,
                         width := F32.ofNat 100, colour := -1 }],
        hexagons := [], strings := [], circles := [] }) :
    svg_plot_string b symbol =
      some { ret := some black_on_white_document, errtxt := none, error_code := none } ∧
    count_tag "rect".toList black_on_white_document = 1 ∧
    count_tag "path".toList black_on_white_document = 1 ∧
    tag_texts "rect".toList black_on_white_document =
      ["<rect x=\"0\" y=\"0\" width=\"100\" height=\"50\" fill=\"#FFFFFF\"/>".toList] ∧
    tag_texts "path".toList black_on_white_document =
      ["<path d=\"M0 0h100v50h-100Z\"/>".toList] ∧
    tag_texts "g".toList black_on_white_document =
      ["<g id=\"barcode\" fill=\"#000000\">".toList] ∧
    occurs "opacity".toList black_on_white_document = false := by
  refine ⟨?_, by decide, by decide, by decide, by decide, by decide, by decide⟩
  rw [svg_plot_string_of_vector b symbol _ hv (fun s hs => absurd hs (List.not_mem_nil s)),
    svg_document_text_black_on_white b symbol hfg hbg]

/-- Witness of C11 as amended, on the sample backend. -/
theorem svg_plot_string_black_on_white_witness :
    sample_backend.out_colour_get_rgb
      (sample_symbol 0 [] (sample_vector [sample_rect (-1)] [] [])).fgcolour = (0, 0, 0, 255) ∧
    sample_backend.out_colour_get_rgb
      (sample_symbol 0 [] (sample_vector [sample_rect (-1)] [] [])).bgcolour
        = (255, 255, 255, 255) ∧
    svg_plot_string sample_backend (sample_symbol 0 [] (sample_vector [sample_rect (-1)] [] [])) =
      some { ret := some black_on_white_document, errtxt := none, error_code := none } :=
  ⟨by decide, by decide,
    (svg_plot_string_black_on_white sample_backend
      (sample_symbol 0 [] (sample_vector [sample_rect (-1)] [] [])) (by decide) (by decide)
      rfl).1⟩

theorem flatMap_split_of_mem {α : Type} (f : α → List Char) (l : List α) (x : α)
    (h : x ∈ l) : ∃ before after, l.flatMap f = before ++ f x ++ after := by
  obtain ⟨s, t, rfl⟩ := List.append_of_mem h
  exact ⟨s.flatMap f, t.flatMap f, by simp [List.flatMap_append, List.append_assoc]⟩

theorem string_text_explicit (upcean : Bool) (options bold_bit : Int) (fg_alpha : Nat)
    (fg_alpha_opacity : F32) (string : zint_vector_string) :
    string_text upcean (decide (Int.land options bold_bit ≠ 0) && !upcean) fg_alpha
        fg_alpha_opacity string =
      "  <text".toList ++ " x=\"".toList ++ out_float 2 string.x ++ "\"".toList ++
        " y=\"".toList ++ out_float 2 string.y ++ "\"".toList ++
        " text-anchor=\"".toList ++
        (if string.halign = 2 then "end".toList
          else if string.halign = 1 then "start".toList else "middle".toList) ++ "\"".toList ++
        (if upcean = true then " font-family=\"OCRB, monospace\"".toList
          else " font-family=\"Arimo, Arial, sans-serif\"".toList) ++
        " font-size=\"".toList ++ out_float 1 string.fsize ++ "\"".toList ++
        (if Int.land options bold_bit ≠ 0 ∧ upcean = false then " font-weight=\"bold\"".toList
          else []) ++
        (if string.rotation ≠ 0 then
            " transform=\"rotate(".toList ++ sprintf_d string.rotation ++ ",".toList ++
              out_float 2 string.x ++ ",".toList ++ out_float 2 string.y ++ ")\"".toList
          else []) ++
        (if fg_alpha ≠ 255 then
            " opacity=\"".toList ++ out_float 3 fg_alpha_opacity ++ "\"".toList
          else []) ++
        ">\n".toList ++
        "   ".toList ++ svg_make_html_friendly string.text ++ "\n".toList ++
        "  </text>\n".toList := by
  unfold string_text opacity_close_text
  have hb : ((decide (Int.land options bold_bit ≠ 0) && !upcean) = true) ↔
      (Int.land options bold_bit ≠ 0 ∧ upcean = false) := by
    cases upcean <;> simp
  simp only [if_congr hb rfl rfl, ne_eq, not_true_eq_false, if_false, List.append_assoc]

theorem append_middle (a b c s1 m s2 t : List Char) :
    a ++ (b ++ (c ++ (s1 ++ m ++ s2) ++ t)) = (a ++ b ++ c ++ s1) ++ m ++ (s2 ++ t) := by
  simp only [List.append_assoc]

theorem svg_document_text_label (b : Backend) (symbol : zint_symbol) (vector : zint_vector)
    (string : zint_vector_string) (hs : string ∈ vector.strings) :
    ∃ before after, svg_document_text b symbol vector =
      before ++
        string_text (b.is_upcean symbol.symbology)
          (decide (Int.land symbol.output_options b.BOLD_TEXT ≠ 0) &&
            !b.is_upcean symbol.symbology)
          ((b.out_colour_get_rgb symbol.fgcolour).2.2.2 % 256)
          (alpha_opacity ((b.out_colour_get_rgb symbol.fgcolour).2.2.2 % 256)) string ++
        after := by
  obtain ⟨s1, s2, h⟩ := flatMap_split_of_mem
    (string_text (b.is_upcean symbol.symbology)
      (decide (Int.land symbol.output_options b.BOLD_TEXT ≠ 0) &&
        !b.is_upcean symbol.symbology)
      ((b.out_colour_get_rgb symbol.fgcolour).2.2.2 % 256)
      (alpha_opacity ((b.out_colour_get_rgb symbol.fgcolour).2.2.2 % 256)))
    vector.strings string hs
  rw [svg_document_text_split, h]
  exact ⟨_, _, append_middle _ _ _ _ _ _ _⟩

/-- C15: for every text label of a symbol with a vector header whose labels fit
the scratch buffer, the loop iteration appends, and the document contains, the
element made of `  <text`, x and y at 2 decimals, the text-anchor `end` for
halign 2, `start` for halign 1 and `middle` otherwise, the font family by
symbology, the font size at 1 decimal, `font-weight="bold"` exactly when
`BOLD_TEXT` is set and the symbology is not UPC/EAN, the transform
`rotate(angle,x,y)` exactly when the rotation is not 0, the foreground opacity
(the alpha over 255 at 3 decimals) exactly when the foreground alpha is not
255, then `>`, the escaped label text and the closing `</text>` tag. -/
theorem svg_plot_string_label (b : Backend) (symbol : zint_symbol) (vector : zint_vector)
    (string : zint_vector_string) (hv : symbol.vector = some vector)
    (hfit : html_fits b symbol vector) (hs : string ∈ vector.strings) :
    ∃ element before after : List Char,
      element =
        "  <text".toList ++ " x=\"".toList ++ out_float 2 string.x ++ "\"".toList ++
        " y=\"".toList ++ out_float 2 string.y ++ "\"".toList ++
        " text-anchor=\"".toList ++
        (if string.halign = 2 then "end".toList
          else if string.halign = 1 then "start".toList else "middle".toList) ++ "\"".toList ++
        (if b.is_upcean symbol.symbology = true then " font-family=\"OCRB, monospace\"".toList
          else " font-family=\"Arimo, Arial, sans-serif\"".toList) ++
        " font-size=\"".toList ++ out_float 1 string.fsize ++ "\"".toList ++
        (if Int.land symbol.output_options b.BOLD_TEXT ≠ 0 ∧
            b.is_upcean symbol.symbology = false then " font-weight=\"bold\"".toList
          else []) ++
        (if string.rotation ≠ 0 then
            " transform=\"rotate(".toList ++ sprintf_d string.rotation ++ ",".toList ++
              out_float 2 string.x ++ ",".toList ++ out_float 2 string.y ++ ")\"".toList
          else []) ++
        (if (b.out_colour_get_rgb symbol.fgcolour).2.2.2 % 256 ≠ 255 then
            " opacity=\"".toList ++
              render_ratio ((b.out_colour_get_rgb symbol.fgcolour).2.2.2 % 256) 255 3 ++
              "\"".toList
          else []) ++
        ">\n".toList ++
        "   ".toList ++ svg_make_html_friendly string.text ++ "\n".toList ++
        "  </text>\n".toList ∧
      (∀ fsvg : List Char,
        string_step (b.is_upcean symbol.symbology)
            (decide (Int.land symbol.output_options b.BOLD_TEXT ≠ 0) &&
              !b.is_upcean symbol.symbology)
            ((b.out_colour_get_rgb symbol.fgcolour).2.2.2 % 256)
            (alpha_opacity ((b.out_colour_get_rgb symbol.fgcolour).2.2.2 % 256))
            (svg_html_len b symbol) string fsvg =
          some (fsvg ++ element)) ∧
      svg_plot_string b symbol =
        some { ret := some (before ++ element ++ after), errtxt := none, error_code := none } := by
  obtain ⟨before, after, h⟩ := svg_document_text_label b symbol vector string hs
  refine ⟨_, before, after, rfl, ?_, ?_⟩
  · intro fsvg
    rw [string_step_eq _ _ _ _ _ _ _ (hfit string hs), string_text_explicit, opacity_attr_eq]
  · rw [svg_plot_string_of_vector b symbol vector hv hfit, h, string_text_explicit,
      opacity_attr_eq]

/-- Witness of C15: a bold label `A<B` rotated by 90 degrees and anchored at
its end, in a symbol whose text is `A<B`: the scratch buffer has 10 bytes and
the escaped label takes 7. -/
theorem svg_plot_string_label_witness :
    (sample_symbol 128 "A<B".toList (sample_vector []
      [{ x := F32.ofNat 10, y := F32.ofNat 20, fsize := F32.ofNat 7, width := F32.zero,
         length := -1, rotation := 90, halign := 2, text := "A<B".toList }] [])).vector =
      some (sample_vector []
      [{ x := F32.ofNat 10, y := F32.ofNat 20, fsize := F32.ofNat 7, width := F32.zero,
         length := -1, rotation := 90, halign := 2, text := "A<B".toList }] []) ∧
    html_fits sample_backend (sample_symbol 128 "A<B".toList (sample_vector []
      [{ x := F32.ofNat 10, y := F32.ofNat 20, fsize := F32.ofNat 7, width := F32.zero,
         length := -1, rotation := 90, halign := 2, text := "A<B".toList }] []))
      (sample_vector []
      [{ x := F32.ofNat 10, y := F32.ofNat 20, fsize := F32.ofNat 7, width := F32.zero,
         length := -1, rotation := 90, halign := 2, text := "A<B".toList }] []) ∧
    svg_html_len sample_backend (sample_symbol 128 "A<B".toList (sample_vector []
      [{ x := F32.ofNat 10, y := F32.ofNat 20, fsize := F32.ofNat 7, width := F32.zero,
         length := -1, rotation := 90, halign := 2, text := "A<B".toList }] [])) = 10 ∧
    escaped_size "A<B".toList = 7 ∧
    ∃ before after : List Char,
      svg_plot_string sample_backend
        (sample_symbol 128 "A<B".toList (sample_vector []
      [{ x := F32.ofNat 10, y := F32.ofNat 20, fsize := F32.ofNat 7, width := F32.zero,
         length := -1, rotation := 90, halign := 2, text := "A<B".toList }] [])) =
      some { ret := some (before ++
                ("  <text x=\"10\" y=\"20\" text-anchor=\"end\"" ++
                  " font-family=\"Arimo, Arial, sans-serif\" font-size=\"7\"" ++
                  " font-weight=\"bold\" transform=\"rotate(90,10,20)\">\n" ++
                  "   A&lt;B\n" ++ "  </text>\n").toList ++ after)
             errtxt := none
             error_code := none } :=
  ⟨rfl, by decide, by decide, by decide,
    match svg_plot_string_label sample_backend
      (sample_symbol 128 "A<B".toList (sample_vector []
      [{ x := F32.ofNat 10, y := F32.ofNat 20, fsize := F32.ofNat 7, width := F32.zero,
         length := -1, rotation := 90, halign := 2, text := "A<B".toList }] []))
      (sample_vector []
      [{ x := F32.ofNat 10, y := F32.ofNat 20, fsize := F32.ofNat 7, width := F32.zero,
         length := -1, rotation := 90, halign := 2, text := "A<B".toList }] [])
      { x := F32.ofNat 10, y := F32.ofNat 20, fsize := F32.ofNat 7, width := F32.zero,
         length := -1, rotation := 90, halign := 2, text := "A<B".toList }
      rfl (by decide) (List.mem_singleton.2 rfl) with
    | ⟨_, before, after, h1, _, h3⟩ =>
      ⟨before, after, h3.trans (congrArg
        (fun e => some (PlotOutcome.mk (some (before ++ e ++ after)) none none))
        (h1.trans (by decide)))⟩⟩

theorem append_fourth (a b r h m s t : List Char) :
    a ++ (b ++ (r ++ h ++ m ++ s ++ t)) = (a ++ b ++ r) ++ h ++ (m ++ s ++ t) := by
  simp only [List.append_assoc]

theorem svg_document_text_hexagons (b : Backend) (symbol : zint_symbol) (vector : zint_vector) :
    ∃ before after, svg_document_text b symbol vector =
      before ++
        plot_hexagons_text ((b.out_colour_get_rgb symbol.fgcolour).2.2.2 % 256)
          (alpha_opacity ((b.out_colour_get_rgb symbol.fgcolour).2.2.2 % 256)) vector.hexagons ++
        after := by
  rw [svg_document_text_split]
  exact ⟨_, _, append_fourth _ _ _ _ _ _ _⟩

theorem plot_hexagons_text_explicit (x : Nat) (hexes : List zint_vector_hexagon)
    (hne : hexes ≠ []) :
    plot_hexagons_text (x % 256) (alpha_opacity (x % 256)) hexes =
      "  <path d=\"".toList ++ (hex_coords hexes ⟨F32.zero, F32.zero, F32.zero, F32.zero⟩).flatMap polygon_text ++ "\"".toList ++
        (if x % 256 ≠ 255 then
          " opacity=\"".toList ++ render_ratio (x % 256) 255 3 ++ "\"".toList
        else []) ++ "/>\n".toList := by
  obtain ⟨h, rest, rfl⟩ := List.exists_cons_of_ne_nil hne
  unfold plot_hexagons_text opacity_close_text
  rw [opacity_attr_eq]
  simp only [List.isEmpty_cons, Bool.false_eq_true, if_false, ne_eq, one_ne_zero,
    not_false_eq_true, if_true, List.append_assoc]

/-- C9: for every symbol with a vector header whose labels fit the scratch
buffer and whose hexagon sequence is not empty, the hexagon block appends, and
the document contains, a single path element for all hexagons: `  <path d="`,
the path data, `"`, the foreground opacity (the foreground alpha of the symbol
over 255 at 3 decimals) exactly when that alpha is not 255, and `/>`, with no
fill attribute.  The path data is one subpath per hexagon, each an `M` vertex,
five `L` vertices (two coordinates at 2 decimals each) and a `Z`. -/
theorem svg_plot_string_hexagons (b : Backend) (symbol : zint_symbol) (vector : zint_vector)
    (hv : symbol.vector = some vector) (hfit : html_fits b symbol vector)
    (hne : vector.hexagons ≠ []) :
    ∃ data element before after : List Char,
      data = (hex_coords vector.hexagons ⟨F32.zero, F32.zero, F32.zero, F32.zero⟩).flatMap polygon_text ∧
      element =
        "  <path d=\"".toList ++ data ++ "\"".toList ++
          (if (b.out_colour_get_rgb symbol.fgcolour).2.2.2 % 256 ≠ 255 then
            " opacity=\"".toList ++
              render_ratio ((b.out_colour_get_rgb symbol.fgcolour).2.2.2 % 256) 255 3 ++
              "\"".toList
          else []) ++ "/>\n".toList ∧
      (∀ fsvg : List Char,
        plot_hexagons ((b.out_colour_get_rgb symbol.fgcolour).2.2.2 % 256)
            (alpha_opacity ((b.out_colour_get_rgb symbol.fgcolour).2.2.2 % 256)) vector.hexagons fsvg =
          some (fsvg ++ element)) ∧
      svg_plot_string b symbol =
        some { ret := some (before ++ element ++ after), errtxt := none,
               error_code := none } ∧
      (hex_coords vector.hexagons ⟨F32.zero, F32.zero, F32.zero, F32.zero⟩).length = vector.hexagons.length ∧
      (∀ vs ∈ hex_coords vector.hexagons ⟨F32.zero, F32.zero, F32.zero, F32.zero⟩,
        ∃ p1 p2 p3 p4 p5 p6, vs = [p1, p2, p3, p4, p5, p6] ∧
          polygon_text vs =
            vertex_text "M".toList p1 ++ vertex_text "L".toList p2 ++
            vertex_text "L".toList p3 ++ vertex_text "L".toList p4 ++
            vertex_text "L".toList p5 ++ vertex_text "L".toList p6 ++ "Z".toList) ∧
      (∀ (cmd : List Char) (v : F32 × F32),
        vertex_text cmd v = cmd ++ out_float 2 v.1 ++ " ".toList ++ out_float 2 v.2) ∧
      List.count 'M' data = vector.hexagons.length ∧
      List.count 'L' data = 5 * vector.hexagons.length ∧
      List.count 'Z' data = vector.hexagons.length ∧
      List.count '<' element = 1 := by
  obtain ⟨before, after, hdoc⟩ := svg_document_text_hexagons b symbol vector
  have hel := plot_hexagons_text_explicit (b.out_colour_get_rgb symbol.fgcolour).2.2.2
    vector.hexagons hne
  obtain ⟨_, g2, g3, g4, g5, g6, g7⟩ := plot_hexagons_single_path
    ((b.out_colour_get_rgb symbol.fgcolour).2.2.2 % 256)
    (alpha_opacity ((b.out_colour_get_rgb symbol.fgcolour).2.2.2 % 256)) vector.hexagons [] hne
  have hblock : "  <path d=\"".toList ++
      (hex_coords vector.hexagons ⟨F32.zero, F32.zero, F32.zero, F32.zero⟩).flatMap polygon_text ++ "\"".toList ++
      opacity_close_text ((b.out_colour_get_rgb symbol.fgcolour).2.2.2 % 256)
        (alpha_opacity ((b.out_colour_get_rgb symbol.fgcolour).2.2.2 % 256)) 1 =
      plot_hexagons_text ((b.out_colour_get_rgb symbol.fgcolour).2.2.2 % 256)
        (alpha_opacity ((b.out_colour_get_rgb symbol.fgcolour).2.2.2 % 256)) vector.hexagons := by
    obtain ⟨h, rest, hh⟩ := List.exists_cons_of_ne_nil hne
    unfold plot_hexagons_text
    rw [hh]
    simp only [List.isEmpty_cons, Bool.false_eq_true, if_false]
  rw [hblock, hel] at g7
  refine ⟨_, _, before, after, rfl, rfl, ?_, ?_, g2, g3, fun _ _ => rfl, g4, g5, g6, g7⟩
  · intro fsvg
    rw [plot_hexagons_text_eq, hel]
  · rw [svg_plot_string_of_vector b symbol vector hv hfit, hdoc, hel]

/-- Witness of C9: one hexagon of diameter 3 at (10, 20) in the translucent
foreground colour `12345680`. -/
theorem svg_plot_string_hexagons_witness :
    html_fits translucent_backend
      { symbology := 20, output_options := 0, fgcolour := "12345680".toList,
        bgcolour := "FFFFFF".toList, text := [],
        vector := some { width := F32.ofNat 100, height := F32.ofNat 50, rectangles := [],
                         hexagons := [sample_hexagon 0], strings := [], circles := [] } }
      { width := F32.ofNat 100, height := F32.ofNat 50, rectangles := [],
        hexagons := [sample_hexagon 0], strings := [], circles := [] } ∧
    ∃ before after : List Char,
      svg_plot_string translucent_backend
        { symbology := 20, output_options := 0, fgcolour := "12345680".toList,
          bgcolour := "FFFFFF".toList, text := [],
          vector := some { width := F32.ofNat 100, height := F32.ofNat 50, rectangles := [],
                           hexagons := [sample_hexagon 0], strings := [], circles := [] } } =
        some { ret := some (before ++
                  ("  <path d=\"M10 21.5L11.3 20.75L11.3 19.25L10 18.5L8.7 19.25L8.7 20.75Z\"" ++
                    " opacity=\"0.502\"/>\n").toList ++ after)
               errtxt := none
               error_code := none } :=
  ⟨by decide,
    match svg_plot_string_hexagons translucent_backend
      { symbology := 20, output_options := 0, fgcolour := "12345680".toList,
        bgcolour := "FFFFFF".toList, text := [],
        vector := some { width := F32.ofNat 100, height := F32.ofNat 50, rectangles := [],
                         hexagons := [sample_hexagon 0], strings := [], circles := [] } }
      { width := F32.ofNat 100, height := F32.ofNat 50, rectangles := [],
        hexagons := [sample_hexagon 0], strings := [], circles := [] }
      rfl (by decide) (List.cons_ne_nil _ _) with
    | ⟨_, _, before, after, hdata, he, _, hdoc, _⟩ =>
      ⟨before, after, hdoc.trans (congrArg
        (fun e => some (PlotOutcome.mk (some (before ++ e ++ after)) none none))
        (he.trans (by
          rw [hdata]
          decide)))⟩⟩

end ZintSvg
